import Mathlib

/-!
Verification of the segregated free-list allocator in src/mm.c.

The development shallowly embeds mm.c:
  - pure helpers (get_class, size rounding, the link codec) become Lean
    functions on Nat with machine arithmetic made explicit (mod 2^32 or
    2^64 where the C code works on uint32_t or size_t);
  - the heap is a byte-addressed memory (Nat to Nat, each cell a byte);
    block headers, footers and free-list link words are 4-byte
    little-endian words in that memory, exactly as in the C code;
  - each circular doubly-linked free list additionally carries its cyclic
    node order as a Lean list (head first); flist_insert and flist_delete
    perform the same memory writes as the C code and update that order.
  - mem_sbrk is modelled by extending heapHi; a sbrkFail flag models a
    failing grow primitive; an ub flag records a write through a null
    pointer (memset or memcpy on a NULL destination in the C code).
-/

namespace MM

/-- LIMIT from mm.c line 62: 0x6400000 bytes. -/
def LIMIT : Nat := 104857600

/-- Word and double-word sizes (mm.c macros WSIZE and DSIZE). -/
def WSIZE : Nat := 4

def DSIZE : Nat := 8

/-- Low three header bits (mm.c macros ALLOC, PFIXED, SZCLASS, METAMASK). -/
def ALLOC : Nat := 1

def PFIXED : Nat := 2

def SZCLASS : Nat := 4

def METAMASK : Nat := 7

/-- Number of free lists (mm.c LISTBOUND). -/
def LISTBOUND : Nat := 13

/-- Bounded best-fit scan length (mm.c LOOKAHEAD). -/
def LOOKAHEAD : Nat := 10

/-- Size-class indices (mm.c SIZE4 .. SIZEN are 0 .. 12). -/
def SIZEN : Nat := 12

/-- 2 to the 32, the modulus of uint32_t arithmetic. -/
def W32 : Nat := 4294967296

/-- 2 to the 64, the modulus of size_t arithmetic. -/
def W64 : Nat := 18446744073709551616

/-- mm.c get_class: maps a payload size to a size class index 0..12
(SIZE4..SIZEN in the source). -/
def get_class (size : Nat) : Nat :=
  if size = 8 then 0
  else if size = 16 then 1
  else if size = 24 then 2
  else if size ≤ 36 then 3
  else if size ≤ 40 then 4
  else if size ≤ 48 then 5
  else if size ≤ 56 then 6
  else if size ≤ 72 then 7
  else if size ≤ 104 then 8
  else if size ≤ 304 then 9
  else if size ≤ 504 then 10
  else if size ≤ 1000 then 11
  else 12

/-- Modelled from the spec, section 4.3: the authoritative size-class
table, stated with the spec's class numbers (4..15 and 16 for the large
class N). Only used to compare against the source's get_class. -/
def classTable (s : Nat) : Nat :=
  if s = 8 then 4
  else if s = 16 then 5
  else if s = 24 then 6
  else if 25 ≤ s ∧ s ≤ 36 then 7
  else if 37 ≤ s ∧ s ≤ 40 then 8
  else if 41 ≤ s ∧ s ≤ 48 then 9
  else if 49 ≤ s ∧ s ≤ 56 then 10
  else if 57 ≤ s ∧ s ≤ 72 then 11
  else if 73 ≤ s ∧ s ≤ 104 then 12
  else if 105 ≤ s ∧ s ≤ 304 then 13
  else if 305 ≤ s ∧ s ≤ 504 then 14
  else if 505 ≤ s ∧ s ≤ 1000 then 15
  else if 1001 ≤ s then 16
  else 0

/-- mm.c get_fixed_bucket_offset: distance back to the previous block for
the two footerless classes, selected by the SZCLASS bit (the argument is
head and SZCLASS, i.e. 0 or 4, shifted right by 2). -/
def get_fixed_bucket_offset (cls : Nat) : Nat :=
  match cls >>> 2 with
  | 0 => 16
  | 1 => 24
  | _ => 0

/-- The 8-byte alignment round-up shared by malloc and realloc:
(size + 7) and not-7, in 64-bit size_t arithmetic. -/
def sizeAlign8 (size : Nat) : Nat :=
  ((size + 7) % 18446744073709551616) &&& 18446744073709551608

/-- The size adjustment at the top of mm.c malloc: round to a multiple
of 8, then clamp (12,20] to 16 and anything at most 12 to 8. -/
def mallocSizeAdj (size : Nat) : Nat :=
  let s1 := sizeAlign8 size
  let s2 := if s1 ≤ 20 ∧ 12 < s1 then 16 else s1
  if s2 ≤ 12 then 8 else s2

/-- mm.c setnext and setprev store the low 32 bits of the pointer value
itself: n.next = (uint32_t)(long)val. -/
def linkEncode (val : Nat) : Nat := val % 4294967296

/-- mm.c next and prev decode a stored offset o as lbound + o, with 0
meaning NULL. -/
def linkDecode (lbound o : Nat) : Option Nat :=
  if o = 0 then none else some (lbound + o)

/-- Modelled from the spec, section 4.1: the codec the spec describes
encodes a pointer p as (uint32)(p - L) relative to the heap base L.
Only used to compare against the source's encoding. -/
def specEncode (lbound p : Nat) : Nat := (p - lbound) % 4294967296





section Memory

/-- Byte-addressed heap memory.  Cells are masked to a byte on read. -/
abbrev Mem := Nat → Nat

def readB (m : Mem) (a : Nat) : Nat := m a % 256

def writeB (m : Mem) (a v : Nat) : Mem := fun x => if x = a then v else m x

/-- Little-endian 32-bit load, as the C code's uint32_t reads. -/
def readW (m : Mem) (a : Nat) : Nat :=
  readB m a + 256 * readB m (a + 1) + 65536 * readB m (a + 2) +
    16777216 * readB m (a + 3)

/-- Little-endian 32-bit store, as the C code's uint32_t writes. -/
def writeW (m : Mem) (a v : Nat) : Mem :=
  writeB (writeB (writeB (writeB m a v) (a + 1) (v / 256)) (a + 2) (v / 65536))
    (a + 3) (v / 16777216)

/-- The C library memcpy, with the mathematical copy semantics: the
destination range takes the source bytes of the pre-call memory. -/
def memcpy (m : Mem) (dst src len : Nat) : Mem :=
  fun x => if dst ≤ x ∧ x < dst + len then m (src + (x - dst)) else m x

/-- The C library memset with value 0. -/
def memsetZero (m : Mem) (p len : Nat) : Mem :=
  fun x => if p ≤ x ∧ x < p + len then 0 else m x

end Memory

/-- Allocator state.  mem is the heap memory; flists i is the cyclic
order of free list i (ghost view of the circular linked list whose link
words live inside mem), head first; prolog, epilog, lbound, heapHi
mirror the globals and memlib queries of mm.c; sbrkFail tells whether
the next mem_sbrk call fails; ub records a write through a NULL
pointer. -/
structure St where
  mem : Mem
  flists : Nat → List Nat
  prolog : Nat
  epilog : Nat
  lbound : Nat
  heapHi : Nat
  sbrkFail : Bool
  ub : Bool

/-- mem_heapsize from memlib: bytes between heap_lo and heap_hi. -/
def heapsize (s : St) : Nat := s.heapHi + 1 - s.lbound

/-- mm.c block_size: head and 0xfffffff8. -/
def block_size_m (s : St) (n : Nat) : Nat := readW s.mem n &&& 4294967288

/-- mm.c block_free: the ALLOC bit is clear. -/
def block_free_m (s : St) (n : Nat) : Bool := readW s.mem n &&& 1 == 0

/-- mm.c block_class. -/
def block_class_m (s : St) (n : Nat) : Nat := get_class (block_size_m s n)

/-- mm.c block_next: NULL at the epilog, else address plus size plus
DSIZE. -/
def block_next_m (s : St) (n : Nat) : Option Nat :=
  if n = s.epilog then none else some (n + block_size_m s n + 8)

/-- mm.c block_prev: NULL at the prolog; if our header has PFIXED, a
fixed offset back (selected by SZCLASS); else the word just before us is
the previous block's footer and its size field locates that header. -/
def block_prev_m (s : St) (n : Nat) : Option Nat :=
  if n ≠ s.prolog then
    if readW s.mem n &&& 2 ≠ 0 then
      some (n - get_fixed_bucket_offset (readW s.mem n &&& 4))
    else
      some (n - ((readW s.mem (n - 4) &&& 4294967288) + 8))
  else none

/-- mm.c next: decode the next link (offset 8 in the node) as
lbound + stored, 0 meaning NULL. -/
def next_ (s : St) (n : Nat) : Option Nat :=
  if readW s.mem (n + 8) = 0 then none
  else some (s.lbound + readW s.mem (n + 8))

/-- mm.c setnext: n.next = (uint32_t)(long)val (readW masks the stored
value to 32 bits, matching the cast). -/
def setnext (s : St) (n val : Nat) : St :=
  { s with mem := writeW s.mem (n + 8) val }

/-- mm.c prev: decode the prev link (offset 4 in the node). -/
def prev_ (s : St) (n : Nat) : Option Nat :=
  if readW s.mem (n + 4) = 0 then none
  else some (s.lbound + readW s.mem (n + 4))

/-- mm.c setprev. -/
def setprev (s : St) (n val : Nat) : St :=
  { s with mem := writeW s.mem (n + 4) val }

/-- Pointwise update of the ghost list table. -/
def setList (f : Nat → List Nat) (i : Nat) (l : List Nat) : Nat → List Nat :=
  fun j => if j = i then l else f j

/-- mm.c flist_insert: splice n in front of the current head (or
self-link into an empty list) and make n the head.  The memory writes
are exactly those of the C code (a NULL decode stores 0, like the
(uint32_t) cast of a NULL pointer); the ghost list records the new
cyclic order with the new head first. -/
def flist_insert (s : St) (n : Nat) (i : Nat) : St :=
  match s.flists i with
  | h :: t =>
      let s1 := setnext s n h
      let s2 := setprev s1 n ((prev_ s1 h).getD 0)
      let s3 := setprev s2 h n
      let s4 := setnext s3 ((prev_ s3 n).getD 0) n
      { s4 with flists := setList s4.flists i (n :: h :: t) }
  | [] =>
      let s1 := setnext s n n
      let s2 := setprev s1 n n
      { s2 with flists := setList s2.flists i [n] }

/-- mm.c flist_delete: when n is alone (its next link points to
itself) the list becomes empty; otherwise splice n out and, when n was
the head, advance the head, which is exactly erasing n from the cyclic
order kept head first. -/
def flist_delete (s : St) (n : Nat) (i : Nat) : St :=
  if next_ s n = some n then
    { s with flists := setList s.flists i [] }
  else
    let s1 := setprev s ((next_ s n).getD 0) ((prev_ s n).getD 0)
    let s2 := setnext s1 ((prev_ s1 n).getD 0) ((next_ s1 n).getD 0)
    { s2 with flists := setList s2.flists i ((s2.flists i).erase n) }

/-- mm.c add: insert by the block's current class. -/
def add (s : St) (n : Nat) : St := flist_insert s n (block_class_m s n)

/-- mm.c delete: remove from the list of the block's current class. -/
def delete (s : St) (n : Nat) : St := flist_delete s n (block_class_m s n)

/-- mm.c block_mark: for the two footerless classes set PFIXED and
SZCLASS appropriately in the next block's header (two stores, as in the
source); otherwise copy the header into the footer slot and clear
PFIXED and SZCLASS in the next header. -/
def block_mark (s : St) (n : Nat) : St :=
  let cls := block_class_m s n
  if cls < 2 then
    match block_next_m s n with
    | some m =>
        let h1 := if cls ≠ 0 then readW s.mem m ||| 4
                  else readW s.mem m &&& 4294967291
        let s1 := { s with mem := writeW s.mem m h1 }
        { s1 with mem := writeW s1.mem m (readW s1.mem m ||| 2) }
    | none => s
  else
    let s1 := { s with mem := writeW s.mem (n + block_size_m s n + 4) (readW s.mem n) }
    match block_next_m s1 n with
    | some m => { s1 with mem := writeW s1.mem m (readW s1.mem m &&& 4294967289) }
    | none => s1

/-- mm.c get_combined_size3: payload of a three-way coalesce. -/
def get_combined_size3 (s : St) (n m w : Nat) : Nat :=
  block_size_m s n + block_size_m s m + block_size_m s w + 16

/-- mm.c get_combined_size2: payload of a two-way coalesce. -/
def get_combined_size2 (s : St) (n m : Nat) : Nat :=
  block_size_m s n + block_size_m s m + 8

/-- mm.c found: unlink, set ALLOC, re-mark, return the payload address
(the address of the node's prev field). -/
def found (s : St) (n : Nat) : Option Nat × St :=
  let s1 := delete s n
  let s2 := { s1 with mem := writeW s1.mem n (readW s1.mem n ||| 1) }
  let s3 := block_mark s2 n
  (some (n + 4), s3)

/-- mm.c carve: split n into an allocated prefix of payload s0 and a
free remainder of payload s1, add the remainder to its list. -/
def carve (s : St) (n s0 s1 : Nat) : Option Nat × St :=
  let sA := delete s n
  let sB := { sA with mem := writeW sA.mem n (s0 ||| (readW sA.mem n &&& 6) ||| 1) }
  let sC := block_mark sB n
  let m := (block_next_m sC n).getD 0
  let sD := { sC with mem := writeW sC.mem m (s1 ||| (readW sC.mem m &&& 6)) }
  let sE := block_mark sD m
  let sF := add sE m
  (some (n + 4), sF)

/-- The successive states of carve, named so the proofs below can speak
about the pipeline one step at a time: carveA is the unlink, carveB the
prefix header write, carveC the prefix re-mark, carveM the remainder
address, carveD the remainder header write and carveE the remainder
re-mark (carve then adds the remainder and returns). -/
def carveA (s : St) (n : Nat) : St := delete s n

/-- The carve pipeline after the prefix header write. -/
def carveB (s : St) (n s0 : Nat) : St :=
  { carveA s n with
    mem := writeW (carveA s n).mem n (s0 ||| (readW (carveA s n).mem n &&& 6) ||| 1) }

/-- The carve pipeline after the prefix re-mark. -/
def carveC (s : St) (n s0 : Nat) : St := block_mark (carveB s n s0) n

/-- The address of the carve remainder block. -/
def carveM (s : St) (n s0 : Nat) : Nat := (block_next_m (carveC s n s0) n).getD 0

/-- The carve pipeline after the remainder header write. -/
def carveD (s : St) (n s0 s1 : Nat) : St :=
  { carveC s n s0 with
    mem := writeW (carveC s n s0).mem (carveM s n s0)
      (s1 ||| (readW (carveC s n s0).mem (carveM s n s0) &&& 6)) }

/-- The carve pipeline after the remainder re-mark. -/
def carveE (s : St) (n s0 s1 : Nat) : St := block_mark (carveD s n s0 s1) (carveM s n s0)


/-- The bounded best-fit lookahead of mm.c searchlist: scan at most
LOOKAHEAD successors (the tail of the cyclic order, where the C loop
stops when it would wrap to the start), adopting any strictly smaller
block that still fits. -/
def bestScan (s : St) (size : Nat) : Nat → List Nat → Nat → Nat → Nat × Nat
  | _, [], best, n => (best, n)
  | count, m :: rest, best, n =>
      if count < 10 then
        let tmp := block_size_m s m
        if tmp < best ∧ size ≤ tmp then bestScan s size (count + 1) rest tmp m
        else bestScan s size (count + 1) rest best n
      else (best, n)

/-- The outer first-fit loop of mm.c searchlist over the cyclic order
(the C loop walks next links and stops on NULL or on wrapping to the
start, i.e. it traverses the cyclic order once). -/
def searchLoop (s : St) (size : Nat) : List Nat → Option Nat × St
  | [] => (none, s)
  | n :: rest =>
      let best := block_size_m s n
      if size ≤ best then
        let bn := bestScan s size 0 rest best n
        if 16 ≤ bn.1 - size then carve s bn.2 size (bn.1 - size - 8)
        else found s bn.2
      else searchLoop s size rest

/-- mm.c searchlist: empty list fails; a head whose class is below
SIZE11 is returned unconditionally; otherwise first-fit with bounded
best-fit, then carve when the chosen block leaves at least 16 bytes. -/
def searchlist (s : St) (i : Nat) (size : Nat) : Option Nat × St :=
  match s.flists i with
  | [] => (none, s)
  | n :: rest =>
      if block_class_m s n < 7 then found s n
      else searchLoop s size (n :: rest)

/-- mm.c malloc. -/
def malloc (s : St) (size0 : Nat) : Option Nat × St :=
  let size := mallocSizeAdj size0
  if size < 8 then (none, s)
  else
    let p := get_class size
    let r1 := searchlist s p size
    match r1.1 with
    | some a => (some a, r1.2)
    | none =>
        let r2 := if p ≠ 12 then searchlist r1.2 12 size else (none, r1.2)
        match r2.1 with
        | some a => (some a, r2.2)
        | none =>
            let up := size + 8
            if LIMIT < up + heapsize r2.2 then (none, r2.2)
            else if r2.2.sbrkFail then (none, r2.2)
            else
              let res := r2.2.heapHi + 1
              let s3 := { r2.2 with heapHi := r2.2.heapHi + up }
              let n := res - 4
              let s4 := { s3 with
                mem := writeW s3.mem n (size ||| (readW s3.mem s3.epilog &&& 7)) }
              let s5 := { s4 with epilog := s4.heapHi - 3 }
              let s6 := { s5 with mem := writeW s5.mem s5.epilog 1 }
              let s7 := block_mark s6 n
              (some (n + 4), s7)

/-- The successive states of malloc's heap-grow path, named for the
proofs below: growA is the mem_sbrk bound move, growN the new block's
address (the old epilog), growB the new header write, growC the epilog
relocation, growD the new epilog header write, growE the re-mark. -/
def growA (s : St) (size : Nat) : St := { s with heapHi := s.heapHi + (size + 8) }

/-- The address of the block created by the grow path. -/
def growN (s : St) : Nat := s.heapHi + 1 - 4

/-- The grow path after the new block's header write. -/
def growB (s : St) (size : Nat) : St :=
  { growA s size with
    mem := writeW (growA s size).mem (growN s)
      (size ||| (readW (growA s size).mem (growA s size).epilog &&& 7)) }

/-- The grow path after the epilog relocation. -/
def growC (s : St) (size : Nat) : St :=
  { growB s size with epilog := (growB s size).heapHi - 3 }

/-- The grow path after the new epilog header write. -/
def growD (s : St) (size : Nat) : St :=
  { growC s size with mem := writeW (growC s size).mem (growC s size).epilog 1 }

/-- The grow path after the re-mark. -/
def growE (s : St) (size : Nat) : St := block_mark (growD s size) (growN s)


/-- mm.c free.  The argument is an Option to model a possibly NULL
pointer, on which free is a no-op. -/
def free_ (s : St) (ptr : Option Nat) : St :=
  match ptr with
  | none => s
  | some p =>
      let n := p - 4
      let s1 := { s with mem := writeW s.mem n (readW s.mem n &&& 4294967294) }
      let nxt := (block_next_m s1 n).getD 0
      let prv := (block_prev_m s1 n).getD 0
      if block_free_m s1 nxt then
        let s2 := delete s1 nxt
        if block_free_m s2 prv then
          let s3 := delete s2 prv
          let sz := get_combined_size3 s3 prv n nxt
          let s4 := { s3 with mem := writeW s3.mem prv (sz ||| (readW s3.mem prv &&& 7)) }
          let s5 := block_mark s4 prv
          add s5 prv
        else
          let sz := get_combined_size2 s2 n nxt
          let s3 := { s2 with mem := writeW s2.mem n (sz ||| (readW s2.mem n &&& 6)) }
          let s4 := block_mark s3 n
          add s4 n
      else
        if block_free_m s1 prv then
          let s2 := delete s1 prv
          let sz := get_combined_size2 s2 prv n
          let s3 := { s2 with mem := writeW s2.mem prv (sz ||| (readW s2.mem prv &&& 7)) }
          let s4 := block_mark s3 prv
          add s4 prv
        else add s1 n

/-- The successive states of free's coalescing paths, named for the
proofs below: freeS1 clears ALLOC in the freed header; freeNxt and
freePrv are the decoded neighbours; freeTT, freeFT and freeTF mirror
the source's (left free, right free), (left allocated, right free) and
(left free, right allocated) merge paths. -/
def freeS1 (s : St) (p : Nat) : St :=
  { s with mem := writeW s.mem (p - 4) (readW s.mem (p - 4) &&& 4294967294) }

/-- The decoded right neighbour of the freed block. -/
def freeNxt (s : St) (p : Nat) : Nat := (block_next_m (freeS1 s p) (p - 4)).getD 0

/-- The decoded left neighbour of the freed block. -/
def freePrv (s : St) (p : Nat) : Nat := (block_prev_m (freeS1 s p) (p - 4)).getD 0

/-- The merge paths after unlinking the right neighbour. -/
def freeTT2 (s : St) (p : Nat) : St := delete (freeS1 s p) (freeNxt s p)

/-- The three-way merge path after also unlinking the left neighbour. -/
def freeTT3 (s : St) (p : Nat) : St := delete (freeTT2 s p) (freePrv s p)

/-- The payload of the three-way merge. -/
def freeTTsz (s : St) (p : Nat) : Nat :=
  get_combined_size3 (freeTT3 s p) (freePrv s p) (p - 4) (freeNxt s p)

/-- The three-way merge path after the combined header write. -/
def freeTT4 (s : St) (p : Nat) : St :=
  { freeTT3 s p with
    mem := writeW (freeTT3 s p).mem (freePrv s p)
      (freeTTsz s p ||| (readW (freeTT3 s p).mem (freePrv s p) &&& 7)) }

/-- The full three-way merge path. -/
def freeTT (s : St) (p : Nat) : St :=
  add (block_mark (freeTT4 s p) (freePrv s p)) (freePrv s p)

/-- The payload of the right-neighbour merge. -/
def freeFTsz (s : St) (p : Nat) : Nat :=
  get_combined_size2 (freeTT2 s p) (p - 4) (freeNxt s p)

/-- The right-neighbour merge path after the combined header write. -/
def freeFT3 (s : St) (p : Nat) : St :=
  { freeTT2 s p with
    mem := writeW (freeTT2 s p).mem (p - 4)
      (freeFTsz s p ||| (readW (freeTT2 s p).mem (p - 4) &&& 6)) }

/-- The full right-neighbour merge path. -/
def freeFT (s : St) (p : Nat) : St := add (block_mark (freeFT3 s p) (p - 4)) (p - 4)

/-- The left-neighbour merge path after unlinking the left neighbour. -/
def freeTF2 (s : St) (p : Nat) : St := delete (freeS1 s p) (freePrv s p)

/-- The payload of the left-neighbour merge. -/
def freeTFsz (s : St) (p : Nat) : Nat :=
  get_combined_size2 (freeTF2 s p) (freePrv s p) (p - 4)

/-- The left-neighbour merge path after the combined header write. -/
def freeTF3 (s : St) (p : Nat) : St :=
  { freeTF2 s p with
    mem := writeW (freeTF2 s p).mem (freePrv s p)
      (freeTFsz s p ||| (readW (freeTF2 s p).mem (freePrv s p) &&& 7)) }

/-- The full left-neighbour merge path. -/
def freeTF (s : St) (p : Nat) : St :=
  add (block_mark (freeTF3 s p) (freePrv s p)) (freePrv s p)


/-- Common tail of the in-place realloc paths: set ALLOC on the host
block, re-mark, and memcpy min(size, oldsize) payload bytes from the
old payload to the host payload. -/
def reallocTail (s : St) (prv op oldsize size : Nat) : Option Nat × St :=
  let s1 := { s with mem := writeW s.mem prv (readW s.mem prv ||| 1) }
  let s2 := block_mark s1 prv
  let cpy := if size < oldsize then size else oldsize
  let s3 := { s2 with mem := memcpy s2.mem (prv + 4) op cpy }
  (some (prv + 4), s3)

/-- mm.c relocate: malloc a new block, memcpy min(size, oldsize) bytes,
free the old pointer, return the new pointer.  The source does not
check the malloc result; on failure the C code hands NULL to memcpy,
recorded here by setting ub (execution is then continued as if the
copy had been skipped). -/
def relocate (s : St) (op oldsize size : Nat) : Option Nat × St :=
  let r := malloc s size
  match r.1 with
  | none =>
      let s2 := { r.2 with ub := true }
      (none, free_ s2 (some op))
  | some np =>
      let cpy := if size < oldsize then size else oldsize
      let s2 := { r.2 with mem := memcpy r.2.mem np op cpy }
      (some np, free_ s2 (some op))

/-- mm.c realloc. -/
def realloc (s : St) (oldptr : Option Nat) (size0 : Nat) : Option Nat × St :=
  if size0 = 0 then (none, free_ s oldptr)
  else
    match oldptr with
    | none => malloc s size0
    | some op =>
        let old := op - 4
        let size := sizeAlign8 size0
        if block_size_m s old = size then (some op, s)
        else
          let oldsize := block_size_m s old
          let prv := (block_prev_m s old).getD 0
          let nxt := (block_next_m s old).getD 0
          if block_free_m s nxt then
            if block_free_m s prv then
              let newsz := get_combined_size3 s prv old nxt
              if size ≤ newsz then
                let s1 := delete s prv
                let s2 := delete s1 nxt
                let s3 := { s2 with
                  mem := writeW s2.mem prv (newsz ||| (readW s2.mem prv &&& 6)) }
                reallocTail s3 prv op oldsize size
              else relocate s op oldsize size
            else
              let newsz := get_combined_size2 s old nxt
              if size ≤ newsz then
                let s1 := delete s nxt
                let s2 := { s1 with
                  mem := writeW s1.mem old (newsz ||| (readW s1.mem old &&& 6)) }
                let s3 := { s2 with mem := writeW s2.mem old (readW s2.mem old ||| 1) }
                let s4 := block_mark s3 old
                (some op, s4)
              else relocate s op oldsize size
          else
            if block_free_m s prv then
              let newsz := get_combined_size2 s prv old
              if size ≤ newsz then
                let s1 := delete s prv
                let s2 := { s1 with
                  mem := writeW s1.mem prv (newsz ||| (readW s1.mem prv &&& 6)) }
                reallocTail s2 prv op oldsize size
              else relocate s op oldsize size
            else relocate s op oldsize size

/-- The decoded right neighbour used by realloc (no ALLOC pre-clear:
realloc reads the neighbours of the live block directly). -/
def reNxt (s : St) (op : Nat) : Nat := (block_next_m s (op - 4)).getD 0

/-- The decoded left neighbour used by realloc. -/
def rePrv (s : St) (op : Nat) : Nat := (block_prev_m s (op - 4)).getD 0

/-- The payload of realloc's three-way in-place merge, computed in the
pre-call state as in the source. -/
def reTTsz (s : St) (op : Nat) : Nat :=
  get_combined_size3 s (rePrv s op) (op - 4) (reNxt s op)

/-- The three-way in-place merge after unlinking the left neighbour. -/
def reTT1 (s : St) (op : Nat) : St := delete s (rePrv s op)

/-- The three-way in-place merge after also unlinking the right
neighbour. -/
def reTT2 (s : St) (op : Nat) : St := delete (reTT1 s op) (reNxt s op)

/-- The three-way in-place merge after the combined header write. -/
def reTT3 (s : St) (op : Nat) : St :=
  { reTT2 s op with
    mem := writeW (reTT2 s op).mem (rePrv s op)
      (reTTsz s op ||| (readW (reTT2 s op).mem (rePrv s op) &&& 6)) }

/-- The payload of realloc's right-neighbour in-place growth. -/
def reFTsz (s : St) (op : Nat) : Nat := get_combined_size2 s (op - 4) (reNxt s op)

/-- The right-neighbour growth after unlinking the right neighbour. -/
def reFT1 (s : St) (op : Nat) : St := delete s (reNxt s op)

/-- The right-neighbour growth after the combined header write. -/
def reFT2 (s : St) (op : Nat) : St :=
  { reFT1 s op with
    mem := writeW (reFT1 s op).mem (op - 4)
      (reFTsz s op ||| (readW (reFT1 s op).mem (op - 4) &&& 6)) }

/-- The right-neighbour growth after setting ALLOC. -/
def reFT3 (s : St) (op : Nat) : St :=
  { reFT2 s op with
    mem := writeW (reFT2 s op).mem (op - 4)
      (readW (reFT2 s op).mem (op - 4) ||| 1) }

/-- The right-neighbour growth after the re-mark. -/
def reFT4 (s : St) (op : Nat) : St := block_mark (reFT3 s op) (op - 4)

/-- The payload of realloc's left-neighbour in-place merge. -/
def reTFsz (s : St) (op : Nat) : Nat := get_combined_size2 s (rePrv s op) (op - 4)

/-- The left-neighbour merge after unlinking the left neighbour. -/
def reTF1 (s : St) (op : Nat) : St := delete s (rePrv s op)

/-- The left-neighbour merge after the combined header write. -/
def reTF2 (s : St) (op : Nat) : St :=
  { reTF1 s op with
    mem := writeW (reTF1 s op).mem (rePrv s op)
      (reTFsz s op ||| (readW (reTF1 s op).mem (rePrv s op) &&& 6)) }


/-- mm.c calloc: malloc nmemb times size (a size_t product, wrapping
mod 2^64) and memset the result to zero.  The source checks neither the
malloc result (memset on NULL, recorded as ub) nor the product for
overflow. -/
def calloc (s : St) (nmemb size : Nat) : Option Nat × St :=
  let len := nmemb * size % 18446744073709551616
  let r := malloc s len
  match r.1 with
  | some p => (some p, { r.2 with mem := memsetZero r.2.mem p len })
  | none => (none, { r.2 with ub := true })

/-- mm.c mm_init, with the model's heap base at address 0: mem_sbrk(16)
and the four words 0, ALLOC, ALLOC, ALLOC; prolog at 4, epilog at 12. -/
def mm_init : St :=
  { mem := writeW (writeW (writeW (writeW (fun _ => 0) 0 0) 4 1) 8 1) 12 1
    flists := fun _ => []
    prolog := 4
    epilog := 12
    lbound := 0
    heapHi := 15
    sbrkFail := false
    ub := false }




/-- Cyclic indexing into a ghost free list (any index, modulo length). -/
def cyc (l : List Nat) (k : Nat) : Nat := (l.get? (k % l.length)).getD 0

/-- The link words stored in memory for list l decode to the cyclic
successor (next, at offset 8) and predecessor (prev, at offset 4) of
the ghost order. -/
abbrev linksOK (s : St) (l : List Nat) : Prop :=
  ∀ k, k < l.length →
    readW s.mem (cyc l k + 8) = cyc l (k + 1) - s.lbound ∧
    readW s.mem (cyc l k + 4) = cyc l (k + l.length - 1) - s.lbound

/-- A well-formed node of free list i: inside the heap past the prolog,
header at 4 mod 8 (so the payload is 8-aligned), extent ending before
the epilog, payload a multiple of 8 of at least 8 bytes, free, and of
the class its list is for. -/
abbrev nodeOK (s : St) (i a : Nat) : Prop :=
  s.lbound + 12 ≤ a ∧ a % 8 = 4 ∧
  a + block_size_m s a + 8 ≤ s.epilog ∧
  8 ≤ block_size_m s a ∧ block_size_m s a % 8 = 0 ∧
  block_free_m s a = true ∧
  get_class (block_size_m s a) = i

/-- Extents of distinct listed nodes are disjoint. -/
abbrev disjOK (s : St) : Prop :=
  ∀ i, i < 13 → ∀ a ∈ s.flists i, ∀ j, j < 13 → ∀ b ∈ s.flists j,
    (i = j ∧ a = b) ∨ a + block_size_m s a + 8 ≤ b ∨
      b + block_size_m s b + 8 ≤ a

/-- Well-formed heap: the heap base is a multiple of 2^32 (the
deployment assumption under which mm.c's 4-byte link encoding
round-trips), the sentinels sit where mm_init and malloc put them, the
heap spans less than 2^32 bytes, and every free-list node is well
formed, listed once, extent-disjoint from the other listed nodes, and
correctly linked. -/
abbrev WF (s : St) : Prop :=
  s.lbound % 4294967296 = 0 ∧
  s.prolog = s.lbound + 4 ∧
  s.epilog % 8 = 4 ∧
  s.heapHi = s.epilog + 3 ∧
  s.lbound + 12 ≤ s.epilog ∧
  s.heapHi < s.lbound + 4294967296 ∧
  (∀ i, i < 13 → ∀ a ∈ s.flists i, nodeOK s i a) ∧
  (∀ i, i < 13 → (s.flists i).Nodup) ∧
  disjOK s ∧
  (∀ i, i < 13 → linksOK s (s.flists i))

/-- A small well-formed heap: prolog at 4, a free 8-byte block at 12 on
list 0, an allocated 24-byte block at 28 (header 24|ALLOC|PFIXED, its
footer slot at 56), a free 24-byte block at 60 on list 2 (footer at
88), an allocated 8-byte block at 92, epilog at 108 (header
ALLOC|PFIXED). -/
def stC3 : St :=
  { mem := writeW (writeW (writeW (writeW (writeW (writeW (writeW (writeW
      (writeW (writeW (writeW (writeW (writeW (fun _ => 0)
      4 1) 8 1) 12 8) 16 12) 20 12) 28 27) 56 27) 60 24) 64 60) 68 60)
      88 24) 92 9) 108 3
    flists := fun i => if i = 0 then [12] else if i = 2 then [60] else []
    prolog := 4
    epilog := 108
    lbound := 0
    heapHi := 111
    sbrkFail := false
    ub := false }

/-- A state whose heap base is 8: not a multiple of 2^32. -/
def stC4 : St :=
  { mem := fun _ => 0
    flists := fun _ => []
    prolog := 12
    epilog := 20
    lbound := 8
    heapHi := 23
    sbrkFail := false
    ub := false }

/-- A well-formed heap grown to LIMIT bytes whose class-4 list still
holds a free 8-byte block at 12. -/
def stC8 : St :=
  { mem := writeW (writeW (writeW (writeW (writeW (fun _ => 0)
      4 1) 8 1) 12 8) 16 12) 20 12
    flists := fun i => if i = 0 then [12] else []
    prolog := 4
    epilog := 104857596
    lbound := 0
    heapHi := 104857599
    sbrkFail := false
    ub := false }


section BitFacts

lemma and7 (x : Nat) : x &&& 7 = x % 8 := by
  have h := Nat.and_pow_two_sub_one_eq_mod x 3
  norm_num at h
  exact h

lemma and1 (x : Nat) : x &&& 1 = x % 2 := by
  simpa using Nat.and_pow_two_sub_one_eq_mod x 1

lemma testBit_div_pow (x k i : Nat) (h : k ≤ i) :
    x.testBit i = (x / 2 ^ k).testBit (i - k) := by
  rw [Nat.testBit_to_div_mod, Nat.testBit_to_div_mod, Nat.div_div_eq_div_mul,
    ← pow_add]
  have hki : k + (i - k) = i := by omega
  rw [hki]

lemma testBit_ge (x n i : Nat) (hx : x < 2 ^ n) (h : n ≤ i) :
    x.testBit i = false :=
  Nat.testBit_lt_two_pow
    (lt_of_lt_of_le hx (Nat.pow_le_pow_right (by norm_num) h))

lemma and_high_mask (x n : Nat) (hn : 3 ≤ n) (hx : x < 2 ^ n) :
    x &&& (2 ^ n - 8) = x - x % 8 := by
  apply Nat.eq_of_testBit_eq
  intro i
  have hpow : (2 : Nat) ^ n = 2 ^ 3 * 2 ^ (n - 3) := by
    rw [← pow_add]
    congr 1
    omega
  have hmask : (2 : Nat) ^ n - 8 = 2 ^ 3 * (2 ^ (n - 3) - 1) + 0 := by
    have h1 : (1 : Nat) ≤ 2 ^ (n - 3) := Nat.one_le_two_pow
    omega
  have hx8 : x - x % 8 = 2 ^ 3 * (x / 8) + 0 := by omega
  rw [Nat.testBit_land, hmask, hx8,
    Nat.testBit_mul_pow_two_add _ (show (0 : Nat) < 2 ^ 3 by norm_num) i,
    Nat.testBit_mul_pow_two_add _ (show (0 : Nat) < 2 ^ 3 by norm_num) i]
  by_cases h3 : i < 3
  · simp [h3]
  · simp only [if_neg h3, Nat.testBit_two_pow_sub_one]
    have hdiv : x.testBit i = (x / 2 ^ 3).testBit (i - 3) :=
      testBit_div_pow x 3 i (by omega)
    norm_num at hdiv
    rw [hdiv]
    by_cases hlt : i - 3 < n - 3
    · simp [hlt]
    · have hfalse : (x / 8).testBit (i - 3) = false := by
        apply testBit_ge (x / 8) (n - 3) (i - 3) _ (by omega)
        have : x / 8 < 2 ^ n / 8 + 1 := by omega
        have h8 : (2 : Nat) ^ n / 8 = 2 ^ (n - 3) := by
          rw [hpow]
          norm_num [Nat.mul_div_cancel_left]
        omega
      simp [hfalse, hlt]

lemma and_not1_mask (x n : Nat) (hn : 1 ≤ n) (hx : x < 2 ^ n) :
    x &&& (2 ^ n - 2) = x - x % 2 := by
  apply Nat.eq_of_testBit_eq
  intro i
  have hpow : (2 : Nat) ^ n = 2 ^ 1 * 2 ^ (n - 1) := by
    rw [← pow_add]
    congr 1
    omega
  have hmask : (2 : Nat) ^ n - 2 = 2 ^ 1 * (2 ^ (n - 1) - 1) + 0 := by
    have h1 : (1 : Nat) ≤ 2 ^ (n - 1) := Nat.one_le_two_pow
    omega
  have hx2 : x - x % 2 = 2 ^ 1 * (x / 2) + 0 := by omega
  rw [Nat.testBit_land, hmask, hx2,
    Nat.testBit_mul_pow_two_add _ (show (0 : Nat) < 2 ^ 1 by norm_num) i,
    Nat.testBit_mul_pow_two_add _ (show (0 : Nat) < 2 ^ 1 by norm_num) i]
  by_cases h1 : i < 1
  · simp [h1]
  · simp only [if_neg h1, Nat.testBit_two_pow_sub_one]
    have hdiv : x.testBit i = (x / 2 ^ 1).testBit (i - 1) :=
      testBit_div_pow x 1 i (by omega)
    norm_num at hdiv
    rw [hdiv]
    by_cases hlt : i - 1 < n - 1
    · simp [hlt]
    · have hfalse : (x / 2).testBit (i - 1) = false := by
        apply testBit_ge (x / 2) (n - 1) (i - 1) _ (by omega)
        have : x / 2 < 2 ^ n / 2 + 1 := by omega
        have h2 : (2 : Nat) ^ n / 2 = 2 ^ (n - 1) := by
          rw [hpow]
          norm_num [Nat.mul_div_cancel_left]
        omega
      simp [hfalse, hlt]

lemma or_low8 (x y : Nat) (hx : x % 8 = 0) (hy : y < 8) : x ||| y = x + y := by
  apply Nat.eq_of_testBit_eq
  intro i
  have hxy : x + y = 2 ^ 3 * (x / 8) + y := by omega
  rw [Nat.testBit_lor, hxy,
    Nat.testBit_mul_pow_two_add _ (show y < 2 ^ 3 by norm_num; omega) i]
  by_cases h3 : i < 3
  · have hx0 : x.testBit i = false := by
      rw [Nat.testBit_to_div_mod, decide_eq_false_iff_not]
      interval_cases i <;> norm_num <;> omega
    simp [h3, hx0]
  · have hy0 : y.testBit i = false :=
      testBit_ge y 3 i (by norm_num; omega) (by omega)
    have hdiv : x.testBit i = (x / 2 ^ 3).testBit (i - 3) :=
      testBit_div_pow x 3 i (by omega)
    norm_num at hdiv
    simp [h3, hy0, hdiv]

lemma or1 (x : Nat) : x ||| 1 = x - x % 2 + 1 := by
  apply Nat.eq_of_testBit_eq
  intro i
  have hxy : x - x % 2 + 1 = 2 ^ 1 * (x / 2) + 1 := by omega
  rw [Nat.testBit_lor, hxy,
    Nat.testBit_mul_pow_two_add _ (show (1 : Nat) < 2 ^ 1 by norm_num) i]
  by_cases h1 : i < 1
  · have hi : i = 0 := by omega
    subst hi
    simp [Nat.testBit_to_div_mod]
  · have hone : (1 : Nat).testBit i = false :=
      testBit_ge 1 1 i (by norm_num) (by omega)
    have hdiv : x.testBit i = (x / 2 ^ 1).testBit (i - 1) :=
      testBit_div_pow x 1 i (by omega)
    norm_num at hdiv
    simp [h1, hone, hdiv]

lemma and_size32 (x : Nat) (hx : x < 4294967296) :
    x &&& 4294967288 = x - x % 8 := by
  have h := and_high_mask x 32 (by norm_num) (by norm_num; omega)
  norm_num at h
  exact h

lemma and_size64 (x : Nat) (hx : x < 18446744073709551616) :
    x &&& 18446744073709551608 = x - x % 8 := by
  have h := and_high_mask x 64 (by norm_num) (by norm_num; omega)
  norm_num at h
  exact h

lemma and_notalloc32 (x : Nat) (hx : x < 4294967296) :
    x &&& 4294967294 = x - x % 2 := by
  have h := and_not1_mask x 32 (by norm_num) (by norm_num; omega)
  norm_num at h
  exact h

lemma sizeAlign8_arith (size : Nat) :
    sizeAlign8 size =
      (size + 7) % 18446744073709551616 -
        (size + 7) % 18446744073709551616 % 8 := by
  unfold sizeAlign8
  exact and_size64 _ (Nat.mod_lt _ (by norm_num))

end BitFacts

section MemoryLemmas

lemma readB_lt (m : Mem) (a : Nat) : readB m a < 256 :=
  Nat.mod_lt _ (by norm_num)

lemma readW_lt (m : Mem) (a : Nat) : readW m a < 4294967296 := by
  have h0 := readB_lt m a
  have h1 := readB_lt m (a + 1)
  have h2 := readB_lt m (a + 2)
  have h3 := readB_lt m (a + 3)
  unfold readW
  omega

lemma readB_writeB_at (m : Mem) (a v : Nat) :
    readB (writeB m a v) a = v % 256 := by
  unfold readB writeB
  simp

lemma readB_writeB_out (m : Mem) (a v b : Nat) (h : b ≠ a) :
    readB (writeB m a v) b = readB m b := by
  unfold readB writeB
  simp [h]

lemma readB_writeW_out (m : Mem) (a v b : Nat) (h : b < a ∨ a + 4 ≤ b) :
    readB (writeW m a v) b = readB m b := by
  unfold writeW
  rw [readB_writeB_out _ _ _ _ (by omega), readB_writeB_out _ _ _ _ (by omega),
    readB_writeB_out _ _ _ _ (by omega), readB_writeB_out _ _ _ _ (by omega)]

lemma readW_writeW_same (m : Mem) (a v : Nat) :
    readW (writeW m a v) a = v % 4294967296 := by
  have h0 : readB (writeW m a v) a = v % 256 := by
    unfold writeW
    rw [readB_writeB_out _ _ _ _ (by omega), readB_writeB_out _ _ _ _ (by omega),
      readB_writeB_out _ _ _ _ (by omega), readB_writeB_at]
  have h1 : readB (writeW m a v) (a + 1) = v / 256 % 256 := by
    unfold writeW
    rw [readB_writeB_out _ _ _ _ (by omega), readB_writeB_out _ _ _ _ (by omega),
      readB_writeB_at]
  have h2 : readB (writeW m a v) (a + 2) = v / 65536 % 256 := by
    unfold writeW
    rw [readB_writeB_out _ _ _ _ (by omega), readB_writeB_at]
  have h3 : readB (writeW m a v) (a + 3) = v / 16777216 % 256 := by
    unfold writeW
    rw [readB_writeB_at]
  unfold readW
  rw [h0, h1, h2, h3]
  omega

lemma readW_writeW_out (m : Mem) (a v b : Nat) (h : a + 4 ≤ b ∨ b + 4 ≤ a) :
    readW (writeW m a v) b = readW m b := by
  unfold readW
  rw [readB_writeW_out _ _ _ _ (by omega), readB_writeW_out _ _ _ _ (by omega),
    readB_writeW_out _ _ _ _ (by omega), readB_writeW_out _ _ _ _ (by omega)]

lemma readB_memcpy_out (m : Mem) (dst src len b : Nat)
    (h : b < dst ∨ dst + len ≤ b) :
    readB (memcpy m dst src len) b = readB m b := by
  unfold readB memcpy
  have hc : ¬ (dst ≤ b ∧ b < dst + len) := by omega
  simp [hc]

lemma readW_memcpy_out (m : Mem) (dst src len b : Nat)
    (h : b + 4 ≤ dst ∨ dst + len ≤ b) :
    readW (memcpy m dst src len) b = readW m b := by
  unfold readW
  rw [readB_memcpy_out _ _ _ _ _ (by omega), readB_memcpy_out _ _ _ _ _ (by omega),
    readB_memcpy_out _ _ _ _ _ (by omega), readB_memcpy_out _ _ _ _ _ (by omega)]

lemma readB_memcpy_in (m : Mem) (dst src len b : Nat)
    (h1 : dst ≤ b) (h2 : b < dst + len) :
    readB (memcpy m dst src len) b = readB m (src + (b - dst)) := by
  unfold readB memcpy
  simp [h1, h2]


end MemoryLemmas

lemma get_class_cases (s : Nat) : ∃ k, get_class s = k ∧
    ((k = 0 ∧ s = 8) ∨ (k = 1 ∧ s = 16) ∨ (k = 2 ∧ s = 24) ∨
     (k = 3 ∧ s ≠ 8 ∧ s ≠ 16 ∧ s ≠ 24 ∧ s ≤ 36) ∨
     (k = 4 ∧ 37 ≤ s ∧ s ≤ 40) ∨ (k = 5 ∧ 41 ≤ s ∧ s ≤ 48) ∨
     (k = 6 ∧ 49 ≤ s ∧ s ≤ 56) ∨ (k = 7 ∧ 57 ≤ s ∧ s ≤ 72) ∨
     (k = 8 ∧ 73 ≤ s ∧ s ≤ 104) ∨ (k = 9 ∧ 105 ≤ s ∧ s ≤ 304) ∨
     (k = 10 ∧ 305 ≤ s ∧ s ≤ 504) ∨ (k = 11 ∧ 505 ≤ s ∧ s ≤ 1000) ∨
     (k = 12 ∧ 1001 ≤ s)) := by
  by_cases c1 : s = 8
  · exact ⟨0, by unfold get_class; rw [if_pos c1], Or.inl ⟨rfl, c1⟩⟩
  by_cases c2 : s = 16
  · exact ⟨1, by unfold get_class; rw [if_neg c1, if_pos c2],
      Or.inr (Or.inl ⟨rfl, c2⟩)⟩
  by_cases c3 : s = 24
  · exact ⟨2, by unfold get_class; rw [if_neg c1, if_neg c2, if_pos c3],
      Or.inr (Or.inr (Or.inl ⟨rfl, c3⟩))⟩
  by_cases c4 : s ≤ 36
  · exact ⟨3, by unfold get_class; rw [if_neg c1, if_neg c2, if_neg c3, if_pos c4],
      Or.inr (Or.inr (Or.inr (Or.inl ⟨rfl, c1, c2, c3, c4⟩)))⟩
  by_cases c5 : s ≤ 40
  · exact ⟨4, by unfold get_class; rw [if_neg c1, if_neg c2, if_neg c3, if_neg c4, if_pos c5],
      Or.inr (Or.inr (Or.inr (Or.inr (Or.inl ⟨rfl, by omega, c5⟩))))⟩
  by_cases c6 : s ≤ 48
  · exact ⟨5, by unfold get_class; rw [if_neg c1, if_neg c2, if_neg c3, if_neg c4, if_neg c5, if_pos c6],
      Or.inr (Or.inr (Or.inr (Or.inr (Or.inr (Or.inl ⟨rfl, by omega, c6⟩)))))⟩
  by_cases c7 : s ≤ 56
  · exact ⟨6, by unfold get_class; rw [if_neg c1, if_neg c2, if_neg c3, if_neg c4, if_neg c5, if_neg c6, if_pos c7],
      Or.inr (Or.inr (Or.inr (Or.inr (Or.inr (Or.inr (Or.inl ⟨rfl, by omega, c7⟩))))))⟩
  by_cases c8 : s ≤ 72
  · exact ⟨7, by unfold get_class; rw [if_neg c1, if_neg c2, if_neg c3, if_neg c4, if_neg c5, if_neg c6, if_neg c7, if_pos c8],
      Or.inr (Or.inr (Or.inr (Or.inr (Or.inr (Or.inr (Or.inr (Or.inl ⟨rfl, by omega, c8⟩)))))))⟩
  by_cases c9 : s ≤ 104
  · exact ⟨8, by unfold get_class; rw [if_neg c1, if_neg c2, if_neg c3, if_neg c4, if_neg c5, if_neg c6, if_neg c7, if_neg c8, if_pos c9],
      Or.inr (Or.inr (Or.inr (Or.inr (Or.inr (Or.inr (Or.inr (Or.inr (Or.inl ⟨rfl, by omega, c9⟩))))))))⟩
  by_cases c10 : s ≤ 304
  · exact ⟨9, by unfold get_class; rw [if_neg c1, if_neg c2, if_neg c3, if_neg c4, if_neg c5, if_neg c6, if_neg c7, if_neg c8, if_neg c9, if_pos c10],
      Or.inr (Or.inr (Or.inr (Or.inr (Or.inr (Or.inr (Or.inr (Or.inr (Or.inr (Or.inl ⟨rfl, by omega, c10⟩)))))))))⟩
  by_cases c11 : s ≤ 504
  · exact ⟨10, by unfold get_class; rw [if_neg c1, if_neg c2, if_neg c3, if_neg c4, if_neg c5, if_neg c6, if_neg c7, if_neg c8, if_neg c9, if_neg c10, if_pos c11],
      Or.inr (Or.inr (Or.inr (Or.inr (Or.inr (Or.inr (Or.inr (Or.inr (Or.inr (Or.inr (Or.inl ⟨rfl, by omega, c11⟩))))))))))⟩
  by_cases c12 : s ≤ 1000
  · exact ⟨11, by unfold get_class; rw [if_neg c1, if_neg c2, if_neg c3, if_neg c4, if_neg c5, if_neg c6, if_neg c7, if_neg c8, if_neg c9, if_neg c10, if_neg c11, if_pos c12],
      Or.inr (Or.inr (Or.inr (Or.inr (Or.inr (Or.inr (Or.inr (Or.inr (Or.inr (Or.inr (Or.inr (Or.inl ⟨rfl, by omega, c12⟩)))))))))))⟩
  exact ⟨12, by unfold get_class; rw [if_neg c1, if_neg c2, if_neg c3, if_neg c4, if_neg c5, if_neg c6, if_neg c7, if_neg c8, if_neg c9, if_neg c10, if_neg c11, if_neg c12],
      Or.inr (Or.inr (Or.inr (Or.inr (Or.inr (Or.inr (Or.inr (Or.inr (Or.inr (Or.inr (Or.inr (Or.inr ⟨rfl, by omega⟩)))))))))))⟩

lemma classTable_cases (s : Nat) : ∃ k, classTable s = k ∧
    ((k = 4 ∧ s = 8) ∨ (k = 5 ∧ s = 16) ∨ (k = 6 ∧ s = 24) ∨
     (k = 7 ∧ 25 ≤ s ∧ s ≤ 36) ∨ (k = 8 ∧ 37 ≤ s ∧ s ≤ 40) ∨
     (k = 9 ∧ 41 ≤ s ∧ s ≤ 48) ∨ (k = 10 ∧ 49 ≤ s ∧ s ≤ 56) ∨
     (k = 11 ∧ 57 ≤ s ∧ s ≤ 72) ∨ (k = 12 ∧ 73 ≤ s ∧ s ≤ 104) ∨
     (k = 13 ∧ 105 ≤ s ∧ s ≤ 304) ∨ (k = 14 ∧ 305 ≤ s ∧ s ≤ 504) ∨
     (k = 15 ∧ 505 ≤ s ∧ s ≤ 1000) ∨ (k = 16 ∧ 1001 ≤ s) ∨
     (k = 0 ∧ (s ≤ 7 ∨ (9 ≤ s ∧ s ≤ 15) ∨ (17 ≤ s ∧ s ≤ 23)))) := by
  by_cases d1 : s = 8
  · exact ⟨4, by unfold classTable; rw [if_pos d1], Or.inl ⟨rfl, d1⟩⟩
  by_cases d2 : s = 16
  · exact ⟨5, by unfold classTable; rw [if_neg d1, if_pos d2],
      Or.inr (Or.inl ⟨rfl, d2⟩)⟩
  by_cases d3 : s = 24
  · exact ⟨6, by unfold classTable; rw [if_neg d1, if_neg d2, if_pos d3],
      Or.inr (Or.inr (Or.inl ⟨rfl, d3⟩))⟩
  by_cases d4 : 25 ≤ s ∧ s ≤ 36
  · exact ⟨7, by unfold classTable; rw [if_neg d1, if_neg d2, if_neg d3, if_pos d4],
      Or.inr (Or.inr (Or.inr (Or.inl ⟨rfl, d4⟩)))⟩
  by_cases d5 : 37 ≤ s ∧ s ≤ 40
  · exact ⟨8, by unfold classTable; rw [if_neg d1, if_neg d2, if_neg d3, if_neg d4, if_pos d5],
      Or.inr (Or.inr (Or.inr (Or.inr (Or.inl ⟨rfl, d5⟩))))⟩
  by_cases d6 : 41 ≤ s ∧ s ≤ 48
  · exact ⟨9, by unfold classTable; rw [if_neg d1, if_neg d2, if_neg d3, if_neg d4, if_neg d5, if_pos d6],
      Or.inr (Or.inr (Or.inr (Or.inr (Or.inr (Or.inl ⟨rfl, d6⟩)))))⟩
  by_cases d7 : 49 ≤ s ∧ s ≤ 56
  · exact ⟨10, by unfold classTable; rw [if_neg d1, if_neg d2, if_neg d3, if_neg d4, if_neg d5, if_neg d6, if_pos d7],
      Or.inr (Or.inr (Or.inr (Or.inr (Or.inr (Or.inr (Or.inl ⟨rfl, d7⟩))))))⟩
  by_cases d8 : 57 ≤ s ∧ s ≤ 72
  · exact ⟨11, by unfold classTable; rw [if_neg d1, if_neg d2, if_neg d3, if_neg d4, if_neg d5, if_neg d6, if_neg d7, if_pos d8],
      Or.inr (Or.inr (Or.inr (Or.inr (Or.inr (Or.inr (Or.inr (Or.inl ⟨rfl, d8⟩)))))))⟩
  by_cases d9 : 73 ≤ s ∧ s ≤ 104
  · exact ⟨12, by unfold classTable; rw [if_neg d1, if_neg d2, if_neg d3, if_neg d4, if_neg d5, if_neg d6, if_neg d7, if_neg d8, if_pos d9],
      Or.inr (Or.inr (Or.inr (Or.inr (Or.inr (Or.inr (Or.inr (Or.inr (Or.inl ⟨rfl, d9⟩))))))))⟩
  by_cases d10 : 105 ≤ s ∧ s ≤ 304
  · exact ⟨13, by unfold classTable; rw [if_neg d1, if_neg d2, if_neg d3, if_neg d4, if_neg d5, if_neg d6, if_neg d7, if_neg d8, if_neg d9, if_pos d10],
      Or.inr (Or.inr (Or.inr (Or.inr (Or.inr (Or.inr (Or.inr (Or.inr (Or.inr (Or.inl ⟨rfl, d10⟩)))))))))⟩
  by_cases d11 : 305 ≤ s ∧ s ≤ 504
  · exact ⟨14, by unfold classTable; rw [if_neg d1, if_neg d2, if_neg d3, if_neg d4, if_neg d5, if_neg d6, if_neg d7, if_neg d8, if_neg d9, if_neg d10, if_pos d11],
      Or.inr (Or.inr (Or.inr (Or.inr (Or.inr (Or.inr (Or.inr (Or.inr (Or.inr (Or.inr (Or.inl ⟨rfl, d11⟩))))))))))⟩
  by_cases d12 : 505 ≤ s ∧ s ≤ 1000
  · exact ⟨15, by unfold classTable; rw [if_neg d1, if_neg d2, if_neg d3, if_neg d4, if_neg d5, if_neg d6, if_neg d7, if_neg d8, if_neg d9, if_neg d10, if_neg d11, if_pos d12],
      Or.inr (Or.inr (Or.inr (Or.inr (Or.inr (Or.inr (Or.inr (Or.inr (Or.inr (Or.inr (Or.inr (Or.inl ⟨rfl, d12⟩)))))))))))⟩
  by_cases d13 : 1001 ≤ s
  · exact ⟨16, by unfold classTable; rw [if_neg d1, if_neg d2, if_neg d3, if_neg d4, if_neg d5, if_neg d6, if_neg d7, if_neg d8, if_neg d9, if_neg d10, if_neg d11, if_neg d12, if_pos d13],
      Or.inr (Or.inr (Or.inr (Or.inr (Or.inr (Or.inr (Or.inr (Or.inr (Or.inr (Or.inr (Or.inr (Or.inr (Or.inl ⟨rfl, d13⟩))))))))))))⟩
  exact ⟨0, by unfold classTable; rw [if_neg d1, if_neg d2, if_neg d3, if_neg d4, if_neg d5, if_neg d6, if_neg d7, if_neg d8, if_neg d9, if_neg d10, if_neg d11, if_neg d12, if_neg d13],
      Or.inr (Or.inr (Or.inr (Or.inr (Or.inr (Or.inr (Or.inr (Or.inr (Or.inr (Or.inr (Or.inr (Or.inr (Or.inr ⟨rfl, by omega⟩))))))))))))⟩


/-- C6: for every 8-aligned payload size s at least 8 (and on every size
at least 25, where the spec table is total), the source's get_class
agrees with the authoritative table of spec section 4.3; the inclusive
boundaries are exactly those of the table.  get_class returns the source
indices 0..12, the table the spec's class numbers 4..16, so the two
sides differ by the constant 4. -/
theorem C6_get_class_matches_table (s : Nat)
    (h : (s % 8 = 0 ∧ 8 ≤ s) ∨ 25 ≤ s) :
    get_class s + 4 = classTable s := by
  obtain ⟨k, hk, hkc⟩ := get_class_cases s
  obtain ⟨j, hj, hjc⟩ := classTable_cases s
  omega

/-- C6 witness: the theorem applied at the concrete size 304. -/
theorem C6_get_class_matches_table_witness :
    ((304 % 8 = 0 ∧ 8 ≤ 304) ∨ 25 ≤ 304) ∧
      get_class 304 + 4 = classTable 304 :=
  ⟨by decide, C6_get_class_matches_table 304 (by decide)⟩


section AdjustLemmas

lemma mallocSizeAdj_spec (n : Nat) :
    (sizeAlign8 n ≤ 12 ∧ mallocSizeAdj n = 8) ∨
    (12 < sizeAlign8 n ∧ sizeAlign8 n ≤ 20 ∧ mallocSizeAdj n = 16) ∨
    (20 < sizeAlign8 n ∧ mallocSizeAdj n = sizeAlign8 n) := by
  simp only [mallocSizeAdj]
  by_cases h1 : sizeAlign8 n ≤ 20 ∧ 12 < sizeAlign8 n
  · rw [if_pos h1]
    norm_num
    omega
  · rw [if_neg h1]
    by_cases h2 : sizeAlign8 n ≤ 12
    · rw [if_pos h2]
      omega
    · rw [if_neg h2]
      omega

lemma adj_min (n : Nat) : 8 ≤ mallocSizeAdj n ∧ mallocSizeAdj n % 8 = 0 := by
  have h := sizeAlign8_arith n
  rcases mallocSizeAdj_spec n with ⟨hle, h8⟩ | ⟨hgt, hle, h16⟩ | ⟨hgt, hv⟩ <;> omega

end AdjustLemmas

section SearchPure

lemma searchLoop_none (s : St) (size : Nat) (l : List Nat)
    (h : (searchLoop s size l).1 = none) : (searchLoop s size l).2 = s := by
  induction l with
  | nil => rfl
  | cons n rest ih =>
      by_cases hb : size ≤ block_size_m s n
      · exfalso
        simp only [searchLoop] at h
        rw [if_pos hb] at h
        by_cases hc : 16 ≤ (bestScan s size 0 rest (block_size_m s n) n).1 - size
        · rw [if_pos hc] at h
          simp [carve] at h
        · rw [if_neg hc] at h
          simp [found] at h
      · simp only [searchLoop] at h ⊢
        rw [if_neg hb] at h ⊢
        exact ih h

lemma searchlist_eta (s : St) (i size : Nat) (n : Nat) (rest : List Nat)
    (hl : s.flists i = n :: rest) :
    searchlist s i size =
      if block_class_m s n < 7 then found s n
      else searchLoop s size (n :: rest) := by
  unfold searchlist
  rw [hl]

lemma searchlist_nil (s : St) (i size : Nat) (hl : s.flists i = []) :
    searchlist s i size = (none, s) := by
  unfold searchlist
  rw [hl]

lemma searchlist_none (s : St) (i size : Nat)
    (h : (searchlist s i size).1 = none) : (searchlist s i size).2 = s := by
  cases hl : s.flists i with
  | nil => rw [searchlist_nil s i size hl]
  | cons n rest =>
      rw [searchlist_eta s i size n rest hl] at h ⊢
      by_cases hc : block_class_m s n < 7
      · rw [if_pos hc] at h
        simp [found] at h
      · rw [if_neg hc] at h ⊢
        exact searchLoop_none s size (n :: rest) h

end SearchPure

/-- C9 (code_bug evidence): on the freshly initialised heap,
zero-allocate(1, 104857601) drives the inner malloc to fail (the grow
would exceed LIMIT) and malloc does return absent; but calloc in mm.c
then calls memset on the NULL result - a write through a null pointer,
recorded by the model's ub flag - instead of failing cleanly, before
the absent result reaches the caller. -/
theorem C9_calloc_memset_on_null :
    (calloc mm_init 1 104857601).1 = none ∧
      (calloc mm_init 1 104857601).2.ub = true :=
  ⟨by decide, by decide⟩

/-- C3 (code_bug evidence): stC3 is a well-formed heap on which every
free block sits on the list of its class.  calloc with nmemb = 2^64-1
and size = 1 is passed a product that the unchecked size_t
multiplication leaves as 2^64-1; malloc clamps it to 8 and succeeds
from list 0 (payload 16), and memset then zero-fills 2^64-1 bytes from
that payload, destroying the header of the free block at 60.  After
the call that block still sits on list 2 with its ALLOC bit 0, but the
class of its current (zeroed) size is 3, and it is not on list 3: a
free block is no longer on exactly the list of its class, breaking the
claimed invariant after a public operation on a well-formed heap. -/
theorem C3_calloc_overflow_breaks_free_lists :
    WF stC3 ∧
    (calloc stC3 18446744073709551615 1).1 = some 16 ∧
    block_free_m (calloc stC3 18446744073709551615 1).2 60 = true ∧
    (calloc stC3 18446744073709551615 1).2.flists 2 = [60] ∧
    get_class (block_size_m (calloc stC3 18446744073709551615 1).2 60) = 3 ∧
    60 ∉ (calloc stC3 18446744073709551615 1).2.flists 3 :=
  ⟨by decide, by decide, by decide, by decide, by decide, by decide⟩

/-- C10 (amended): after malloc's rounding and clamps every request -
including 0 and values whose 64-bit round-up wraps - maps to a
multiple of 8 that is at least the 8-byte minimum, so the "size < 8"
guard in malloc never fires and malloc never returns absent for a
request being below minimum. -/
theorem C10_no_request_below_minimum (n : Nat) :
    8 ≤ mallocSizeAdj n ∧ mallocSizeAdj n % 8 = 0 :=
  adj_min n

/-- C10 (counterexample): the set of requests whose rounded-and-clamped
size is below 8 is empty - even the request 0 is clamped to 8 and on
the fresh heap malloc(0) returns a payload rather than absent - so the
claim's assertion that some requested sizes are below the minimum (and
are refused) is false, and the "size < 8" test in malloc is dead
code. -/
theorem C10_counterexample :
    mallocSizeAdj 0 = 8 ∧ (malloc mm_init 0).1 = some 16 ∧
      ¬ ∃ n, mallocSizeAdj n < 8 := by
  refine ⟨by decide, by decide, ?_⟩
  rintro ⟨n, hn⟩
  have h := adj_min n
  omega

/-- C4 (counterexample): with heap base lbound = 8 (not a multiple of
2^32), storing the in-heap node pointer 24 with setnext writes 24 -
the low 32 bits of the pointer value itself, as the source's
(uint32_t)(long)val does - and not the spec's offset
(uint32)(24 - 8) = 16; reading the link back with next then yields
lbound + 24 = 32, not 24, so the claim's encoding and round-trip both
fail as stated. -/
theorem C4_counterexample :
    readW (setnext stC4 16 24).mem (16 + 8) = 24 ∧
      specEncode stC4.lbound 24 = 16 ∧
      next_ (setnext stC4 16 24) 16 = some 32 :=
  ⟨by decide, by decide, by decide⟩

/-- C4 (amended): mm.c stores a link as the low 32 bits of the pointer
value itself, and decodes by adding lbound.  Under the deployment
assumption that the heap base is a multiple of 2^32 and the stored
pointer lies within 2^32 bytes above it, the stored value coincides
with the spec's offset (uint32)(v - lbound) and the round-trip through
setnext/next and setprev/prev returns the pointer unchanged. -/
theorem C4_links_roundtrip (s : St) (n v : Nat)
    (hL : s.lbound % 4294967296 = 0) (h1 : s.lbound < v)
    (h2 : v < s.lbound + 4294967296) :
    readW (setnext s n v).mem (n + 8) = specEncode s.lbound v ∧
    next_ (setnext s n v) n = some v ∧
    readW (setprev s n v).mem (n + 4) = specEncode s.lbound v ∧
    prev_ (setprev s n v) n = some v := by
  have hs : readW (setnext s n v).mem (n + 8) = v % 4294967296 := by
    unfold setnext
    exact readW_writeW_same _ _ _
  have hp : readW (setprev s n v).mem (n + 4) = v % 4294967296 := by
    unfold setprev
    exact readW_writeW_same _ _ _
  have hv : v % 4294967296 = v - s.lbound := by omega
  have hnz : ¬ (v - s.lbound = 0) := by omega
  have henc : specEncode s.lbound v = v - s.lbound := by
    unfold specEncode
    omega
  have hlb : s.lbound + (v - s.lbound) = v := by omega
  refine ⟨by rw [hs, hv, henc], ?_, by rw [hp, hv, henc], ?_⟩
  · unfold next_
    rw [hs, hv, if_neg hnz]
    have hlb2 : (setnext s n v).lbound = s.lbound := rfl
    rw [hlb2, hlb]
  · unfold prev_
    rw [hp, hv, if_neg hnz]
    have hlb2 : (setprev s n v).lbound = s.lbound := rfl
    rw [hlb2, hlb]

/-- C4 witness: the amended codec law applied at heap base 0 (the
model's mm_init), node 20, stored pointer 12. -/
theorem C4_links_roundtrip_witness :
    (mm_init.lbound % 4294967296 = 0 ∧ mm_init.lbound < 12 ∧
      12 < mm_init.lbound + 4294967296) ∧
    (readW (setnext mm_init 20 12).mem (20 + 8) =
        specEncode mm_init.lbound 12 ∧
      next_ (setnext mm_init 20 12) 20 = some 12 ∧
      readW (setprev mm_init 20 12).mem (20 + 4) =
        specEncode mm_init.lbound 12 ∧
      prev_ (setprev mm_init 20 12) 20 = some 12) :=
  ⟨⟨by decide, by decide, by decide⟩,
    C4_links_roundtrip mm_init 20 12 (by decide) (by decide) (by decide)⟩

/-- C8 (counterexample): stC8 is a well-formed heap grown to LIMIT
whose class-4 list still holds a free 8-byte block.  For allocate(8)
the claim's condition holds - clamped size + 8 + heap size exceeds
LIMIT - yet malloc returns a payload from the free list without
growing the heap, so "returns absent whenever the rounded-and-clamped
size plus 8 plus the current heap size exceeds LIMIT" is false as
stated: mm.c only checks that bound after every free-list search has
missed. -/
theorem C8_counterexample :
    WF stC8 ∧
    LIMIT < mallocSizeAdj 8 + 8 + heapsize stC8 ∧
    (malloc stC8 8).1 = some 16 ∧
    (malloc stC8 8).2.heapHi = stC8.heapHi :=
  ⟨by decide, by decide, by decide, by decide⟩

/-- C8 (amended): when the search of the request's class list and (for
non-large classes) of the large-class list both miss, malloc fails
with the whole state - in particular the free lists and the heap
bound - unchanged, both when the clamped size plus 8 bytes of block
metadata plus the current heap size would exceed LIMIT and when the
grow primitive itself fails. -/
theorem C8_failure_absent_state_unchanged (s : St) (n : Nat)
    (h1 : (searchlist s (get_class (mallocSizeAdj n)) (mallocSizeAdj n)).1 = none)
    (h2 : (searchlist s 12 (mallocSizeAdj n)).1 = none)
    (h3 : LIMIT < mallocSizeAdj n + 8 + heapsize s ∨ s.sbrkFail = true) :
    (malloc s n).1 = none ∧ (malloc s n).2 = s := by
  have hadj := adj_min n
  have e1 : searchlist s (get_class (mallocSizeAdj n)) (mallocSizeAdj n) =
      (none, s) := by
    have hsnd := searchlist_none _ _ _ h1
    exact Prod.ext h1 hsnd
  have e2 : searchlist s 12 (mallocSizeAdj n) = (none, s) := by
    have hsnd := searchlist_none _ _ _ h2
    exact Prod.ext h2 hsnd
  suffices hm : malloc s n = (none, s) by
    rw [hm]
    exact ⟨rfl, rfl⟩
  simp only [malloc]
  rw [if_neg (by omega), e1]
  dsimp only
  by_cases hp : get_class (mallocSizeAdj n) ≠ 12
  · rw [if_pos hp, e2]
    dsimp only
    rcases h3 with h3 | h3
    · rw [if_pos h3]
    · by_cases hlim : LIMIT < mallocSizeAdj n + 8 + heapsize s
      · rw [if_pos hlim]
      · rw [if_neg hlim, if_pos h3]
  · rw [if_neg hp]
    dsimp only
    rcases h3 with h3 | h3
    · rw [if_pos h3]
    · by_cases hlim : LIMIT < mallocSizeAdj n + 8 + heapsize s
      · rw [if_pos hlim]
      · rw [if_neg hlim, if_pos h3]

/-- C8 witness: the amended failure law applied on the fresh heap with
the request LIMIT itself (both searches miss on the empty lists, and
LIMIT + 8 + 16 exceeds LIMIT). -/
theorem C8_failure_absent_state_unchanged_witness :
    ((searchlist mm_init (get_class (mallocSizeAdj 104857600))
        (mallocSizeAdj 104857600)).1 = none ∧
      (searchlist mm_init 12 (mallocSizeAdj 104857600)).1 = none ∧
      LIMIT < mallocSizeAdj 104857600 + 8 + heapsize mm_init) ∧
    ((malloc mm_init 104857600).1 = none ∧
      (malloc mm_init 104857600).2 = mm_init) :=
  ⟨⟨by decide, by decide, by decide⟩,
    C8_failure_absent_state_unchanged mm_init 104857600 (by decide) (by decide)
      (Or.inl (by decide))⟩



section ClassFacts

lemma small_class_size_eq (sz t : Nat) (hsz : sz % 8 = 0) (ht : t % 8 = 0)
    (hsz8 : 8 ≤ sz) (ht8 : 8 ≤ t) (hc : get_class sz = get_class t)
    (hlt : get_class sz < 7) : sz = t := by
  obtain ⟨k, hk, hkc⟩ := get_class_cases sz
  obtain ⟨j, hj, hjc⟩ := get_class_cases t
  omega

lemma get_class_lt_13 (sz : Nat) : get_class sz < 13 := by
  obtain ⟨k, hk, hkc⟩ := get_class_cases sz
  omega

end ClassFacts

/-- C5: for an allocate request whose rounded-and-clamped size has class
below 11 (source index below SIZE11 = 7), every block on that class's
free list of a well-formed heap has size at least the clamped request
(the aligned sizes of such a class are in fact unique), and searchlist
takes its unconditional fast path on the head, whose block therefore
satisfies the request. -/
theorem C5_small_class_fast_path (s : St) (n : Nat) (hwf : WF s)
    (hc : get_class (mallocSizeAdj n) < 7) :
    (∀ a ∈ s.flists (get_class (mallocSizeAdj n)),
        mallocSizeAdj n ≤ block_size_m s a) ∧
    ∀ h t, s.flists (get_class (mallocSizeAdj n)) = h :: t →
      (searchlist s (get_class (mallocSizeAdj n)) (mallocSizeAdj n)).1 =
          some (h + 4) ∧
        mallocSizeAdj n ≤ block_size_m s h := by
  obtain ⟨hlb, hpro, hepi, hhi, hsentinel, hspan, hnodes, hnd, hdisj, hlinks⟩ := hwf
  have hadj := adj_min n
  have hclt : get_class (mallocSizeAdj n) < 13 := get_class_lt_13 _
  have key : ∀ a ∈ s.flists (get_class (mallocSizeAdj n)),
      mallocSizeAdj n ≤ block_size_m s a := by
    intro a ha
    obtain ⟨_, _, _, h8, hmod, _, hcls⟩ := hnodes _ hclt a ha
    have heq := small_class_size_eq (mallocSizeAdj n) (block_size_m s a)
      hadj.2 hmod hadj.1 h8 (by rw [hcls]) hc
    omega
  refine ⟨key, ?_⟩
  intro h t hl
  have hh : h ∈ s.flists (get_class (mallocSizeAdj n)) := by
    rw [hl]
    exact List.mem_cons_self _ _
  obtain ⟨_, _, _, _, _, _, hcls⟩ := hnodes _ hclt h hh
  have hcm : block_class_m s h < 7 := by
    unfold block_class_m
    rw [hcls]
    exact hc
  refine ⟨?_, key h hh⟩
  rw [searchlist_eta s _ _ h t hl, if_pos hcm]
  rfl

/-- C5 witness: the fast-path law applied on the concrete heap stC3
(free 8-byte block at 12 on list 0) with the request 1. -/
theorem C5_small_class_fast_path_witness :
    (WF stC3 ∧ get_class (mallocSizeAdj 1) < 7) ∧
    ((∀ a ∈ stC3.flists (get_class (mallocSizeAdj 1)),
        mallocSizeAdj 1 ≤ block_size_m stC3 a) ∧
      ∀ h t, stC3.flists (get_class (mallocSizeAdj 1)) = h :: t →
        (searchlist stC3 (get_class (mallocSizeAdj 1)) (mallocSizeAdj 1)).1 =
            some (h + 4) ∧
          mallocSizeAdj 1 ≤ block_size_m stC3 h) :=
  ⟨⟨by decide, by decide⟩,
    C5_small_class_fast_path stC3 1 (by decide) (by decide)⟩



section ListLink

lemma cyc_lt (l : List Nat) (k : Nat) (hk : k < l.length) :
    cyc l k = l.get ⟨k, hk⟩ := by
  unfold cyc
  rw [Nat.mod_eq_of_lt hk, List.get?_eq_get hk]
  rfl

lemma cyc_zero (a : Nat) (l : List Nat) : cyc (a :: l) 0 = a := by
  unfold cyc
  simp

lemma cyc_mem (l : List Nat) (k : Nat) (hne : l ≠ []) : cyc l k ∈ l := by
  unfold cyc
  have hlen : 0 < l.length := List.length_pos.mpr hne
  have hk : k % l.length < l.length := Nat.mod_lt _ hlen
  rw [List.get?_eq_get hk]
  simp only [Option.getD_some]
  exact List.get_mem l _ _

lemma next_decode (s : St) (l : List Nat) (k : Nat) (hk : k < l.length)
    (hlinks : linksOK s l) (hlo : ∀ a ∈ l, s.lbound + 12 ≤ a) :
    next_ s (cyc l k) = some (cyc l (k + 1)) := by
  obtain ⟨hn, _⟩ := hlinks k hk
  have hne : l ≠ [] := by
    intro h
    rw [h] at hk
    simp at hk
  have hmem := cyc_mem l (k + 1) hne
  have hbound := hlo _ hmem
  unfold next_
  rw [hn, if_neg (by omega)]
  congr 1
  omega

lemma prev_decode (s : St) (l : List Nat) (k : Nat) (hk : k < l.length)
    (hlinks : linksOK s l) (hlo : ∀ a ∈ l, s.lbound + 12 ≤ a) :
    prev_ s (cyc l k) = some (cyc l (k + l.length - 1)) := by
  obtain ⟨_, hp⟩ := hlinks k hk
  have hne : l ≠ [] := by
    intro h
    rw [h] at hk
    simp at hk
  have hmem := cyc_mem l (k + l.length - 1) hne
  have hbound := hlo _ hmem
  unfold prev_
  rw [hp, if_neg (by omega)]
  congr 1
  omega

end ListLink

section OpFields

lemma flist_delete_fields (s : St) (n i : Nat) :
    (flist_delete s n i).lbound = s.lbound ∧
    (flist_delete s n i).epilog = s.epilog ∧
    (flist_delete s n i).prolog = s.prolog ∧
    (flist_delete s n i).heapHi = s.heapHi := by
  unfold flist_delete
  split_ifs <;> exact ⟨rfl, rfl, rfl, rfl⟩

lemma flist_delete_flists (s : St) (n i : Nat) :
    (flist_delete s n i).flists =
      if next_ s n = some n then setList s.flists i []
      else setList s.flists i ((s.flists i).erase n) := by
  unfold flist_delete
  split_ifs <;> rfl

lemma flist_insert_fields (s : St) (n i : Nat) :
    (flist_insert s n i).lbound = s.lbound ∧
    (flist_insert s n i).epilog = s.epilog ∧
    (flist_insert s n i).prolog = s.prolog ∧
    (flist_insert s n i).heapHi = s.heapHi := by
  unfold flist_insert
  cases hl : s.flists i <;> exact ⟨rfl, rfl, rfl, rfl⟩

lemma flist_insert_flists (s : St) (n i : Nat) :
    (flist_insert s n i).flists = setList s.flists i (n :: s.flists i) := by
  unfold flist_insert
  cases hl : s.flists i <;> rfl

lemma block_mark_fields (s : St) (n : Nat) :
    (block_mark s n).flists = s.flists ∧ (block_mark s n).lbound = s.lbound ∧
    (block_mark s n).epilog = s.epilog ∧ (block_mark s n).prolog = s.prolog ∧
    (block_mark s n).heapHi = s.heapHi := by
  unfold block_mark
  dsimp only
  split
  · split <;> exact ⟨rfl, rfl, rfl, rfl, rfl⟩
  · split <;> exact ⟨rfl, rfl, rfl, rfl, rfl⟩

lemma block_next_m_eq (s : St) (n m : Nat) (h : block_next_m s n = some m) :
    m = n + block_size_m s n + 8 := by
  unfold block_next_m at h
  by_cases he : n = s.epilog
  · rw [if_pos he] at h
    cases h
  · rw [if_neg he] at h
    cases h
    rfl

lemma block_mark_readW (s : St) (n t : Nat)
    (ht : t + 4 ≤ n + block_size_m s n + 4 ∨ n + block_size_m s n + 12 ≤ t) :
    readW (block_mark s n).mem t = readW s.mem t := by
  unfold block_mark
  dsimp only
  by_cases hcls : block_class_m s n < 2
  · rw [if_pos hcls]
    cases hm : block_next_m s n with
    | none => rfl
    | some m =>
        have hm2 := block_next_m_eq s n m hm
        show readW (writeW (writeW s.mem m _) m _) t = readW s.mem t
        rw [readW_writeW_out _ _ _ _ (by omega), readW_writeW_out _ _ _ _ (by omega)]
  · rw [if_neg hcls]
    have hhdr : readW (writeW s.mem (n + block_size_m s n + 4) (readW s.mem n)) n
        = readW s.mem n := by
      apply readW_writeW_out
      omega
    have hbn : block_next_m
        { s with mem := writeW s.mem (n + block_size_m s n + 4) (readW s.mem n) } n
        = block_next_m s n := by
      unfold block_next_m
      by_cases he : n = s.epilog
      · rw [if_pos he, if_pos he]
      · rw [if_neg he, if_neg he]
        unfold block_size_m
        unfold block_size_m at hhdr
        dsimp only
        rw [hhdr]
    rw [hbn]
    cases hm : block_next_m s n with
    | none =>
        show readW (writeW s.mem (n + block_size_m s n + 4) (readW s.mem n)) t
          = readW s.mem t
        rw [readW_writeW_out _ _ _ _ (by omega)]
    | some m =>
        have hm2 := block_next_m_eq s n m hm
        show readW (writeW (writeW s.mem (n + block_size_m s n + 4) (readW s.mem n)) m _) t
          = readW s.mem t
        rw [readW_writeW_out _ _ _ _ (by omega), readW_writeW_out _ _ _ _ (by omega)]

end OpFields

section FlistPreserve

lemma flist_delete_readW (s : St) (i n t : Nat)
    (hmem : n ∈ s.flists i)
    (hlinks : linksOK s (s.flists i))
    (hlo : ∀ a ∈ s.flists i, s.lbound + 12 ≤ a)
    (hsep : ∀ a ∈ s.flists i, ∀ b ∈ s.flists i, a = b ∨ a + 16 ≤ b ∨ b + 16 ≤ a)
    (ht : ∀ a ∈ s.flists i, t + 4 ≤ a + 4 ∨ a + 12 ≤ t) :
    readW (flist_delete s n i).mem t = readW s.mem t := by
  unfold flist_delete
  by_cases hone : next_ s n = some n
  · rw [if_pos hone]
  · rw [if_neg hone]
    obtain ⟨⟨k, hk⟩, hget⟩ := List.mem_iff_get.mp hmem
    have hcyc : cyc (s.flists i) k = n := by
      rw [cyc_lt _ k hk]
      exact hget
    have hne : s.flists i ≠ [] := List.ne_nil_of_mem hmem
    have hnx : next_ s n = some (cyc (s.flists i) (k + 1)) := by
      rw [← hcyc]
      exact next_decode s _ k hk hlinks hlo
    have hpv : prev_ s n = some (cyc (s.flists i) (k + (s.flists i).length - 1)) := by
      rw [← hcyc]
      exact prev_decode s _ k hk hlinks hlo
    have hnxm : cyc (s.flists i) (k + 1) ∈ s.flists i := cyc_mem _ _ hne
    have hpvm : cyc (s.flists i) (k + (s.flists i).length - 1) ∈ s.flists i :=
      cyc_mem _ _ hne
    set nx := cyc (s.flists i) (k + 1) with hnxd
    set pv := cyc (s.flists i) (k + (s.flists i).length - 1) with hpvd
    have hnxn : ¬ (nx = n) := by
      intro h
      apply hone
      rw [hnx, h]
    have hsepnx : n + 16 ≤ nx ∨ nx + 16 ≤ n := by
      rcases hsep n hmem nx hnxm with h | h | h
      · exact absurd h.symm hnxn
      · exact Or.inl h
      · exact Or.inr h
    dsimp only
    rw [hnx, hpv]
    simp only [Option.getD_some]
    have hprev1 : prev_ (setprev s nx pv) n = prev_ s n := by
      unfold prev_ setprev
      rw [readW_writeW_out _ _ _ _ (by omega)]
    have hnext1 : next_ (setprev s nx pv) n = next_ s n := by
      unfold next_ setprev
      rw [readW_writeW_out _ _ _ _ (by omega)]
    rw [hprev1, hnext1, hpv, hnx]
    simp only [Option.getD_some]
    have htnx := ht nx hnxm
    have htpv := ht pv hpvm
    show readW (writeW (writeW s.mem (nx + 4) pv) (pv + 8) nx) t = readW s.mem t
    rw [readW_writeW_out _ _ _ _ (by omega), readW_writeW_out _ _ _ _ (by omega)]

lemma flist_insert_readW (s : St) (i n t : Nat)
    (hlb : s.lbound % 4294967296 = 0)
    (hlinks : linksOK s (s.flists i))
    (hlo : ∀ a ∈ s.flists i, s.lbound + 12 ≤ a)
    (hhiB : ∀ a ∈ s.flists i, a < s.lbound + 4294967296)
    (hnsep : ∀ a ∈ s.flists i, n + 16 ≤ a ∨ a + 16 ≤ n)
    (ht : ∀ a ∈ s.flists i, t + 4 ≤ a + 4 ∨ a + 12 ≤ t)
    (htn : t + 4 ≤ n + 4 ∨ n + 12 ≤ t) :
    readW (flist_insert s n i).mem t = readW s.mem t := by
  unfold flist_insert
  cases hl : s.flists i with
  | nil =>
      dsimp only
      show readW (writeW (writeW s.mem (n + 8) n) (n + 4) n) t = readW s.mem t
      rw [readW_writeW_out _ _ _ _ (by omega), readW_writeW_out _ _ _ _ (by omega)]
  | cons h rest =>
      rw [hl] at hlinks hlo hhiB hnsep ht
      have hhm : h ∈ h :: rest := List.mem_cons_self _ _
      have hnseph := hnsep h hhm
      have hpv0 : prev_ s h = some (cyc (h :: rest) (0 + (h :: rest).length - 1)) := by
        have hdec := prev_decode s (h :: rest) 0 (by simp) hlinks hlo
        rw [cyc_zero] at hdec
        exact hdec
      set pv := cyc (h :: rest) (0 + (h :: rest).length - 1) with hpvd
      have hpvm : pv ∈ h :: rest := cyc_mem _ _ (by simp)
      have hpvlo := hlo pv hpvm
      have hpvhi := hhiB pv hpvm
      have hnseppv := hnsep pv hpvm
      dsimp only
      have hpv1 : prev_ (setnext s n h) h = prev_ s h := by
        unfold prev_ setnext
        rw [readW_writeW_out _ _ _ _ (by omega)]
      rw [hpv1, hpv0]
      simp only [Option.getD_some]
      have hpv3 : prev_ (setprev (setprev (setnext s n h) n pv) h n) n = some pv := by
        unfold prev_ setprev setnext
        dsimp only
        rw [readW_writeW_out _ _ _ _ (by omega), readW_writeW_same]
        rw [if_neg (by omega)]
        congr 1
        show s.lbound + pv % 4294967296 = pv
        omega
      rw [hpv3]
      simp only [Option.getD_some]
      have hth := ht h hhm
      have htpv := ht pv hpvm
      show readW (writeW (writeW (writeW (writeW s.mem (n + 8) h) (n + 4) pv)
        (h + 4) n) (pv + 8) n) t = readW s.mem t
      rw [readW_writeW_out _ _ _ _ (by omega), readW_writeW_out _ _ _ _ (by omega),
        readW_writeW_out _ _ _ _ (by omega), readW_writeW_out _ _ _ _ (by omega)]

end FlistPreserve



section FlistPreserveGen

lemma flist_delete_readW_gen (s : St) (i n t : Nat)
    (hcase : next_ s n = some n ∨
      ∃ nx pv, next_ s n = some nx ∧ prev_ s n = some pv ∧ ¬ nx = n ∧
        (nx + 4 ≤ n ∨ n + 8 ≤ nx) ∧
        (t + 4 ≤ nx + 4 ∨ nx + 8 ≤ t) ∧ (t + 4 ≤ pv + 8 ∨ pv + 12 ≤ t)) :
    readW (flist_delete s n i).mem t = readW s.mem t := by
  unfold flist_delete
  rcases hcase with hone | ⟨nx, pv, hnx, hpv, hne, hsep, htnx, htpv⟩
  · rw [if_pos hone]
  · rw [if_neg (by rw [hnx]; intro h; cases h; exact hne rfl)]
    dsimp only
    rw [hnx, hpv]
    simp only [Option.getD_some]
    have hprev1 : prev_ (setprev s nx pv) n = prev_ s n := by
      unfold prev_ setprev
      rw [readW_writeW_out _ _ _ _ (by omega)]
    have hnext1 : next_ (setprev s nx pv) n = next_ s n := by
      unfold next_ setprev
      rw [readW_writeW_out _ _ _ _ (by omega)]
    rw [hprev1, hnext1, hpv, hnx]
    simp only [Option.getD_some]
    show readW (writeW (writeW s.mem (nx + 4) pv) (pv + 8) nx) t = readW s.mem t
    rw [readW_writeW_out _ _ _ _ (by omega), readW_writeW_out _ _ _ _ (by omega)]

lemma flist_insert_readW_gen (s : St) (i n t : Nat)
    (hcase : s.flists i = [] ∨
      ∃ h rest P, s.flists i = h :: rest ∧
        prev_ (setnext s n h) h = some P ∧ ¬ P % 4294967296 = 0 ∧
        (h + 8 ≤ n ∨ n + 8 ≤ h) ∧
        (t + 4 ≤ h + 4 ∨ h + 8 ≤ t) ∧
        (t + 4 ≤ s.lbound + P % 4294967296 + 8 ∨
          s.lbound + P % 4294967296 + 12 ≤ t))
    (htn : t + 4 ≤ n + 4 ∨ n + 12 ≤ t) :
    readW (flist_insert s n i).mem t = readW s.mem t := by
  unfold flist_insert
  rcases hcase with hnil | ⟨h, rest, P, hl, hP, hPnz, hhn, hth, htX⟩
  · rw [hnil]
    dsimp only
    show readW (writeW (writeW s.mem (n + 8) n) (n + 4) n) t = readW s.mem t
    rw [readW_writeW_out _ _ _ _ (by omega), readW_writeW_out _ _ _ _ (by omega)]
  · rw [hl]
    dsimp only
    rw [hP]
    simp only [Option.getD_some]
    have hre : prev_ (setprev (setprev (setnext s n h) n P) h n) n =
        some (s.lbound + P % 4294967296) := by
      unfold prev_ setprev setnext
      dsimp only
      rw [readW_writeW_out _ _ _ _ (by omega), readW_writeW_same]
      rw [if_neg hPnz]
    rw [hre]
    simp only [Option.getD_some]
    show readW (writeW (writeW (writeW (writeW s.mem (n + 8) h) (n + 4) P)
      (h + 4) n) (s.lbound + P % 4294967296 + 8) n) t = readW s.mem t
    rw [readW_writeW_out _ _ _ _ (by omega), readW_writeW_out _ _ _ _ (by omega),
      readW_writeW_out _ _ _ _ (by omega), readW_writeW_out _ _ _ _ (by omega)]

end FlistPreserveGen

section FoundCarve

lemma found_fst (s : St) (n : Nat) : (found s n).1 = some (n + 4) := rfl

lemma carve_fst (s : St) (n s0 s1 : Nat) : (carve s n s0 s1).1 = some (n + 4) := rfl

lemma found_block_size (s : St) (i n : Nat)
    (hmem : n ∈ s.flists i)
    (hcls : block_class_m s n = i)
    (hlinks : linksOK s (s.flists i))
    (hlo : ∀ a ∈ s.flists i, s.lbound + 12 ≤ a)
    (hsep : ∀ a ∈ s.flists i, ∀ b ∈ s.flists i, a = b ∨ a + 16 ≤ b ∨ b + 16 ≤ a) :
    block_size_m (found s n).2 n = block_size_m s n := by
  have hdel : readW (delete s n).mem n = readW s.mem n := by
    unfold delete
    rw [hcls]
    apply flist_delete_readW s i n n hmem hlinks hlo hsep
    intro a ha
    rcases hsep n hmem a ha with h | h | h <;> omega
  have hval : readW ({ delete s n with
      mem := writeW (delete s n).mem n (readW (delete s n).mem n ||| 1) } : St).mem n
      = readW s.mem n ||| 1 := by
    show readW (writeW (delete s n).mem n (readW (delete s n).mem n ||| 1)) n = _
    rw [readW_writeW_same]
    have hlt := readW_lt (delete s n).mem n
    have hor := or1 (readW (delete s n).mem n)
    rw [hdel] at hor ⊢
    have hlt2 := readW_lt s.mem n
    omega
  have hmark := block_mark_readW ({ delete s n with
      mem := writeW (delete s n).mem n (readW (delete s n).mem n ||| 1) } : St) n n
      (Or.inl (by omega))
  show block_size_m (block_mark _ n) n = block_size_m s n
  unfold block_size_m
  rw [hmark, hval]
  have hlt := readW_lt s.mem n
  have hor := or1 (readW s.mem n)
  rw [and_size32 _ (by omega), and_size32 _ (by omega)]
  omega

end FoundCarve



section CarveSize

lemma block_size_m_lt (s : St) (n : Nat) : block_size_m s n < 4294967296 :=
  lt_of_le_of_lt Nat.and_le_left (readW_lt s.mem n)

lemma flist_delete_mem_singleton (s : St) (i n : Nat)
    (hone : next_ s n = some n) : (flist_delete s n i).mem = s.mem := by
  unfold flist_delete
  rw [if_pos hone]

lemma flist_delete_mem_eq (s : St) (i n nx pv : Nat)
    (hnx : next_ s n = some nx) (hpv : prev_ s n = some pv) (hne : ¬ nx = n)
    (hsep : nx + 4 ≤ n ∨ n + 8 ≤ nx) :
    (flist_delete s n i).mem = writeW (writeW s.mem (nx + 4) pv) (pv + 8) nx := by
  unfold flist_delete
  rw [if_neg (by rw [hnx]; intro h; cases h; exact hne rfl)]
  dsimp only
  rw [hnx, hpv]
  simp only [Option.getD_some]
  have hprev1 : prev_ (setprev s nx pv) n = prev_ s n := by
    unfold prev_ setprev
    rw [readW_writeW_out _ _ _ _ (by omega)]
  have hnext1 : next_ (setprev s nx pv) n = next_ s n := by
    unfold next_ setprev
    rw [readW_writeW_out _ _ _ _ (by omega)]
  rw [hprev1, hnext1, hpv, hnx]
  simp only [Option.getD_some]
  rfl

lemma cyc_index_ne (l : List Nat) (k : Nat) (hk : k < l.length)
    (h2 : 2 ≤ l.length) (hnd : l.Nodup) :
    cyc l (k + 1) ≠ cyc l k ∧ cyc l (k + l.length - 1) ≠ cyc l k := by
  have hlen : 0 < l.length := by omega
  have hi1 : (k + 1) % l.length < l.length := Nat.mod_lt _ hlen
  have hi2 : (k + l.length - 1) % l.length < l.length := Nat.mod_lt _ hlen
  have hc1 : cyc l (k + 1) = l.get ⟨(k + 1) % l.length, hi1⟩ := by
    unfold cyc
    rw [List.get?_eq_get hi1]
    rfl
  have hc2 : cyc l (k + l.length - 1) =
      l.get ⟨(k + l.length - 1) % l.length, hi2⟩ := by
    unfold cyc
    rw [List.get?_eq_get hi2]
    rfl
  have hc0 : cyc l k = l.get ⟨k, hk⟩ := cyc_lt l k hk
  have hne1 : (k + 1) % l.length ≠ k := by
    by_cases hkk : k + 1 = l.length
    · rw [hkk, Nat.mod_self]
      omega
    · rw [Nat.mod_eq_of_lt (by omega)]
      omega
  have hne2 : (k + l.length - 1) % l.length ≠ k := by
    by_cases hk0 : k = 0
    · subst hk0
      rw [Nat.mod_eq_of_lt (by omega)]
      omega
    · have : k + l.length - 1 = (k - 1) + 1 * l.length := by omega
      rw [this, Nat.add_mul_mod_self_right, Nat.mod_eq_of_lt (by omega)]
      omega
  constructor
  · rw [hc1, hc0]
    intro h
    exact hne1 (congrArg Fin.val ((List.Nodup.get_inj_iff hnd).mp h))
  · rw [hc2, hc0]
    intro h
    exact hne2 (congrArg Fin.val ((List.Nodup.get_inj_iff hnd).mp h))

lemma carve_snd (s : St) (n s0 s1v : Nat) :
    (carve s n s0 s1v).2 = add (carveE s n s0 s1v) (carveM s n s0) := rfl

lemma carveC_epilog (s : St) (n s0 : Nat) : (carveC s n s0).epilog = s.epilog := by
  unfold carveC
  rw [(block_mark_fields (carveB s n s0) n).2.2.1]
  show (carveA s n).epilog = s.epilog
  unfold carveA delete
  exact (flist_delete_fields s n (block_class_m s n)).2.1

lemma carve_fields (s : St) (n s0 s1v : Nat) :
    (carveE s n s0 s1v).lbound = s.lbound ∧
    (carveE s n s0 s1v).epilog = s.epilog ∧
    (carveE s n s0 s1v).flists = (carveA s n).flists := by
  obtain ⟨hf1, hl1, he1, _, _⟩ := block_mark_fields (carveD s n s0 s1v) (carveM s n s0)
  obtain ⟨hf2, hl2, he2, _, _⟩ := block_mark_fields (carveB s n s0) n
  refine ⟨?_, ?_, ?_⟩
  · unfold carveE
    rw [hl1]
    show (carveC s n s0).lbound = s.lbound
    unfold carveC
    rw [hl2]
    show (carveA s n).lbound = s.lbound
    unfold carveA delete
    exact (flist_delete_fields s n (block_class_m s n)).1
  · unfold carveE
    rw [he1]
    show (carveC s n s0).epilog = s.epilog
    exact carveC_epilog s n s0
  · unfold carveE
    rw [hf1]
    show (carveC s n s0).flists = (carveA s n).flists
    unfold carveC
    rw [hf2]
    rfl

lemma head_prev_decode (s : St) (l : List Nat) (hd : Nat) (rest : List Nat)
    (hl : l = hd :: rest) (hlinks : linksOK s l) :
    readW s.mem (hd + 4) = cyc l (l.length - 1) - s.lbound ∧
      cyc l (l.length - 1) ∈ l := by
  subst hl
  obtain ⟨_, hp⟩ := hlinks 0 (by simp)
  rw [cyc_zero] at hp
  rw [Nat.zero_add] at hp
  exact ⟨hp, cyc_mem _ _ (by simp)⟩

lemma carve_chain_field (s : St) (n s0 s1v x : Nat)
    (hszB : block_size_m (carveB s n s0) n = s0)
    (hM : carveM s n s0 = n + s0 + 8)
    (hszD : block_size_m (carveD s n s0 s1v) (carveM s n s0) = s1v)
    (hx : x + 8 ≤ n ∨ n + s0 + s1v + 16 ≤ x) :
    readW (carveE s n s0 s1v).mem (x + 4) = readW (carveA s n).mem (x + 4) := by
  have e1 : readW (carveE s n s0 s1v).mem (x + 4) =
      readW (carveD s n s0 s1v).mem (x + 4) := by
    unfold carveE
    apply block_mark_readW
    rw [hszD, hM]
    omega
  have e2 : readW (carveD s n s0 s1v).mem (x + 4) =
      readW (carveC s n s0).mem (x + 4) := by
    show readW (writeW (carveC s n s0).mem (carveM s n s0) _) (x + 4) = _
    apply readW_writeW_out
    rw [hM]
    omega
  have e3 : readW (carveC s n s0).mem (x + 4) =
      readW (carveB s n s0).mem (x + 4) := by
    unfold carveC
    apply block_mark_readW
    rw [hszB]
    omega
  have e4 : readW (carveB s n s0).mem (x + 4) =
      readW (carveA s n).mem (x + 4) := by
    show readW (writeW (carveA s n).mem n _) (x + 4) = _
    apply readW_writeW_out
    omega
  rw [e1, e2, e3, e4]

lemma carve_case_close (s : St) (n s0 s1v X hd q : Nat) (rest : List Nat)
    (hlb : s.lbound % 4294967296 = 0)
    (hM : carveM s n s0 = n + s0 + 8)
    (hselb : (carveE s n s0 s1v).lbound = s.lbound)
    (hfl : (carveE s n s0 s1v).flists X = hd :: rest)
    (hstored : readW (carveE s n s0 s1v).mem (hd + 4) = q - s.lbound)
    (hqlo : s.lbound + 12 ≤ q) (hqhi : q < s.lbound + 4294967296)
    (hqn : q = n ∨ q + 16 ≤ n ∨ n + s0 + s1v + 16 ≤ q)
    (hhd : hd + 16 ≤ n ∨ n + s0 + s1v + 16 ≤ hd)
    (hs18 : 8 ≤ s1v) :
    ∃ h rest2 P, (carveE s n s0 s1v).flists X = h :: rest2 ∧
      prev_ (setnext (carveE s n s0 s1v) (carveM s n s0) h) h = some P ∧
      ¬ P % 4294967296 = 0 ∧
      (h + 8 ≤ carveM s n s0 ∨ carveM s n s0 + 8 ≤ h) ∧
      (n + 4 ≤ h + 4 ∨ h + 8 ≤ n) ∧
      (n + 4 ≤ (carveE s n s0 s1v).lbound + P % 4294967296 + 8 ∨
        (carveE s n s0 s1v).lbound + P % 4294967296 + 12 ≤ n) := by
  refine ⟨hd, rest, q, hfl, ?_, by omega, by rw [hM]; omega, by omega, ?_⟩
  · unfold prev_ setnext
    dsimp only
    rw [readW_writeW_out _ _ _ _ (by rw [hM]; omega), hstored]
    rw [if_neg (by omega)]
    rw [hselb]
    congr 1
    omega
  · rw [hselb]
    have hq32 : q % 4294967296 = q - s.lbound := by omega
    rw [hq32]
    omega

lemma carve_insert_case (s : St) (i n s0 s1v : Nat)
    (hwf : WF s) (hi : i < 13) (hmem : n ∈ s.flists i)
    (hs0 : s0 % 8 = 0) (hs08 : 8 ≤ s0)
    (hs1 : s1v % 8 = 0) (hs18 : 8 ≤ s1v)
    (hsum : s0 + 8 + s1v = block_size_m s n)
    (hszB : block_size_m (carveB s n s0) n = s0)
    (hM : carveM s n s0 = n + s0 + 8)
    (hszD : block_size_m (carveD s n s0 s1v) (carveM s n s0) = s1v) :
    (carveE s n s0 s1v).flists
        (block_class_m (carveE s n s0 s1v) (carveM s n s0)) = [] ∨
    ∃ h rest2 P, (carveE s n s0 s1v).flists
        (block_class_m (carveE s n s0 s1v) (carveM s n s0)) = h :: rest2 ∧
      prev_ (setnext (carveE s n s0 s1v) (carveM s n s0) h) h = some P ∧
      ¬ P % 4294967296 = 0 ∧
      (h + 8 ≤ carveM s n s0 ∨ carveM s n s0 + 8 ≤ h) ∧
      (n + 4 ≤ h + 4 ∨ h + 8 ≤ n) ∧
      (n + 4 ≤ (carveE s n s0 s1v).lbound + P % 4294967296 + 8 ∨
        (carveE s n s0 s1v).lbound + P % 4294967296 + 12 ≤ n) := by
  obtain ⟨hlb, hpro, hepi, hhiE, hsent, hspan, hnodes, hnd, hdisj, hlinks⟩ := hwf
  obtain ⟨hnlo, hnmod, hnext, hnsz8, hnszmod, hnfree, hncls⟩ := hnodes i hi n hmem
  have hcls : block_class_m s n = i := hncls
  have hlisted : ∀ j, j < 13 → ∀ a ∈ s.flists j,
      s.lbound + 12 ≤ a ∧ a % 8 = 4 ∧ a + block_size_m s a + 8 ≤ s.epilog ∧
      8 ≤ block_size_m s a ∧ block_size_m s a % 8 = 0 := by
    intro j hj a ha
    obtain ⟨h1, h2, h3, h4, h5, _, _⟩ := hnodes j hj a ha
    exact ⟨h1, h2, h3, h4, h5⟩
  have hxhi : ∀ j, j < 13 → ∀ a ∈ s.flists j, a < s.lbound + 4294967296 := by
    intro j hj a ha
    obtain ⟨h1, _, h3, _, _⟩ := hlisted j hj a ha
    omega
  have hxcond : ∀ j, j < 13 → ∀ x ∈ s.flists j, ¬ x = n →
      x + 16 ≤ n ∨ n + s0 + s1v + 16 ≤ x := by
    intro j hj x hx hne
    obtain ⟨_, _, _, hx8, _⟩ := hlisted j hj x hx
    rcases hdisj j hj x hx i hi n hmem with ⟨_, hab⟩ | h | h
    · exact absurd hab hne
    · left
      omega
    · right
      omega
  have hsepI : ∀ a ∈ s.flists i, ∀ b ∈ s.flists i,
      a = b ∨ a + 16 ≤ b ∨ b + 16 ≤ a := by
    intro a ha b hb
    rcases hdisj i hi a ha i hi b hb with ⟨_, h⟩ | h | h
    · exact Or.inl h
    · obtain ⟨_, _, _, h4, _⟩ := hlisted i hi a ha
      right
      left
      omega
    · obtain ⟨_, _, _, h4, _⟩ := hlisted i hi b hb
      right
      right
      omega
  have hlinksI := hlinks i hi
  have hloI : ∀ a ∈ s.flists i, s.lbound + 12 ≤ a := fun a ha => (hnodes i hi a ha).1
  have hlne : s.flists i ≠ [] := List.ne_nil_of_mem hmem
  have hselb : (carveE s n s0 s1v).lbound = s.lbound := (carve_fields s n s0 s1v).1
  have hEfl : (carveE s n s0 s1v).flists = (carveA s n).flists :=
    (carve_fields s n s0 s1v).2.2
  have hAfl : (carveA s n).flists =
      if next_ s n = some n then setList s.flists i []
      else setList s.flists i ((s.flists i).erase n) := by
    unfold carveA delete
    rw [hcls]
    exact flist_delete_flists s n i
  generalize hXd : block_class_m (carveE s n s0 s1v) (carveM s n s0) = X
  have hXlt : X < 13 := by
    rw [← hXd]
    unfold block_class_m
    exact get_class_lt_13 _
  by_cases hsing : next_ s n = some n
  · -- a singleton delete writes nothing; the list of n is emptied
    have hAone : (carveA s n).mem = s.mem := by
      unfold carveA delete
      rw [hcls]
      exact flist_delete_mem_singleton s i n hsing
    by_cases hji : X = i
    · left
      rw [hEfl, hAfl, if_pos hsing, hji]
      simp [setList]
    · have hflX : (carveE s n s0 s1v).flists X = s.flists X := by
        rw [hEfl, hAfl, if_pos hsing]
        simp only [setList]
        rw [if_neg hji]
      cases hlj : s.flists X with
      | nil =>
          left
          rw [hflX, hlj]
      | cons h' rest' =>
          have hmem' : h' ∈ s.flists X := by
            rw [hlj]
            exact List.mem_cons_self _ _
          have hne' : ¬ h' = n := by
            intro he
            rcases hdisj X hXlt h' hmem' i hi n hmem with ⟨hij, _⟩ | h | h
            · exact hji hij
            · rw [he] at h
              omega
            · rw [he] at h
              omega
          have hh'cond := hxcond X hXlt h' hmem' hne'
          have hchain : readW (carveE s n s0 s1v).mem (h' + 4) =
              readW (carveA s n).mem (h' + 4) :=
            carve_chain_field s n s0 s1v h' hszB hM hszD (by omega)
          obtain ⟨hqv, hqm⟩ :=
            head_prev_decode s (s.flists X) h' rest' hlj (hlinks X hXlt)
          obtain ⟨q, hqd⟩ : ∃ v, cyc (s.flists X) ((s.flists X).length - 1) = v :=
            ⟨_, rfl⟩
          rw [hqd] at hqv hqm
          obtain ⟨hqlo, hqmod, hqext, hq8, _⟩ := hlisted X hXlt q hqm
          have hqhi := hxhi X hXlt q hqm
          have hqn : q = n ∨ q + 16 ≤ n ∨ n + s0 + s1v + 16 ≤ q := by
            by_cases hq : q = n
            · exact Or.inl hq
            · exact Or.inr (hxcond X hXlt q hqm hq)
          have hstored : readW (carveE s n s0 s1v).mem (h' + 4) = q - s.lbound := by
            rw [hchain, hAone]
            exact hqv
          refine Or.inr (carve_case_close s n s0 s1v X h' q rest' hlb hM hselb
            (by rw [hflX]; exact hlj) hstored hqlo hqhi hqn (by omega) hs18)
  · -- a real splice: name the cyclic neighbours of n
    obtain ⟨⟨k, hk⟩, hget⟩ := List.mem_iff_get.mp hmem
    have hcyck : cyc (s.flists i) k = n := by
      rw [cyc_lt _ k hk]
      exact hget
    have hnxdec : next_ s n = some (cyc (s.flists i) (k + 1)) := by
      rw [← hcyck]
      exact next_decode s _ k hk hlinksI hloI
    have hpvdec : prev_ s n =
        some (cyc (s.flists i) (k + (s.flists i).length - 1)) := by
      rw [← hcyck]
      exact prev_decode s _ k hk hlinksI hloI
    have h2len : 2 ≤ (s.flists i).length := by
      by_contra hle
      push_neg at hle
      have hlen1 : (s.flists i).length = 1 := by
        have := List.length_pos.mpr hlne
        omega
      apply hsing
      rw [hnxdec]
      have : cyc (s.flists i) (k + 1) = cyc (s.flists i) k := by
        unfold cyc
        rw [hlen1]
        simp [Nat.mod_one]
      rw [this, hcyck]
    obtain ⟨hnxne, hpvne⟩ := cyc_index_ne (s.flists i) k hk h2len (hnd i hi)
    rw [hcyck] at hnxne hpvne
    obtain ⟨nx, hnxd⟩ : ∃ v, cyc (s.flists i) (k + 1) = v := ⟨_, rfl⟩
    obtain ⟨pv, hpvd⟩ : ∃ v, cyc (s.flists i) (k + (s.flists i).length - 1) = v :=
      ⟨_, rfl⟩
    rw [hnxd] at hnxdec hnxne
    rw [hpvd] at hpvdec hpvne
    have hnxm : nx ∈ s.flists i := by
      rw [← hnxd]
      exact cyc_mem _ _ hlne
    have hpvm : pv ∈ s.flists i := by
      rw [← hpvd]
      exact cyc_mem _ _ hlne
    have hnxsep : nx + 16 ≤ n ∨ n + 16 ≤ nx := by
      rcases hsepI nx hnxm n hmem with h | h | h
      · exact absurd h hnxne
      · exact Or.inl h
      · exact Or.inr h
    have hAmemNS : (carveA s n).mem =
        writeW (writeW s.mem (nx + 4) pv) (pv + 8) nx := by
      unfold carveA delete
      rw [hcls]
      exact flist_delete_mem_eq s i n nx pv hnxdec hpvdec hnxne (by omega)
    obtain ⟨hpvlo, hpvmod, hpvext, hpv8, _⟩ := hlisted i hi pv hpvm
    have hpvhi := hxhi i hi pv hpvm
    have hpvcond := hxcond i hi pv hpvm hpvne
    by_cases hji : X = i
    · have hflX : (carveE s n s0 s1v).flists X = (s.flists i).erase n := by
        rw [hEfl, hAfl, if_neg hsing, hji]
        simp [setList]
      cases hlj : (s.flists i).erase n with
      | nil =>
          left
          rw [hflX, hlj]
      | cons h' rest' =>
          have hh'e : h' ∈ (s.flists i).erase n := by
            rw [hlj]
            exact List.mem_cons_self _ _
          have hmem' : h' ∈ s.flists i := List.mem_of_mem_erase hh'e
          have hne' : ¬ h' = n :=
            ((List.Nodup.mem_erase_iff (hnd i hi)).mp hh'e).1
          have hh'cond := hxcond i hi h' hmem' hne'
          have hchain : readW (carveE s n s0 s1v).mem (h' + 4) =
              readW (carveA s n).mem (h' + 4) :=
            carve_chain_field s n s0 s1v h' hszB hM hszD (by omega)
          by_cases hhnx : h' = nx
          · -- the head is the successor of n: its prev word now holds pv
            have hstored : readW (carveE s n s0 s1v).mem (h' + 4) =
                pv - s.lbound := by
              rw [hchain, hAmemNS, hhnx]
              have h1 : readW (writeW (writeW s.mem (nx + 4) pv) (pv + 8) nx)
                  (nx + 4) = readW (writeW s.mem (nx + 4) pv) (nx + 4) := by
                apply readW_writeW_out
                rcases hsepI pv hpvm nx hnxm with h | h | h <;> omega
              rw [h1, readW_writeW_same]
              omega
            refine Or.inr (carve_case_close s n s0 s1v X h' pv rest' hlb hM hselb
              (by rw [hflX]; exact hlj) hstored hpvlo hpvhi (Or.inr hpvcond)
              (by omega) hs18)
          · -- an untouched head: decode its prev from the intact links
            have hAf : readW (carveA s n).mem (h' + 4) =
                readW s.mem (h' + 4) := by
              rw [hAmemNS]
              have h1 : readW (writeW (writeW s.mem (nx + 4) pv) (pv + 8) nx)
                  (h' + 4) = readW (writeW s.mem (nx + 4) pv) (h' + 4) := by
                apply readW_writeW_out
                rcases hsepI pv hpvm h' hmem' with h | h | h <;> omega
              have h2 : readW (writeW s.mem (nx + 4) pv) (h' + 4) =
                  readW s.mem (h' + 4) := by
                apply readW_writeW_out
                rcases hsepI nx hnxm h' hmem' with h | h | h
                · exact absurd h.symm hhnx
                · omega
                · omega
              rw [h1, h2]
            obtain ⟨⟨kh, hkh⟩, hgeth⟩ := List.mem_iff_get.mp hmem'
            have hcych : cyc (s.flists i) kh = h' := by
              rw [cyc_lt _ kh hkh]
              exact hgeth
            obtain ⟨_, hph⟩ := hlinksI kh hkh
            rw [hcych] at hph
            obtain ⟨q, hqd⟩ :
                ∃ v, cyc (s.flists i) (kh + (s.flists i).length - 1) = v := ⟨_, rfl⟩
            rw [hqd] at hph
            have hqm : q ∈ s.flists i := by
              rw [← hqd]
              exact cyc_mem _ _ hlne
            obtain ⟨hqlo, hqmod, hqext, hq8, _⟩ := hlisted i hi q hqm
            have hqhi := hxhi i hi q hqm
            have hqn : q = n ∨ q + 16 ≤ n ∨ n + s0 + s1v + 16 ≤ q := by
              by_cases hq : q = n
              · exact Or.inl hq
              · exact Or.inr (hxcond i hi q hqm hq)
            have hstored : readW (carveE s n s0 s1v).mem (h' + 4) =
                q - s.lbound := by
              rw [hchain, hAf]
              exact hph
            refine Or.inr (carve_case_close s n s0 s1v X h' q rest' hlb hM hselb
              (by rw [hflX]; exact hlj) hstored hqlo hqhi hqn (by omega) hs18)
    · have hflX : (carveE s n s0 s1v).flists X = s.flists X := by
        rw [hEfl, hAfl, if_neg hsing]
        simp only [setList]
        rw [if_neg hji]
      cases hlj : s.flists X with
      | nil =>
          left
          rw [hflX, hlj]
      | cons h' rest' =>
          have hmem' : h' ∈ s.flists X := by
            rw [hlj]
            exact List.mem_cons_self _ _
          have hne' : ¬ h' = n := by
            intro he
            rcases hdisj X hXlt h' hmem' i hi n hmem with ⟨hij, _⟩ | h | h
            · exact hji hij
            · rw [he] at h
              omega
            · rw [he] at h
              omega
          have hh'cond := hxcond X hXlt h' hmem' hne'
          have hchain : readW (carveE s n s0 s1v).mem (h' + 4) =
              readW (carveA s n).mem (h' + 4) :=
            carve_chain_field s n s0 s1v h' hszB hM hszD (by omega)
          have hcrossnx : nx + 16 ≤ h' ∨ h' + 16 ≤ nx := by
            obtain ⟨_, _, _, hx8, _⟩ := hlisted i hi nx hnxm
            obtain ⟨_, _, _, hy8, _⟩ := hlisted X hXlt h' hmem'
            rcases hdisj i hi nx hnxm X hXlt h' hmem' with ⟨hij, _⟩ | h | h
            · exact absurd hij.symm hji
            · left
              omega
            · right
              omega
          have hcrosspv : pv + 16 ≤ h' ∨ h' + 16 ≤ pv := by
            obtain ⟨_, _, _, hy8, _⟩ := hlisted X hXlt h' hmem'
            rcases hdisj i hi pv hpvm X hXlt h' hmem' with ⟨hij, _⟩ | h | h
            · exact absurd hij.symm hji
            · left
              omega
            · right
              omega
          have hAf : readW (carveA s n).mem (h' + 4) =
              readW s.mem (h' + 4) := by
            rw [hAmemNS]
            rw [readW_writeW_out _ _ _ _ (by omega),
              readW_writeW_out _ _ _ _ (by omega)]
          obtain ⟨hqv, hqm⟩ :=
            head_prev_decode s (s.flists X) h' rest' hlj (hlinks X hXlt)
          obtain ⟨q, hqd⟩ : ∃ v, cyc (s.flists X) ((s.flists X).length - 1) = v :=
            ⟨_, rfl⟩
          rw [hqd] at hqv hqm
          obtain ⟨hqlo, hqmod, hqext, hq8, _⟩ := hlisted X hXlt q hqm
          have hqhi := hxhi X hXlt q hqm
          have hqn : q = n ∨ q + 16 ≤ n ∨ n + s0 + s1v + 16 ≤ q := by
            by_cases hq : q = n
            · exact Or.inl hq
            · exact Or.inr (hxcond X hXlt q hqm hq)
          have hstored : readW (carveE s n s0 s1v).mem (h' + 4) =
              q - s.lbound := by
            rw [hchain, hAf]
            exact hqv
          refine Or.inr (carve_case_close s n s0 s1v X h' q rest' hlb hM hselb
            (by rw [hflX]; exact hlj) hstored hqlo hqhi hqn (by omega) hs18)

lemma carve_block_size (s : St) (i n s0 s1v : Nat)
    (hwf : WF s) (hi : i < 13) (hmem : n ∈ s.flists i)
    (hs0 : s0 % 8 = 0) (hs08 : 8 ≤ s0)
    (hs1 : s1v % 8 = 0) (hs18 : 8 ≤ s1v)
    (hsum : s0 + 8 + s1v = block_size_m s n) :
    block_size_m (carve s n s0 s1v).2 n = s0 := by
  obtain ⟨hlb, hpro, hepi, hhiE, hsent, hspan, hnodes, hnd, hdisj, hlinks⟩ := hwf
  obtain ⟨hnlo, hnmod, hnext, hnsz8, hnszmod, hnfree, hncls⟩ := hnodes i hi n hmem
  have hcls : block_class_m s n = i := hncls
  have hbszlt : block_size_m s n < 4294967296 := block_size_m_lt s n
  have hsepI : ∀ a ∈ s.flists i, ∀ b ∈ s.flists i,
      a = b ∨ a + 16 ≤ b ∨ b + 16 ≤ a := by
    intro a ha b hb
    rcases hdisj i hi a ha i hi b hb with ⟨_, h⟩ | h | h
    · exact Or.inl h
    · obtain ⟨_, _, _, h4, _, _, _⟩ := hnodes i hi a ha
      right
      left
      omega
    · obtain ⟨_, _, _, h4, _, _, _⟩ := hnodes i hi b hb
      right
      right
      omega
  have hlinksI := hlinks i hi
  have hloI : ∀ a ∈ s.flists i, s.lbound + 12 ≤ a := fun a ha => (hnodes i hi a ha).1
  have hAn : readW (carveA s n).mem n = readW s.mem n := by
    unfold carveA delete
    rw [hcls]
    apply flist_delete_readW s i n n hmem hlinksI hloI hsepI
    intro a ha
    rcases hsepI n hmem a ha with h | h | h <;> omega
  have hBn : readW (carveB s n s0).mem n = s0 ||| (readW s.mem n &&& 6) ||| 1 := by
    show readW (writeW (carveA s n).mem n
      (s0 ||| (readW (carveA s n).mem n &&& 6) ||| 1)) n = _
    rw [readW_writeW_same, hAn]
    have hb : readW s.mem n &&& 6 ≤ 6 := Nat.and_le_right
    have hor6 := or_low8 s0 (readW s.mem n &&& 6) hs0 (by omega)
    have hor1 := or1 (s0 ||| (readW s.mem n &&& 6))
    omega
  have hszB : block_size_m (carveB s n s0) n = s0 := by
    unfold block_size_m
    rw [hBn]
    have hb : readW s.mem n &&& 6 ≤ 6 := Nat.and_le_right
    have hor6 := or_low8 s0 (readW s.mem n &&& 6) hs0 (by omega)
    have hor1 := or1 (s0 ||| (readW s.mem n &&& 6))
    rw [and_size32 _ (by omega)]
    omega
  have hCn : readW (carveC s n s0).mem n = readW (carveB s n s0).mem n := by
    unfold carveC
    exact block_mark_readW _ n n (Or.inl (by omega))
  have hszC : block_size_m (carveC s n s0) n = s0 := by
    unfold block_size_m
    rw [hCn]
    exact hszB
  have hCep : (carveC s n s0).epilog = s.epilog := carveC_epilog s n s0
  have hm0 : block_next_m (carveC s n s0) n = some (n + s0 + 8) := by
    unfold block_next_m
    rw [if_neg (by rw [hCep]; omega), hszC]
  have hM : carveM s n s0 = n + s0 + 8 := by
    unfold carveM
    rw [hm0]
    rfl
  have hDn : readW (carveD s n s0 s1v).mem n = readW (carveC s n s0).mem n := by
    show readW (writeW (carveC s n s0).mem (carveM s n s0) _) n = _
    apply readW_writeW_out
    rw [hM]
    omega
  have hDm : readW (carveD s n s0 s1v).mem (carveM s n s0) =
      s1v ||| (readW (carveC s n s0).mem (carveM s n s0) &&& 6) := by
    show readW (writeW (carveC s n s0).mem (carveM s n s0)
      (s1v ||| (readW (carveC s n s0).mem (carveM s n s0) &&& 6))) (carveM s n s0) = _
    rw [readW_writeW_same]
    have hb : readW (carveC s n s0).mem (carveM s n s0) &&& 6 ≤ 6 := Nat.and_le_right
    have hor6 := or_low8 s1v (readW (carveC s n s0).mem (carveM s n s0) &&& 6)
      hs1 (by omega)
    omega
  have hszD : block_size_m (carveD s n s0 s1v) (carveM s n s0) = s1v := by
    unfold block_size_m
    rw [hDm]
    have hb : readW (carveC s n s0).mem (carveM s n s0) &&& 6 ≤ 6 := Nat.and_le_right
    have hor6 := or_low8 s1v (readW (carveC s n s0).mem (carveM s n s0) &&& 6)
      hs1 (by omega)
    rw [and_size32 _ (by omega)]
    omega
  have hEn : readW (carveE s n s0 s1v).mem n = readW (carveD s n s0 s1v).mem n := by
    unfold carveE
    apply block_mark_readW
    rw [hszD, hM]
    omega
  have hszE0 : readW (carveE s n s0 s1v).mem n =
      s0 ||| (readW s.mem n &&& 6) ||| 1 := by
    rw [hEn, hDn, hCn, hBn]
  have hfinal : readW (add (carveE s n s0 s1v) (carveM s n s0)).mem n =
      readW (carveE s n s0 s1v).mem n := by
    unfold add
    refine flist_insert_readW_gen _ _ _ _ ?_ ?_
    · exact carve_insert_case s i n s0 s1v
        ⟨hlb, hpro, hepi, hhiE, hsent, hspan, hnodes, hnd, hdisj, hlinks⟩
        hi hmem hs0 hs08 hs1 hs18 hsum hszB hM hszD
    · rw [hM]
      omega
  rw [carve_snd]
  unfold block_size_m
  rw [hfinal, hszE0]
  have hb : readW s.mem n &&& 6 ≤ 6 := Nat.and_le_right
  have hor6 := or_low8 s0 (readW s.mem n &&& 6) hs0 (by omega)
  have hor1 := or1 (s0 ||| (readW s.mem n &&& 6))
  rw [and_size32 _ (by omega)]
  omega

end CarveSize



section SearchSome

lemma bestScan_mem (s : St) (size : Nat) (L : List Nat) :
    ∀ rest count best n, (∀ x ∈ rest, x ∈ L) → n ∈ L →
      best = block_size_m s n → size ≤ best →
      (bestScan s size count rest best n).2 ∈ L ∧
      (bestScan s size count rest best n).1 =
        block_size_m s (bestScan s size count rest best n).2 ∧
      size ≤ (bestScan s size count rest best n).1 := by
  intro rest
  induction rest with
  | nil =>
      intro count best n _ hn hb hs
      exact ⟨hn, hb, hs⟩
  | cons m rest ih =>
      intro count best n hsub hn hb hs
      simp only [bestScan]
      by_cases hc : count < 10
      · rw [if_pos hc]
        by_cases ht : block_size_m s m < best ∧ size ≤ block_size_m s m
        · rw [if_pos ht]
          exact ih (count + 1) (block_size_m s m) m
            (fun x hx => hsub x (List.mem_cons_of_mem _ hx))
            (hsub m (List.mem_cons_self _ _)) rfl ht.2
        · rw [if_neg ht]
          exact ih (count + 1) best n
            (fun x hx => hsub x (List.mem_cons_of_mem _ hx)) hn hb hs
      · rw [if_neg hc]
        exact ⟨hn, hb, hs⟩

lemma searchLoop_some (s : St) (size i : Nat) (hwf : WF s) (hi : i < 13)
    (hsz8 : size % 8 = 0) (hsz : 8 ≤ size) :
    ∀ l, (∀ x ∈ l, x ∈ s.flists i) → ∀ a, (searchLoop s size l).1 = some a →
    ∃ b, b ∈ s.flists i ∧ a = b + 4 ∧
      size ≤ block_size_m (searchLoop s size l).2 b := by
  obtain ⟨hlb, hpro, hepi, hhiE, hsent, hspan, hnodes, hnd, hdisj, hlinks⟩ := hwf
  have hsepI : ∀ a ∈ s.flists i, ∀ b ∈ s.flists i,
      a = b ∨ a + 16 ≤ b ∨ b + 16 ≤ a := by
    intro a ha b hb
    rcases hdisj i hi a ha i hi b hb with ⟨_, h⟩ | h | h
    · exact Or.inl h
    · obtain ⟨_, _, _, h4, _, _, _⟩ := hnodes i hi a ha
      right
      left
      omega
    · obtain ⟨_, _, _, h4, _, _, _⟩ := hnodes i hi b hb
      right
      right
      omega
  have hloI : ∀ a ∈ s.flists i, s.lbound + 12 ≤ a := fun a ha => (hnodes i hi a ha).1
  intro l
  induction l with
  | nil =>
      intro _ a ha
      simp [searchLoop] at ha
  | cons n rest ih =>
      intro hsub a ha
      have hmn : n ∈ s.flists i := hsub n (List.mem_cons_self _ _)
      simp only [searchLoop] at ha ⊢
      by_cases hb : size ≤ block_size_m s n
      · rw [if_pos hb] at ha ⊢
        obtain ⟨hbm, hbeq, hbge⟩ := bestScan_mem s size (s.flists i) rest 0
          (block_size_m s n) n (fun x hx => hsub x (List.mem_cons_of_mem _ hx))
          hmn rfl hb
        obtain ⟨hblo, hbmod, hbext, hb8, hbmod8, hbfree, hbcls⟩ := hnodes i hi _ hbm
        by_cases hcv :
            16 ≤ (bestScan s size 0 rest (block_size_m s n) n).1 - size
        · rw [if_pos hcv] at ha ⊢
          rw [carve_fst] at ha
          injection ha with ha2
          refine ⟨(bestScan s size 0 rest (block_size_m s n) n).2, hbm,
            ha2.symm, ?_⟩
          exact le_of_eq (carve_block_size s i
            (bestScan s size 0 rest (block_size_m s n) n).2 size
            ((bestScan s size 0 rest (block_size_m s n) n).1 - size - 8)
            ⟨hlb, hpro, hepi, hhiE, hsent, hspan, hnodes, hnd, hdisj, hlinks⟩
            hi hbm hsz8 hsz (by omega) (by omega) (by omega)).symm
        · rw [if_neg hcv] at ha ⊢
          rw [found_fst] at ha
          injection ha with ha2
          refine ⟨(bestScan s size 0 rest (block_size_m s n) n).2, hbm,
            ha2.symm, ?_⟩
          rw [found_block_size s i _ hbm hbcls (hlinks i hi) hloI hsepI, ← hbeq]
          exact hbge
      · rw [if_neg hb] at ha ⊢
        exact ih (fun x hx => hsub x (List.mem_cons_of_mem _ hx)) a ha

lemma searchlist_some (s : St) (i size : Nat) (hwf : WF s) (hi : i < 13)
    (hok : i = get_class size ∨ i = 12)
    (hsz8 : size % 8 = 0) (hsz : 8 ≤ size) :
    ∀ a, (searchlist s i size).1 = some a →
    ∃ b, b ∈ s.flists i ∧ a = b + 4 ∧
      size ≤ block_size_m (searchlist s i size).2 b := by
  intro a ha
  cases hl : s.flists i with
  | nil =>
      rw [searchlist_nil s i size hl] at ha
      simp at ha
  | cons n rest =>
      rw [searchlist_eta s i size n rest hl] at ha ⊢
      by_cases hfast : block_class_m s n < 7
      · rw [if_pos hfast] at ha ⊢
        have hmn : n ∈ s.flists i := by
          rw [hl]
          exact List.mem_cons_self _ _
        obtain ⟨hlb, hpro, hepi, hhiE, hsent, hspan, hnodes, hnd, hdisj, hlinks⟩ := hwf
        have hsepI : ∀ a ∈ s.flists i, ∀ b ∈ s.flists i,
            a = b ∨ a + 16 ≤ b ∨ b + 16 ≤ a := by
          intro a ha b hb
          rcases hdisj i hi a ha i hi b hb with ⟨_, h⟩ | h | h
          · exact Or.inl h
          · obtain ⟨_, _, _, h4, _, _, _⟩ := hnodes i hi a ha
            right
            left
            omega
          · obtain ⟨_, _, _, h4, _, _, _⟩ := hnodes i hi b hb
            right
            right
            omega
        have hloI : ∀ a ∈ s.flists i, s.lbound + 12 ≤ a :=
          fun a ha => (hnodes i hi a ha).1
        obtain ⟨_, _, _, h8, hmod8, _, hcls⟩ := hnodes i hi n hmn
        have hii : i = get_class size := by
          rcases hok with h | h
          · exact h
          · exfalso
            have hcl2 : block_class_m s n = i := hcls
            rw [hcl2, h] at hfast
            omega
        have heq : block_size_m s n = size :=
          small_class_size_eq _ _ hmod8 hsz8 h8 hsz (hcls.trans hii) hfast
        rw [found_fst] at ha
        injection ha with ha2
        refine ⟨n, List.mem_cons_self _ _, ha2.symm, ?_⟩
        rw [found_block_size s i n hmn hcls (hlinks i hi) hloI hsepI, heq]
      · rw [if_neg hfast] at ha ⊢
        obtain ⟨b, hbm, hba, hble⟩ := searchLoop_some s size i hwf hi hsz8 hsz
          (n :: rest) (by rw [hl]; exact fun x hx => hx) a ha
        rw [hl] at hbm
        exact ⟨b, hbm, hba, hble⟩

end SearchSome



section MallocSpec

lemma adj_ge (n : Nat) (hn : n ≤ 18446744073709551608) :
    n ≤ mallocSizeAdj n := by
  have ha := sizeAlign8_arith n
  rcases mallocSizeAdj_spec n with ⟨hle, h8⟩ | ⟨hgt, hle, h16⟩ | ⟨hgt, hv⟩ <;> omega

lemma malloc_fail (s : St) (n0 : Nat)
    (h8 : ¬ mallocSizeAdj n0 < 8)
    (h1 : (searchlist s (get_class (mallocSizeAdj n0)) (mallocSizeAdj n0)).1 = none)
    (h2 : (searchlist s 12 (mallocSizeAdj n0)).1 = none)
    (h3 : LIMIT < mallocSizeAdj n0 + 8 + heapsize s ∨ s.sbrkFail = true) :
    malloc s n0 = (none, s) := by
  have e1 : searchlist s (get_class (mallocSizeAdj n0)) (mallocSizeAdj n0) =
      (none, s) := Prod.ext h1 (searchlist_none _ _ _ h1)
  have e2 : searchlist s 12 (mallocSizeAdj n0) = (none, s) :=
    Prod.ext h2 (searchlist_none _ _ _ h2)
  simp only [malloc]
  rw [if_neg h8, e1]
  dsimp only
  by_cases hp : get_class (mallocSizeAdj n0) ≠ 12
  · rw [if_pos hp, e2]
    dsimp only
    rcases h3 with h3 | h3
    · rw [if_pos h3]
    · by_cases hlim : LIMIT < mallocSizeAdj n0 + 8 + heapsize s
      · rw [if_pos hlim]
      · rw [if_neg hlim, if_pos h3]
  · rw [if_neg hp]
    dsimp only
    rcases h3 with h3 | h3
    · rw [if_pos h3]
    · by_cases hlim : LIMIT < mallocSizeAdj n0 + 8 + heapsize s
      · rw [if_pos hlim]
      · rw [if_neg hlim, if_pos h3]

lemma malloc_grow (s : St) (n0 : Nat)
    (h8 : ¬ mallocSizeAdj n0 < 8)
    (h1 : (searchlist s (get_class (mallocSizeAdj n0)) (mallocSizeAdj n0)).1 = none)
    (h2 : (searchlist s 12 (mallocSizeAdj n0)).1 = none)
    (hlim : ¬ LIMIT < mallocSizeAdj n0 + 8 + heapsize s)
    (hsf : ¬ s.sbrkFail = true) :
    malloc s n0 = (some (growN s + 4), growE s (mallocSizeAdj n0)) := by
  have e1 : searchlist s (get_class (mallocSizeAdj n0)) (mallocSizeAdj n0) =
      (none, s) := Prod.ext h1 (searchlist_none _ _ _ h1)
  have e2 : searchlist s 12 (mallocSizeAdj n0) = (none, s) :=
    Prod.ext h2 (searchlist_none _ _ _ h2)
  simp only [malloc]
  rw [if_neg h8, e1]
  dsimp only
  by_cases hp : get_class (mallocSizeAdj n0) ≠ 12
  · rw [if_pos hp, e2]
    dsimp only
    rw [if_neg hlim, if_neg hsf]
    rfl
  · rw [if_neg hp]
    dsimp only
    rw [if_neg hlim, if_neg hsf]
    rfl

lemma grow_block_size (s : St) (size : Nat)
    (hepi : s.epilog % 8 = 4) (hhiE : s.heapHi = s.epilog + 3)
    (hsz8 : size % 8 = 0) (hsz : 8 ≤ size) (hszlt : size < 104857600) :
    block_size_m (growE s size) (growN s) = size ∧ growN s % 8 = 4 := by
  have hgn : growN s = s.epilog := by
    unfold growN
    omega
  have hBv : readW (growB s size).mem (growN s) =
      size ||| (readW s.mem s.epilog &&& 7) := by
    show readW (writeW (growA s size).mem (growN s)
      (size ||| (readW (growA s size).mem (growA s size).epilog &&& 7))) (growN s) = _
    rw [readW_writeW_same]
    have hmemA : (growA s size).mem = s.mem := rfl
    have hepA : (growA s size).epilog = s.epilog := rfl
    rw [hmemA, hepA]
    have hb : readW s.mem s.epilog &&& 7 ≤ 7 := Nat.and_le_right
    have hor := or_low8 size (readW s.mem s.epilog &&& 7) hsz8 (by omega)
    omega
  have hszB : block_size_m (growB s size) (growN s) = size := by
    unfold block_size_m
    rw [hBv]
    have hb : readW s.mem s.epilog &&& 7 ≤ 7 := Nat.and_le_right
    have hor := or_low8 size (readW s.mem s.epilog &&& 7) hsz8 (by omega)
    rw [and_size32 _ (by omega)]
    omega
  have hCv : readW (growC s size).mem (growN s) =
      readW (growB s size).mem (growN s) := rfl
  have hgc : (growC s size).epilog = s.epilog + size + 8 := by
    show (growB s size).heapHi - 3 = _
    show (growA s size).heapHi - 3 = _
    show s.heapHi + (size + 8) - 3 = _
    omega
  have hDv : readW (growD s size).mem (growN s) =
      readW (growC s size).mem (growN s) := by
    show readW (writeW (growC s size).mem (growC s size).epilog 1) (growN s) = _
    apply readW_writeW_out
    rw [hgc, hgn]
    omega
  have hszD : block_size_m (growD s size) (growN s) = size := by
    unfold block_size_m
    rw [hDv, hCv]
    exact hszB
  have hEv : readW (growE s size).mem (growN s) =
      readW (growD s size).mem (growN s) := by
    unfold growE
    apply block_mark_readW
    rw [hszD]
    omega
  constructor
  · unfold block_size_m
    rw [hEv, hDv, hCv]
    exact hszB
  · omega

lemma malloc_grow_spec (s : St) (n0 p : Nat) (hwf : WF s)
    (h1 : (searchlist s (get_class (mallocSizeAdj n0)) (mallocSizeAdj n0)).1 = none)
    (h2 : (searchlist s 12 (mallocSizeAdj n0)).1 = none)
    (hres : (malloc s n0).1 = some p) :
    p % 8 = 0 ∧ mallocSizeAdj n0 ≤ block_size_m (malloc s n0).2 (p - 4) := by
  obtain ⟨hlb, hpro, hepi, hhiE, hsent, hspan, _, _, _, _⟩ := hwf
  have hadj := adj_min n0
  by_cases hlim : LIMIT < mallocSizeAdj n0 + 8 + heapsize s
  · rw [malloc_fail s n0 (by omega) h1 h2 (Or.inl hlim)] at hres
    simp at hres
  · by_cases hsf : s.sbrkFail = true
    · rw [malloc_fail s n0 (by omega) h1 h2 (Or.inr hsf)] at hres
      simp at hres
    · rw [malloc_grow s n0 (by omega) h1 h2 hlim hsf] at hres ⊢
      dsimp only at hres ⊢
      injection hres with hgp
      have hL : LIMIT = 104857600 := rfl
      obtain ⟨hbs, hmod⟩ := grow_block_size s (mallocSizeAdj n0) hepi hhiE
        hadj.2 hadj.1 (by omega)
      subst hgp
      constructor
      · omega
      · have hp4 : growN s + 4 - 4 = growN s := by omega
        rw [hp4]
        exact le_of_eq hbs.symm

end MallocSpec

/-- C1 (amended): a successful allocate(n) with n ≥ 1 on a well-formed
heap returns an address that is 8-byte aligned and whose block's
payload size in the post-call state is at least the rounded-and-clamped
size, on every path (free-list hit, carve, heap grow); whenever n does
not exceed 2^64 - 8 (so the 64-bit round-up cannot wrap) that size is
in turn at least n. -/
theorem C1_alloc_aligned_and_sized (s : St) (n0 p : Nat) (hwf : WF s)
    (hn : 1 ≤ n0) (hres : (malloc s n0).1 = some p) :
    p % 8 = 0 ∧
    mallocSizeAdj n0 ≤ block_size_m (malloc s n0).2 (p - 4) ∧
    (n0 ≤ 18446744073709551608 → n0 ≤ block_size_m (malloc s n0).2 (p - 4)) := by
  have hadj := adj_min n0
  have hclt : get_class (mallocSizeAdj n0) < 13 := get_class_lt_13 _
  have hnodes := hwf.2.2.2.2.2.2.1
  suffices hS : p % 8 = 0 ∧ mallocSizeAdj n0 ≤ block_size_m (malloc s n0).2 (p - 4) by
    exact ⟨hS.1, hS.2, fun hbound => le_trans (adj_ge n0 hbound) hS.2⟩
  obtain ⟨o1, s1, hr1⟩ :
      ∃ o t, searchlist s (get_class (mallocSizeAdj n0)) (mallocSizeAdj n0) = (o, t) :=
    ⟨_, _, rfl⟩
  cases ho1 : o1 with
  | some a =>
      have hA : (searchlist s (get_class (mallocSizeAdj n0)) (mallocSizeAdj n0)).1 =
          some a := by
        rw [hr1]
        exact ho1
      have hm : malloc s n0 = (some a, s1) := by
        simp only [malloc]
        rw [if_neg (by omega), hr1]
        dsimp only
        simp only [ho1]
      obtain ⟨b, hbm, hba, hble⟩ := searchlist_some s _ _ hwf hclt (Or.inl rfl)
        hadj.2 hadj.1 a hA
      rw [hr1] at hble
      dsimp only at hble
      obtain ⟨hblo, hbmod, _, _, _, _, _⟩ := hnodes _ hclt b hbm
      rw [hm] at hres ⊢
      dsimp only at hres ⊢
      injection hres with hap
      constructor
      · omega
      · have hp4 : p - 4 = b := by omega
        rw [hp4]
        exact hble
  | none =>
      have hA1 : (searchlist s (get_class (mallocSizeAdj n0)) (mallocSizeAdj n0)).1 =
          none := by
        rw [hr1]
        exact ho1
      have hs1eq : s1 = s := by
        have hsnd := searchlist_none _ _ _ hA1
        rw [hr1] at hsnd
        exact hsnd
      subst hs1eq
      by_cases hc12 : get_class (mallocSizeAdj n0) ≠ 12
      · obtain ⟨o2, s2, hr2⟩ :
            ∃ o t, searchlist s1 12 (mallocSizeAdj n0) = (o, t) := ⟨_, _, rfl⟩
        cases ho2 : o2 with
        | some a =>
            have hA2 : (searchlist s1 12 (mallocSizeAdj n0)).1 = some a := by
              rw [hr2]
              exact ho2
            have hm : malloc s1 n0 = (some a, s2) := by
              simp only [malloc]
              rw [if_neg (by omega), hr1]
              dsimp only
              rw [ho1]
              dsimp only
              rw [if_pos hc12, hr2]
              dsimp only
              simp only [ho2]
            obtain ⟨b, hbm, hba, hble⟩ := searchlist_some s1 12 _ hwf (by omega)
              (Or.inr rfl) hadj.2 hadj.1 a hA2
            rw [hr2] at hble
            dsimp only at hble
            obtain ⟨hblo, hbmod, _, _, _, _, _⟩ := hnodes 12 (by omega) b hbm
            rw [hm] at hres ⊢
            dsimp only at hres ⊢
            injection hres with hap
            constructor
            · omega
            · have hp4 : p - 4 = b := by omega
              rw [hp4]
              exact hble
        | none =>
            have hA2 : (searchlist s1 12 (mallocSizeAdj n0)).1 = none := by
              rw [hr2]
              exact ho2
            exact malloc_grow_spec s1 n0 p hwf hA1 hA2 hres
      · push_neg at hc12
        have hA2 : (searchlist s1 12 (mallocSizeAdj n0)).1 = none := by
          rw [← hc12]
          exact hA1
        exact malloc_grow_spec s1 n0 p hwf hA1 hA2 hres

/-- C1 counterexample to the literal reading: allocate mm_init's first
block (payload 8 at address 16), free it, then request n = 2^64 - 1.
The 64-bit round-up wraps to 0, the clamps turn the request into 8,
and malloc satisfies it with the freed 8-byte block: the call succeeds
with a payload of 8 bytes, far less than n. -/
theorem C1_counterexample :
    mallocSizeAdj 18446744073709551615 = 8 ∧
    (malloc (free_ (malloc mm_init 1).2 (some 16)) 18446744073709551615).1 =
      some 16 ∧
    block_size_m
      (malloc (free_ (malloc mm_init 1).2 (some 16)) 18446744073709551615).2 12
      = 8 :=
  ⟨by decide, by decide, by decide⟩

/-- C1 witness: the amended theorem applied to the concrete well-formed
heap stC3 with request 1, served from the class-0 free list at payload
address 16. -/
theorem C1_alloc_aligned_and_sized_witness :
    WF stC3 ∧ 1 ≤ 1 ∧ (malloc stC3 1).1 = some 16 ∧
    (16 % 8 = 0 ∧
      mallocSizeAdj 1 ≤ block_size_m (malloc stC3 1).2 (16 - 4) ∧
      (1 ≤ 18446744073709551608 → 1 ≤ block_size_m (malloc stC3 1).2 (16 - 4))) :=
  ⟨by decide, by decide, by decide,
    C1_alloc_aligned_and_sized stC3 1 16 (by decide) (by decide) (by decide)⟩



section FreeSpec

lemma and_clear1 (x : Nat) (hx : x < 4294967296) : x &&& 4294967294 = x - x % 2 := by
  have h := and_not1_mask x 32 (by norm_num) (by norm_num; omega)
  norm_num at h
  exact h

lemma and6 (x : Nat) : x &&& 6 = x % 8 - x % 2 := by
  have h1 : x &&& 6 = x % 8 &&& 6 := by
    have h76 : (7 : Nat) &&& 6 = 6 := by decide
    rw [← and7 x, Nat.and_assoc, h76]
  have h2 := and_not1_mask (x % 8) 3 (by norm_num) (by omega)
  norm_num at h2
  rw [h1, h2]

lemma free_cases (s : St) (p : Nat) :
    free_ s (some p) =
      if block_free_m (freeS1 s p) (freeNxt s p) then
        (if block_free_m (freeTT2 s p) (freePrv s p) then freeTT s p
         else freeFT s p)
      else if block_free_m (freeS1 s p) (freePrv s p) then freeTF s p
      else add (freeS1 s p) (p - 4) := rfl

lemma freeS1_readW_out (s : St) (p t : Nat)
    (ht : t + 4 ≤ p - 4 ∨ p - 4 + 4 ≤ t) :
    readW (freeS1 s p).mem t = readW s.mem t := by
  show readW (writeW s.mem (p - 4) _) t = _
  apply readW_writeW_out
  omega

lemma freeS1_readW_at (s : St) (p : Nat) :
    readW (freeS1 s p).mem (p - 4) =
      readW s.mem (p - 4) - readW s.mem (p - 4) % 2 := by
  show readW (writeW s.mem (p - 4) (readW s.mem (p - 4) &&& 4294967294)) (p - 4) = _
  rw [readW_writeW_same]
  have hlt := readW_lt s.mem (p - 4)
  rw [and_clear1 _ hlt]
  omega

lemma freeS1_size (s : St) (p : Nat) :
    block_size_m (freeS1 s p) (p - 4) = block_size_m s (p - 4) := by
  unfold block_size_m
  rw [freeS1_readW_at]
  have hlt := readW_lt s.mem (p - 4)
  rw [and_size32 _ (by omega), and_size32 _ hlt]
  omega

lemma freeS1_free (s : St) (p : Nat) :
    block_free_m (freeS1 s p) (p - 4) = true := by
  unfold block_free_m
  rw [freeS1_readW_at, and1]
  simp only [beq_iff_eq]
  omega

lemma freeNxt_eq (s : St) (p : Nat) (hne : ¬ p - 4 = s.epilog) :
    freeNxt s p = p - 4 + block_size_m s (p - 4) + 8 := by
  unfold freeNxt block_next_m
  have hep : (freeS1 s p).epilog = s.epilog := rfl
  rw [hep, if_neg hne, freeS1_size]
  rfl

lemma linksOK_pres (s s' : St) (l : List Nat)
    (hlb : s'.lbound = s.lbound)
    (h : ∀ a ∈ l, readW s'.mem (a + 4) = readW s.mem (a + 4) ∧
      readW s'.mem (a + 8) = readW s.mem (a + 8))
    (hlinks : linksOK s l) : linksOK s' l := by
  intro k hk
  have hne : l ≠ [] := by
    intro h0
    rw [h0] at hk
    simp at hk
  obtain ⟨h1, h2⟩ := hlinks k hk
  obtain ⟨ha4, ha8⟩ := h _ (cyc_mem l k hne)
  constructor
  · rw [ha8, hlb]
    exact h1
  · rw [ha4, hlb]
    exact h2

end FreeSpec



section FreeSpecCases

lemma hsepG_of_wf (s : St) (hwf : WF s) : ∀ j1, j1 < 13 → ∀ a ∈ s.flists j1,
    ∀ j2, j2 < 13 → ∀ b ∈ s.flists j2, a = b ∨ a + 16 ≤ b ∨ b + 16 ≤ a := by
  obtain ⟨_, _, _, _, _, _, hnodes, _, hdisj, _⟩ := hwf
  intro j1 hj1 a ha j2 hj2 b hb
  rcases hdisj j1 hj1 a ha j2 hj2 b hb with ⟨_, h⟩ | h | h
  · exact Or.inl h
  · obtain ⟨_, _, _, h4, _, _, _⟩ := hnodes j1 hj1 a ha
    right
    left
    omega
  · obtain ⟨_, _, _, h4, _, _, _⟩ := hnodes j2 hj2 b hb
    right
    right
    omega

lemma freeS1_fields_pres (s : St) (p : Nat) (hwf : WF s)
    (hdisjn : ∀ j, j < 13 → ∀ a ∈ s.flists j,
      a + block_size_m s a + 8 ≤ p - 4 ∨
        p - 4 + block_size_m s (p - 4) + 8 ≤ a) :
    ∀ j, j < 13 → ∀ a ∈ s.flists j,
      readW (freeS1 s p).mem (a + 4) = readW s.mem (a + 4) ∧
      readW (freeS1 s p).mem (a + 8) = readW s.mem (a + 8) := by
  obtain ⟨_, _, _, _, _, _, hnodes, _, _, _⟩ := hwf
  intro j hj a ha
  obtain ⟨_, _, _, ha8, _, _, _⟩ := hnodes j hj a ha
  rcases hdisjn j hj a ha with h | h
  · exact ⟨freeS1_readW_out s p _ (Or.inl (by omega)),
      freeS1_readW_out s p _ (Or.inl (by omega))⟩
  · exact ⟨freeS1_readW_out s p _ (Or.inr (by omega)),
      freeS1_readW_out s p _ (Or.inr (by omega))⟩

lemma freeS1_hdr_pres (s : St) (p : Nat) (hwf : WF s)
    (hdisjn : ∀ j, j < 13 → ∀ a ∈ s.flists j,
      a + block_size_m s a + 8 ≤ p - 4 ∨
        p - 4 + block_size_m s (p - 4) + 8 ≤ a) :
    ∀ j, j < 13 → ∀ a ∈ s.flists j,
      readW (freeS1 s p).mem a = readW s.mem a := by
  obtain ⟨_, _, _, _, _, _, hnodes, _, _, _⟩ := hwf
  intro j hj a ha
  obtain ⟨_, _, _, ha8, _, _, _⟩ := hnodes j hj a ha
  rcases hdisjn j hj a ha with h | h
  · exact freeS1_readW_out s p _ (Or.inl (by omega))
  · exact freeS1_readW_out s p _ (Or.inr (by omega))

lemma freeS1_linksOK (s : St) (p : Nat) (hwf : WF s)
    (hdisjn : ∀ j, j < 13 → ∀ a ∈ s.flists j,
      a + block_size_m s a + 8 ≤ p - 4 ∨
        p - 4 + block_size_m s (p - 4) + 8 ≤ a) :
    ∀ j, j < 13 → linksOK (freeS1 s p) (s.flists j) := by
  intro j hj
  exact linksOK_pres s (freeS1 s p) _ rfl
    (fun a ha => freeS1_fields_pres s p hwf hdisjn j hj a ha)
    (hwf.2.2.2.2.2.2.2.2.2 j hj)

lemma freeS1_list_size (s : St) (p : Nat) (hwf : WF s)
    (hdisjn : ∀ j, j < 13 → ∀ a ∈ s.flists j,
      a + block_size_m s a + 8 ≤ p - 4 ∨
        p - 4 + block_size_m s (p - 4) + 8 ≤ a) :
    ∀ j, j < 13 → ∀ a ∈ s.flists j,
      block_size_m (freeS1 s p) a = block_size_m s a := by
  intro j hj a ha
  unfold block_size_m
  rw [freeS1_hdr_pres s p hwf hdisjn j hj a ha]

lemma freeS1_delete_readW (s : St) (p t b j : Nat) (hj : j < 13) (hwf : WF s)
    (hbm : b ∈ s.flists j)
    (hdisjn : ∀ j2, j2 < 13 → ∀ a ∈ s.flists j2,
      a + block_size_m s a + 8 ≤ p - 4 ∨
        p - 4 + block_size_m s (p - 4) + 8 ≤ a)
    (ht : ∀ a ∈ s.flists j, t + 4 ≤ a + 4 ∨ a + 12 ≤ t) :
    readW (delete (freeS1 s p) b).mem t = readW (freeS1 s p).mem t := by
  have hnodes := hwf.2.2.2.2.2.2.1
  have hcls1 : block_class_m (freeS1 s p) b = j := by
    unfold block_class_m
    rw [freeS1_list_size s p hwf hdisjn j hj b hbm]
    exact (hnodes j hj b hbm).2.2.2.2.2.2
  unfold delete
  rw [hcls1]
  apply flist_delete_readW (freeS1 s p) j b t hbm
    (freeS1_linksOK s p hwf hdisjn j hj)
    (fun a ha => (hnodes j hj a ha).1) ?_ ht
  intro a ha c hc
  exact hsepG_of_wf s hwf j hj a ha j hj c hc

lemma freeTF_spec (s : St) (p : Nat) (hwf : WF s)
    (hdisjn : ∀ j, j < 13 → ∀ a ∈ s.flists j,
      a + block_size_m s a + 8 ≤ p - 4 ∨
        p - 4 + block_size_m s (p - 4) + 8 ≤ a)
    (hnsz8 : block_size_m s (p - 4) % 8 = 0)
    (hext : p - 4 + block_size_m s (p - 4) + 8 ≤ s.epilog)
    (jp : Nat) (hjp : jp < 13) (hpm : freePrv s p ∈ s.flists jp)
    (hadj : freePrv s p + block_size_m s (freePrv s p) + 8 = p - 4) :
    freeTFsz s p = block_size_m s (freePrv s p) + block_size_m s (p - 4) + 8 ∧
    readW (block_mark (freeTF3 s p) (freePrv s p)).mem (freePrv s p) =
      freeTFsz s p ||| (readW s.mem (freePrv s p) &&& 7) ∧
    block_size_m (block_mark (freeTF3 s p) (freePrv s p)) (freePrv s p) =
      freeTFsz s p ∧
    block_free_m (block_mark (freeTF3 s p) (freePrv s p)) (freePrv s p) = true ∧
    freePrv s p ∈ (freeTF s p).flists (get_class (freeTFsz s p)) := by
  have hnodes := hwf.2.2.2.2.2.2.1
  have hsepG := hsepG_of_wf s hwf
  obtain ⟨hplo, hpmod, hpext, hp8, hpmod8, hpfree, hpcls⟩ := hnodes jp hjp _ hpm
  have hepi : s.epilog % 8 = 4 := hwf.2.2.1
  have hhiE : s.heapHi = s.epilog + 3 := hwf.2.2.2.1
  have hspan : s.heapHi < s.lbound + 4294967296 := hwf.2.2.2.2.2.1
  have htprv : ∀ a ∈ s.flists jp,
      freePrv s p + 4 ≤ a + 4 ∨ a + 12 ≤ freePrv s p := by
    intro a ha
    rcases hsepG jp hjp (freePrv s p) hpm jp hjp a ha with h | h | h <;> omega
  have htn : ∀ a ∈ s.flists jp, p - 4 + 4 ≤ a + 4 ∨ a + 12 ≤ p - 4 := by
    intro a ha
    obtain ⟨_, _, _, ha8, _, _, _⟩ := hnodes jp hjp a ha
    rcases hdisjn jp hjp a ha with h | h
    · right
      omega
    · left
      omega
  have h2prv : readW (freeTF2 s p).mem (freePrv s p) =
      readW (freeS1 s p).mem (freePrv s p) := by
    unfold freeTF2
    exact freeS1_delete_readW s p _ _ jp hjp hwf hpm hdisjn htprv
  have h2n : readW (freeTF2 s p).mem (p - 4) = readW (freeS1 s p).mem (p - 4) := by
    unfold freeTF2
    exact freeS1_delete_readW s p _ _ jp hjp hwf hpm hdisjn htn
  have hS1prv : readW (freeS1 s p).mem (freePrv s p) = readW s.mem (freePrv s p) :=
    freeS1_readW_out s p _ (Or.inl (by omega))
  have h2szp : block_size_m (freeTF2 s p) (freePrv s p) =
      block_size_m s (freePrv s p) := by
    unfold block_size_m
    rw [h2prv, hS1prv]
  have h2szn : block_size_m (freeTF2 s p) (p - 4) = block_size_m s (p - 4) := by
    unfold block_size_m
    rw [h2n]
    have h := freeS1_size s p
    unfold block_size_m at h
    rw [h]
  have hszeq : freeTFsz s p =
      block_size_m s (freePrv s p) + block_size_m s (p - 4) + 8 := by
    unfold freeTFsz get_combined_size2
    unfold freeTF2 at h2szp h2szn ⊢
    rw [h2szp, h2szn]
  have hszlt : freeTFsz s p + 8 < 4294967296 := by
    rw [hszeq]
    omega
  have hpfree2 : readW s.mem (freePrv s p) % 2 = 0 := by
    unfold block_free_m at hpfree
    rw [and1] at hpfree
    simpa using hpfree
  have hbits : readW (freeTF2 s p).mem (freePrv s p) &&& 7 =
      readW s.mem (freePrv s p) &&& 7 := by
    rw [h2prv, hS1prv]
  have hb7 : readW s.mem (freePrv s p) &&& 7 ≤ 6 := by
    rw [and7]
    omega
  have hor := or_low8 (freeTFsz s p) (readW s.mem (freePrv s p) &&& 7)
    (by omega) (by omega)
  have hdr3 : readW (freeTF3 s p).mem (freePrv s p) =
      freeTFsz s p ||| (readW s.mem (freePrv s p) &&& 7) := by
    show readW (writeW (freeTF2 s p).mem (freePrv s p)
      (freeTFsz s p ||| (readW (freeTF2 s p).mem (freePrv s p) &&& 7)))
      (freePrv s p) = _
    rw [readW_writeW_same, hbits]
    omega
  have hsz3 : block_size_m (freeTF3 s p) (freePrv s p) = freeTFsz s p := by
    unfold block_size_m
    rw [hdr3]
    rw [and_size32 _ (by omega)]
    omega
  have hmark : readW (block_mark (freeTF3 s p) (freePrv s p)).mem (freePrv s p) =
      readW (freeTF3 s p).mem (freePrv s p) :=
    block_mark_readW _ _ _ (Or.inl (by omega))
  have hdr5 : readW (block_mark (freeTF3 s p) (freePrv s p)).mem (freePrv s p) =
      freeTFsz s p ||| (readW s.mem (freePrv s p) &&& 7) := by
    rw [hmark, hdr3]
  have hsz5 : block_size_m (block_mark (freeTF3 s p) (freePrv s p)) (freePrv s p) =
      freeTFsz s p := by
    unfold block_size_m
    rw [hdr5]
    rw [and_size32 _ (by omega)]
    omega
  refine ⟨hszeq, hdr5, hsz5, ?_, ?_⟩
  · unfold block_free_m
    rw [hdr5, and1]
    simp only [beq_iff_eq]
    rw [and7] at hor ⊢
    omega
  · have hcls5 : block_class_m (block_mark (freeTF3 s p) (freePrv s p))
        (freePrv s p) = get_class (freeTFsz s p) := by
      unfold block_class_m
      rw [hsz5]
    have hfl : (freeTF s p).flists =
        setList (block_mark (freeTF3 s p) (freePrv s p)).flists
          (block_class_m (block_mark (freeTF3 s p) (freePrv s p)) (freePrv s p))
          (freePrv s p ::
            (block_mark (freeTF3 s p) (freePrv s p)).flists
              (block_class_m (block_mark (freeTF3 s p) (freePrv s p))
                (freePrv s p))) := by
      unfold freeTF add
      rw [flist_insert_flists]
    rw [hfl, ← hcls5]
    unfold setList
    rw [if_pos rfl]
    exact List.mem_cons_self _ _

end FreeSpecCases



section FreeSpecCases2

lemma freeFT_spec (s : St) (p : Nat) (hwf : WF s)
    (hlo : s.lbound + 12 ≤ p - 4)
    (hnsz8 : block_size_m s (p - 4) % 8 = 0)
    (hnsz : 8 ≤ block_size_m s (p - 4))
    (hext : p - 4 + block_size_m s (p - 4) + 8 ≤ s.epilog)
    (hdisjn : ∀ j, j < 13 → ∀ a ∈ s.flists j,
      a + block_size_m s a + 8 ≤ p - 4 ∨
        p - 4 + block_size_m s (p - 4) + 8 ≤ a)
    (jn : Nat) (hjn : jn < 13) (hnm : freeNxt s p ∈ s.flists jn) :
    freeNxt s p = p - 4 + block_size_m s (p - 4) + 8 ∧
    freeFTsz s p = block_size_m s (p - 4) + block_size_m s (freeNxt s p) + 8 ∧
    readW (block_mark (freeFT3 s p) (p - 4)).mem (p - 4) =
      freeFTsz s p ||| (readW s.mem (p - 4) &&& 6) ∧
    block_size_m (block_mark (freeFT3 s p) (p - 4)) (p - 4) = freeFTsz s p ∧
    block_free_m (block_mark (freeFT3 s p) (p - 4)) (p - 4) = true ∧
    p - 4 ∈ (freeFT s p).flists (get_class (freeFTsz s p)) := by
  have hnodes := hwf.2.2.2.2.2.2.1
  have hsepG := hsepG_of_wf s hwf
  obtain ⟨hnxlo, hnxmod, hnxext, hnx8, hnxmod8, hnxfree, hnxcls⟩ :=
    hnodes jn hjn _ hnm
  have hepi : s.epilog % 8 = 4 := hwf.2.2.1
  have hhiE : s.heapHi = s.epilog + 3 := hwf.2.2.2.1
  have hspan : s.heapHi < s.lbound + 4294967296 := hwf.2.2.2.2.2.1
  have hnxt : freeNxt s p = p - 4 + block_size_m s (p - 4) + 8 :=
    freeNxt_eq s p (by omega)
  have htn : ∀ a ∈ s.flists jn, p - 4 + 4 ≤ a + 4 ∨ a + 12 ≤ p - 4 := by
    intro a ha
    obtain ⟨_, _, _, ha8, _, _, _⟩ := hnodes jn hjn a ha
    rcases hdisjn jn hjn a ha with h | h
    · right
      omega
    · left
      omega
  have htnx : ∀ a ∈ s.flists jn,
      freeNxt s p + 4 ≤ a + 4 ∨ a + 12 ≤ freeNxt s p := by
    intro a ha
    rcases hsepG jn hjn (freeNxt s p) hnm jn hjn a ha with h | h | h <;> omega
  have h2n : readW (freeTT2 s p).mem (p - 4) = readW (freeS1 s p).mem (p - 4) := by
    unfold freeTT2
    exact freeS1_delete_readW s p _ _ jn hjn hwf hnm hdisjn htn
  have h2nx : readW (freeTT2 s p).mem (freeNxt s p) =
      readW (freeS1 s p).mem (freeNxt s p) := by
    unfold freeTT2
    exact freeS1_delete_readW s p _ _ jn hjn hwf hnm hdisjn htnx
  have h2szn : block_size_m (freeTT2 s p) (p - 4) = block_size_m s (p - 4) := by
    unfold block_size_m
    rw [h2n]
    have h := freeS1_size s p
    unfold block_size_m at h
    rw [h]
  have h2sznx : block_size_m (freeTT2 s p) (freeNxt s p) =
      block_size_m s (freeNxt s p) := by
    unfold block_size_m
    rw [h2nx, freeS1_hdr_pres s p hwf hdisjn jn hjn _ hnm]
  have hszeq : freeFTsz s p =
      block_size_m s (p - 4) + block_size_m s (freeNxt s p) + 8 := by
    unfold freeFTsz get_combined_size2
    rw [h2szn, h2sznx]
  have hszlt : freeFTsz s p + 8 < 4294967296 := by
    rw [hszeq]
    omega
  have hnfree2 : readW (freeS1 s p).mem (p - 4) % 2 = 0 := by
    rw [freeS1_readW_at]
    omega
  have hb6 : readW (freeS1 s p).mem (p - 4) &&& 6 = readW s.mem (p - 4) &&& 6 := by
    rw [freeS1_readW_at, and6, and6]
    omega
  have hbits : readW (freeTT2 s p).mem (p - 4) &&& 6 =
      readW s.mem (p - 4) &&& 6 := by
    rw [h2n, hb6]
  have hb7 : readW s.mem (p - 4) &&& 6 ≤ 6 := by
    rw [and6]
    omega
  have hor := or_low8 (freeFTsz s p) (readW s.mem (p - 4) &&& 6)
    (by omega) (by omega)
  have hdr3 : readW (freeFT3 s p).mem (p - 4) =
      freeFTsz s p ||| (readW s.mem (p - 4) &&& 6) := by
    show readW (writeW (freeTT2 s p).mem (p - 4)
      (freeFTsz s p ||| (readW (freeTT2 s p).mem (p - 4) &&& 6))) (p - 4) = _
    rw [readW_writeW_same, hbits]
    omega
  have hsz3 : block_size_m (freeFT3 s p) (p - 4) = freeFTsz s p := by
    unfold block_size_m
    rw [hdr3]
    rw [and_size32 _ (by omega)]
    omega
  have hmark : readW (block_mark (freeFT3 s p) (p - 4)).mem (p - 4) =
      readW (freeFT3 s p).mem (p - 4) :=
    block_mark_readW _ _ _ (Or.inl (by omega))
  have hdr5 : readW (block_mark (freeFT3 s p) (p - 4)).mem (p - 4) =
      freeFTsz s p ||| (readW s.mem (p - 4) &&& 6) := by
    rw [hmark, hdr3]
  have hsz5 : block_size_m (block_mark (freeFT3 s p) (p - 4)) (p - 4) =
      freeFTsz s p := by
    unfold block_size_m
    rw [hdr5]
    rw [and_size32 _ (by omega)]
    omega
  refine ⟨hnxt, hszeq, hdr5, hsz5, ?_, ?_⟩
  · unfold block_free_m
    rw [hdr5, and1]
    simp only [beq_iff_eq]
    rw [and6] at hor ⊢
    omega
  · have hcls5 : block_class_m (block_mark (freeFT3 s p) (p - 4)) (p - 4) =
        get_class (freeFTsz s p) := by
      unfold block_class_m
      rw [hsz5]
    have hfl : (freeFT s p).flists =
        setList (block_mark (freeFT3 s p) (p - 4)).flists
          (block_class_m (block_mark (freeFT3 s p) (p - 4)) (p - 4))
          ((p - 4) ::
            (block_mark (freeFT3 s p) (p - 4)).flists
              (block_class_m (block_mark (freeFT3 s p) (p - 4)) (p - 4))) := by
      unfold freeFT add
      rw [flist_insert_flists]
    rw [hfl, ← hcls5]
    unfold setList
    rw [if_pos rfl]
    exact List.mem_cons_self _ _

lemma freeFF_spec (s : St) (p : Nat) (hwf : WF s)
    (hlo : s.lbound + 12 ≤ p - 4)
    (hnsz : 8 ≤ block_size_m s (p - 4))
    (hext : p - 4 + block_size_m s (p - 4) + 8 ≤ s.epilog)
    (hdisjn : ∀ j, j < 13 → ∀ a ∈ s.flists j,
      a + block_size_m s a + 8 ≤ p - 4 ∨
        p - 4 + block_size_m s (p - 4) + 8 ≤ a) :
    readW (add (freeS1 s p) (p - 4)).mem (p - 4) =
      readW s.mem (p - 4) - readW s.mem (p - 4) % 2 ∧
    block_size_m (add (freeS1 s p) (p - 4)) (p - 4) = block_size_m s (p - 4) ∧
    block_free_m (add (freeS1 s p) (p - 4)) (p - 4) = true ∧
    p - 4 ∈ (add (freeS1 s p) (p - 4)).flists
      (get_class (block_size_m s (p - 4))) := by
  have hnodes := hwf.2.2.2.2.2.2.1
  have hlb : s.lbound % 4294967296 = 0 := hwf.1
  have hhiE : s.heapHi = s.epilog + 3 := hwf.2.2.2.1
  have hspan : s.heapHi < s.lbound + 4294967296 := hwf.2.2.2.2.2.1
  have hi13 : block_class_m (freeS1 s p) (p - 4) < 13 := by
    unfold block_class_m
    exact get_class_lt_13 _
  have hpres : readW (add (freeS1 s p) (p - 4)).mem (p - 4) =
      readW (freeS1 s p).mem (p - 4) := by
    unfold add
    refine flist_insert_readW (freeS1 s p) _ _ _ hlb
      (freeS1_linksOK s p hwf hdisjn _ hi13) ?_ ?_ ?_ ?_ ?_
    · intro a ha
      exact (hnodes _ hi13 a ha).1
    · intro a ha
      obtain ⟨_, _, ha3, _, _, _, _⟩ := hnodes _ hi13 a ha
      show a < s.lbound + 4294967296
      omega
    · intro a ha
      obtain ⟨_, _, _, ha8, _, _, _⟩ := hnodes _ hi13 a ha
      rcases hdisjn _ hi13 a ha with h | h
      · right
        omega
      · left
        omega
    · intro a ha
      obtain ⟨_, _, _, ha8, _, _, _⟩ := hnodes _ hi13 a ha
      rcases hdisjn _ hi13 a ha with h | h
      · right
        omega
      · left
        omega
    · left
      omega
  have hdr : readW (add (freeS1 s p) (p - 4)).mem (p - 4) =
      readW s.mem (p - 4) - readW s.mem (p - 4) % 2 := by
    rw [hpres, freeS1_readW_at]
  refine ⟨hdr, ?_, ?_, ?_⟩
  · unfold block_size_m
    rw [hdr]
    have hlt := readW_lt s.mem (p - 4)
    rw [and_size32 _ (by omega), and_size32 _ hlt]
    omega
  · unfold block_free_m
    rw [hdr, and1]
    simp only [beq_iff_eq]
    omega
  · have hcls1 : block_class_m (freeS1 s p) (p - 4) =
        get_class (block_size_m s (p - 4)) := by
      unfold block_class_m
      rw [freeS1_size]
    have hfl : (add (freeS1 s p) (p - 4)).flists =
        setList (freeS1 s p).flists (block_class_m (freeS1 s p) (p - 4))
          ((p - 4) :: (freeS1 s p).flists (block_class_m (freeS1 s p) (p - 4))) := by
      unfold add
      rw [flist_insert_flists]
    rw [hfl, ← hcls1]
    unfold setList
    rw [if_pos rfl]
    exact List.mem_cons_self _ _

end FreeSpecCases2



section FreeSpecTT

lemma freeTT3_readW (s : St) (p t : Nat) (hwf : WF s)
    (hdisjn : ∀ j, j < 13 → ∀ a ∈ s.flists j,
      a + block_size_m s a + 8 ≤ p - 4 ∨
        p - 4 + block_size_m s (p - 4) + 8 ≤ a)
    (jp : Nat) (hjp : jp < 13) (hpm : freePrv s p ∈ s.flists jp)
    (jn : Nat) (hjn : jn < 13) (hnm : freeNxt s p ∈ s.flists jn)
    (hpn : ¬ freePrv s p = freeNxt s p)
    (ht : ∀ j, j < 13 → ∀ a ∈ s.flists j, t + 4 ≤ a + 4 ∨ a + 12 ≤ t) :
    readW (freeTT3 s p).mem t = readW (freeTT2 s p).mem t := by
  have hnodes := hwf.2.2.2.2.2.2.1
  have hnd := hwf.2.2.2.2.2.2.2.1
  have hsepG := hsepG_of_wf s hwf
  have hlb : s.lbound % 4294967296 = 0 := hwf.1
  have hhiE : s.heapHi = s.epilog + 3 := hwf.2.2.2.1
  have hspan : s.heapHi < s.lbound + 4294967296 := hwf.2.2.2.2.2.1
  have linksOK1 := freeS1_linksOK s p hwf hdisjn
  obtain ⟨hplo, hpmod, hpext, hp8, hpmod8, hpfree, hpcls⟩ := hnodes jp hjp _ hpm
  obtain ⟨hnxlo, hnxmod, hnxext, hnx8, hnxmod8, hnxfree, hnxcls⟩ := hnodes jn hjn _ hnm
  have hlo1 : ∀ a ∈ s.flists jn, (freeS1 s p).lbound + 12 ≤ a :=
    fun a ha => (hnodes jn hjn a ha).1
  have hlop : ∀ a ∈ s.flists jp, (freeS1 s p).lbound + 12 ≤ a :=
    fun a ha => (hnodes jp hjp a ha).1
  have hclsnxt : block_class_m (freeS1 s p) (freeNxt s p) = jn := by
    unfold block_class_m
    rw [freeS1_list_size s p hwf hdisjn jn hjn _ hnm]
    exact hnxcls
  have hlb2 : (freeTT2 s p).lbound = s.lbound := by
    unfold freeTT2 delete
    exact (flist_delete_fields _ _ _).1
  have htprvJ : ∀ j, j < 13 → ∀ a ∈ s.flists j,
      freePrv s p + 4 ≤ a + 4 ∨ a + 12 ≤ freePrv s p := by
    intro j hj a ha
    rcases hsepG jp hjp (freePrv s p) hpm j hj a ha with h | h | h <;> omega
  have h2prv : readW (freeTT2 s p).mem (freePrv s p) =
      readW (freeS1 s p).mem (freePrv s p) := by
    unfold freeTT2
    exact freeS1_delete_readW s p _ _ jn hjn hwf hnm hdisjn
      (fun a ha => htprvJ jn hjn a ha)
  have hcls2 : block_class_m (freeTT2 s p) (freePrv s p) = jp := by
    unfold block_class_m
    have hs : block_size_m (freeTT2 s p) (freePrv s p) =
        block_size_m s (freePrv s p) := by
      unfold block_size_m
      rw [h2prv, freeS1_hdr_pres s p hwf hdisjn jp hjp _ hpm]
    rw [hs]
    exact hpcls
  unfold freeTT3 delete
  rw [hcls2]
  by_cases hjj : jp = jn
  · -- the two neighbours share a class list: analyse the splice directly
    subst hjj
    obtain ⟨⟨k1, hk1⟩, hget1⟩ := List.mem_iff_get.mp hnm
    have hcyc1 : cyc (s.flists jp) k1 = freeNxt s p := by
      rw [cyc_lt _ k1 hk1]
      exact hget1
    have hnx1d : next_ (freeS1 s p) (freeNxt s p) =
        some (cyc (s.flists jp) (k1 + 1)) := by
      rw [← hcyc1]
      exact next_decode (freeS1 s p) _ k1 hk1 (linksOK1 jp hjp) hlo1
    have hpv1d : prev_ (freeS1 s p) (freeNxt s p) =
        some (cyc (s.flists jp) (k1 + (s.flists jp).length - 1)) := by
      rw [← hcyc1]
      exact prev_decode (freeS1 s p) _ k1 hk1 (linksOK1 jp hjp) hlo1
    obtain ⟨nx1, hnx1⟩ :
        ∃ v, cyc (s.flists jp) (k1 + 1) = v := ⟨_, rfl⟩
    obtain ⟨pv1, hpv1⟩ :
        ∃ v, cyc (s.flists jp) (k1 + (s.flists jp).length - 1) = v := ⟨_, rfl⟩
    rw [hnx1] at hnx1d
    rw [hpv1] at hpv1d
    have hlne : s.flists jp ≠ [] := List.ne_nil_of_mem hnm
    have hnx1m : nx1 ∈ s.flists jp := by
      rw [← hnx1]
      exact cyc_mem _ _ hlne
    have hpv1m : pv1 ∈ s.flists jp := by
      rw [← hpv1]
      exact cyc_mem _ _ hlne
    obtain ⟨hnx1lo, _, hnx1ext, hnx1sz, _, _, _⟩ := hnodes jp hjp nx1 hnx1m
    obtain ⟨hpv1lo, _, hpv1ext, hpv1sz, _, _, _⟩ := hnodes jp hjp pv1 hpv1m
    have hnx1ne : ¬ nx1 = freeNxt s p := by
      intro h
      -- then the first delete would have been a singleton, and the list [nxt],
      -- contradicting prv being a distinct member
      have hsing : next_ (freeS1 s p) (freeNxt s p) = some (freeNxt s p) := by
        rw [hnx1d, h]
      have h2 : 2 ≤ (s.flists jp).length := by
        by_contra hle
        push_neg at hle
        have hlen1 : (s.flists jp).length = 1 := by
          have := List.length_pos.mpr hlne
          omega
        obtain ⟨⟨kp, hkp⟩, hgetp⟩ := List.mem_iff_get.mp hpm
        obtain ⟨⟨kn, hkn⟩, hgetn⟩ := List.mem_iff_get.mp hnm
        apply hpn
        rw [← hgetp, ← hgetn]
        congr 1
        omega
      obtain ⟨hne1, _⟩ := cyc_index_ne (s.flists jp) k1 hk1 h2 (hnd jp hjp)
      rw [hnx1, hcyc1] at hne1
      exact hne1 h
    have hsep1 : nx1 + 16 ≤ freeNxt s p ∨ freeNxt s p + 16 ≤ nx1 := by
      rcases hsepG jp hjp nx1 hnx1m jp hjp (freeNxt s p) hnm with h | h | h
      · exact absurd h hnx1ne
      · exact Or.inl h
      · exact Or.inr h
    have hmm2 : (freeTT2 s p).mem =
        writeW (writeW (freeS1 s p).mem (nx1 + 4) pv1) (pv1 + 8) nx1 := by
      unfold freeTT2 delete
      rw [hclsnxt]
      exact flist_delete_mem_eq (freeS1 s p) jp (freeNxt s p) nx1 pv1
        hnx1d hpv1d hnx1ne (by omega)
    -- the stored links of the left neighbour after the splice
    obtain ⟨⟨kp, hkp⟩, hgetp⟩ := List.mem_iff_get.mp hpm
    have hcycp : cyc (s.flists jp) kp = freePrv s p := by
      rw [cyc_lt _ kp hkp]
      exact hgetp
    have hnxpd : next_ (freeS1 s p) (freePrv s p) =
        some (cyc (s.flists jp) (kp + 1)) := by
      rw [← hcycp]
      exact next_decode (freeS1 s p) _ kp hkp (linksOK1 jp hjp) hlop
    have hpvpd : prev_ (freeS1 s p) (freePrv s p) =
        some (cyc (s.flists jp) (kp + (s.flists jp).length - 1)) := by
      rw [← hcycp]
      exact prev_decode (freeS1 s p) _ kp hkp (linksOK1 jp hjp) hlop
    obtain ⟨sucp, hsucp⟩ : ∃ v, cyc (s.flists jp) (kp + 1) = v := ⟨_, rfl⟩
    obtain ⟨prep, hprep⟩ :
        ∃ v, cyc (s.flists jp) (kp + (s.flists jp).length - 1) = v := ⟨_, rfl⟩
    rw [hsucp] at hnxpd
    rw [hprep] at hpvpd
    have hsucpm : sucp ∈ s.flists jp := by
      rw [← hsucp]
      exact cyc_mem _ _ hlne
    have hprepm : prep ∈ s.flists jp := by
      rw [← hprep]
      exact cyc_mem _ _ hlne
    obtain ⟨hsucplo, _, hsucpext, _, _, _, _⟩ := hnodes jp hjp sucp hsucpm
    obtain ⟨hpreplo, _, hprepext, _, _, _, _⟩ := hnodes jp hjp prep hprepm
    -- the next field of prv after the splice
    have hn2 : next_ (freeTT2 s p) (freePrv s p) = some (if freePrv s p = pv1 then nx1 else sucp) := by
      by_cases hpp : freePrv s p = pv1
      · rw [if_pos hpp]
        unfold next_
        rw [hmm2, hlb2, hpp, readW_writeW_same]
        rw [if_neg (by omega)]
        congr 1
        omega
      · rw [if_neg hpp]
        have hsepp : pv1 + 16 ≤ freePrv s p ∨ freePrv s p + 16 ≤ pv1 := by
          rcases hsepG jp hjp pv1 hpv1m jp hjp (freePrv s p) hpm with h | h | h
          · exact absurd h.symm hpp
          · exact Or.inl h
          · exact Or.inr h
        have hsepx : nx1 = freePrv s p ∨
            nx1 + 16 ≤ freePrv s p ∨ freePrv s p + 16 ≤ nx1 := by
          rcases hsepG jp hjp nx1 hnx1m jp hjp (freePrv s p) hpm with h | h | h
          · exact Or.inl h
          · exact Or.inr (Or.inl h)
          · exact Or.inr (Or.inr h)
        have hrw : readW (freeTT2 s p).mem (freePrv s p + 8) =
            readW (freeS1 s p).mem (freePrv s p + 8) := by
          rw [hmm2]
          rw [readW_writeW_out _ _ _ _ (by omega)]
          rcases hsepx with h | h | h
          · rw [readW_writeW_out _ _ _ _ (by omega)]
          · rw [readW_writeW_out _ _ _ _ (by omega)]
          · rw [readW_writeW_out _ _ _ _ (by omega)]
        unfold next_ at hnxpd ⊢
        rw [hrw, hlb2]
        exact hnxpd
    -- the prev field of prv after the splice
    have hp2 : prev_ (freeTT2 s p) (freePrv s p) = some (if freePrv s p = nx1 then pv1 else prep) := by
      by_cases hpx : freePrv s p = nx1
      · rw [if_pos hpx]
        unfold prev_
        rw [hmm2, hlb2, hpx]
        have hsepp : pv1 = nx1 ∨ pv1 + 16 ≤ nx1 ∨ nx1 + 16 ≤ pv1 :=
          hsepG jp hjp pv1 hpv1m jp hjp nx1 hnx1m
        rw [readW_writeW_out _ _ _ _ (by rcases hsepp with h | h | h <;> omega)]
        rw [readW_writeW_same]
        rw [if_neg (by omega)]
        congr 1
        omega
      · rw [if_neg hpx]
        have hsepx : nx1 + 16 ≤ freePrv s p ∨ freePrv s p + 16 ≤ nx1 := by
          rcases hsepG jp hjp nx1 hnx1m jp hjp (freePrv s p) hpm with h | h | h
          · exact absurd h.symm hpx
          · exact Or.inl h
          · exact Or.inr h
        have hsepp : pv1 = freePrv s p ∨
            pv1 + 16 ≤ freePrv s p ∨ freePrv s p + 16 ≤ pv1 :=
          hsepG jp hjp pv1 hpv1m jp hjp (freePrv s p) hpm
        have hrw : readW (freeTT2 s p).mem (freePrv s p + 4) =
            readW (freeS1 s p).mem (freePrv s p + 4) := by
          rw [hmm2]
          have h1 : readW (writeW (writeW (freeS1 s p).mem (nx1 + 4) pv1)
              (pv1 + 8) nx1) (freePrv s p + 4) =
              readW (writeW (freeS1 s p).mem (nx1 + 4) pv1) (freePrv s p + 4) := by
            apply readW_writeW_out
            rcases hsepp with h | h | h <;> omega
          rw [h1, readW_writeW_out _ _ _ _ (by omega)]
        unfold prev_ at hpvpd ⊢
        rw [hrw, hlb2]
        exact hpvpd
    -- close via the hypothesis-driven delete preservation
    apply flist_delete_readW_gen
    by_cases hsing2 : (if freePrv s p = pv1 then nx1 else sucp) = freePrv s p
    · left
      rw [hn2, hsing2]
    · right
      refine ⟨if freePrv s p = pv1 then nx1 else sucp,
        if freePrv s p = nx1 then pv1 else prep, hn2, hp2, hsing2, ?_, ?_, ?_⟩
      · by_cases hpp : freePrv s p = pv1
        · rw [if_pos hpp] at hsing2 ⊢
          rcases hsepG jp hjp nx1 hnx1m jp hjp (freePrv s p) hpm with h | h | h
          · exact absurd h hsing2
          · left
            omega
          · right
            omega
        · rw [if_neg hpp] at hsing2 ⊢
          rcases hsepG jp hjp sucp hsucpm jp hjp (freePrv s p) hpm with h | h | h
          · exact absurd h hsing2
          · left
            omega
          · right
            omega
      · by_cases hpp : freePrv s p = pv1
        · rw [if_pos hpp]
          rcases ht jp hjp nx1 hnx1m with h | h <;> omega
        · rw [if_neg hpp]
          rcases ht jp hjp sucp hsucpm with h | h <;> omega
      · by_cases hpx : freePrv s p = nx1
        · rw [if_pos hpx]
          rcases ht jp hjp pv1 hpv1m with h | h <;> omega
        · rw [if_neg hpx]
          rcases ht jp hjp prep hprepm with h | h <;> omega
  · -- the two neighbours live on different lists: prv's list is intact
    have hfl2 : (freeTT2 s p).flists jp = s.flists jp := by
      unfold freeTT2 delete
      rw [hclsnxt, flist_delete_flists]
      split_ifs
      · simp [setList, hjj]
        rfl
      · simp [setList, hjj]
        rfl
    have hfld2 : ∀ a ∈ s.flists jp,
        readW (freeTT2 s p).mem (a + 4) = readW (freeS1 s p).mem (a + 4) ∧
        readW (freeTT2 s p).mem (a + 8) = readW (freeS1 s p).mem (a + 8) := by
      intro a ha
      have hta : ∀ x ∈ s.flists jn, a + 4 + 4 ≤ x + 4 ∨ x + 12 ≤ a + 4 := by
        intro x hx
        rcases hsepG jp hjp a ha jn hjn x hx with h | h | h
        · exfalso
          obtain ⟨_, _, _, hx8, _, _, _⟩ := hnodes jn hjn x hx
          rcases hwf.2.2.2.2.2.2.2.2.1 jp hjp a ha jn hjn x hx with ⟨hij, _⟩ | h2 | h2
          · exact hjj hij
          · omega
          · omega
        · omega
        · omega
      have hta8 : ∀ x ∈ s.flists jn, a + 8 + 4 ≤ x + 4 ∨ x + 12 ≤ a + 8 := by
        intro x hx
        rcases hsepG jp hjp a ha jn hjn x hx with h | h | h
        · exfalso
          obtain ⟨_, _, _, hx8, _, _, _⟩ := hnodes jn hjn x hx
          rcases hwf.2.2.2.2.2.2.2.2.1 jp hjp a ha jn hjn x hx with ⟨hij, _⟩ | h2 | h2
          · exact hjj hij
          · omega
          · omega
        · omega
        · omega
      constructor
      · unfold freeTT2
        exact freeS1_delete_readW s p _ _ jn hjn hwf hnm hdisjn hta
      · unfold freeTT2
        exact freeS1_delete_readW s p _ _ jn hjn hwf hnm hdisjn hta8
    have hlinks2 : linksOK (freeTT2 s p) (s.flists jp) := by
      apply linksOK_pres (freeS1 s p) (freeTT2 s p) _ hlb2 hfld2 (linksOK1 jp hjp)
    apply flist_delete_readW (freeTT2 s p) jp (freePrv s p) t
      (by rw [hfl2]; exact hpm) (by rw [hfl2]; exact hlinks2) ?_ ?_ ?_
    · intro a ha
      rw [hfl2] at ha
      rw [hlb2]
      exact (hnodes jp hjp a ha).1
    · intro a ha c hc
      rw [hfl2] at ha hc
      exact hsepG jp hjp a ha jp hjp c hc
    · intro a ha
      rw [hfl2] at ha
      exact ht jp hjp a ha

end FreeSpecTT



section FreeSpecTT2

lemma freeTT_spec (s : St) (p : Nat) (hwf : WF s)
    (hlo : s.lbound + 12 ≤ p - 4)
    (hnsz8 : block_size_m s (p - 4) % 8 = 0)
    (hnsz : 8 ≤ block_size_m s (p - 4))
    (hext : p - 4 + block_size_m s (p - 4) + 8 ≤ s.epilog)
    (hdisjn : ∀ j, j < 13 → ∀ a ∈ s.flists j,
      a + block_size_m s a + 8 ≤ p - 4 ∨
        p - 4 + block_size_m s (p - 4) + 8 ≤ a)
    (jp : Nat) (hjp : jp < 13) (hpm : freePrv s p ∈ s.flists jp)
    (hadj : freePrv s p + block_size_m s (freePrv s p) + 8 = p - 4)
    (jn : Nat) (hjn : jn < 13) (hnm : freeNxt s p ∈ s.flists jn) :
    freeTTsz s p = block_size_m s (freePrv s p) + block_size_m s (p - 4) +
      block_size_m s (freeNxt s p) + 16 ∧
    readW (block_mark (freeTT4 s p) (freePrv s p)).mem (freePrv s p) =
      freeTTsz s p ||| (readW s.mem (freePrv s p) &&& 7) ∧
    block_size_m (block_mark (freeTT4 s p) (freePrv s p)) (freePrv s p) =
      freeTTsz s p ∧
    block_free_m (block_mark (freeTT4 s p) (freePrv s p)) (freePrv s p) = true ∧
    freePrv s p ∈ (freeTT s p).flists (get_class (freeTTsz s p)) := by
  have hnodes := hwf.2.2.2.2.2.2.1
  have hsepG := hsepG_of_wf s hwf
  obtain ⟨hplo, hpmod, hpext, hp8, hpmod8, hpfree, hpcls⟩ := hnodes jp hjp _ hpm
  obtain ⟨hnxlo, hnxmod, hnxext, hnx8, hnxmod8, hnxfree, hnxcls⟩ := hnodes jn hjn _ hnm
  have hepi : s.epilog % 8 = 4 := hwf.2.2.1
  have hhiE : s.heapHi = s.epilog + 3 := hwf.2.2.2.1
  have hspan : s.heapHi < s.lbound + 4294967296 := hwf.2.2.2.2.2.1
  have hnxt : freeNxt s p = p - 4 + block_size_m s (p - 4) + 8 :=
    freeNxt_eq s p (by omega)
  have hpn : ¬ freePrv s p = freeNxt s p := by
    intro h
    omega
  have htP : ∀ j, j < 13 → ∀ a ∈ s.flists j,
      freePrv s p + 4 ≤ a + 4 ∨ a + 12 ≤ freePrv s p := by
    intro j hj a ha
    rcases hsepG jp hjp (freePrv s p) hpm j hj a ha with h | h | h <;> omega
  have htN : ∀ j, j < 13 → ∀ a ∈ s.flists j,
      p - 4 + 4 ≤ a + 4 ∨ a + 12 ≤ p - 4 := by
    intro j hj a ha
    obtain ⟨_, _, _, ha8, _, _, _⟩ := hnodes j hj a ha
    rcases hdisjn j hj a ha with h | h
    · right
      omega
    · left
      omega
  have htX : ∀ j, j < 13 → ∀ a ∈ s.flists j,
      freeNxt s p + 4 ≤ a + 4 ∨ a + 12 ≤ freeNxt s p := by
    intro j hj a ha
    rcases hsepG jn hjn (freeNxt s p) hnm j hj a ha with h | h | h <;> omega
  have h2prv : readW (freeTT2 s p).mem (freePrv s p) =
      readW (freeS1 s p).mem (freePrv s p) := by
    unfold freeTT2
    exact freeS1_delete_readW s p _ _ jn hjn hwf hnm hdisjn
      (fun a ha => htP jn hjn a ha)
  have h2n : readW (freeTT2 s p).mem (p - 4) = readW (freeS1 s p).mem (p - 4) := by
    unfold freeTT2
    exact freeS1_delete_readW s p _ _ jn hjn hwf hnm hdisjn
      (fun a ha => htN jn hjn a ha)
  have h2nx : readW (freeTT2 s p).mem (freeNxt s p) =
      readW (freeS1 s p).mem (freeNxt s p) := by
    unfold freeTT2
    exact freeS1_delete_readW s p _ _ jn hjn hwf hnm hdisjn
      (fun a ha => htX jn hjn a ha)
  have h3prv : readW (freeTT3 s p).mem (freePrv s p) =
      readW (freeTT2 s p).mem (freePrv s p) :=
    freeTT3_readW s p _ hwf hdisjn jp hjp hpm jn hjn hnm hpn htP
  have h3n : readW (freeTT3 s p).mem (p - 4) =
      readW (freeTT2 s p).mem (p - 4) :=
    freeTT3_readW s p _ hwf hdisjn jp hjp hpm jn hjn hnm hpn htN
  have h3nx : readW (freeTT3 s p).mem (freeNxt s p) =
      readW (freeTT2 s p).mem (freeNxt s p) :=
    freeTT3_readW s p _ hwf hdisjn jp hjp hpm jn hjn hnm hpn htX
  have hS1prv : readW (freeS1 s p).mem (freePrv s p) = readW s.mem (freePrv s p) :=
    freeS1_readW_out s p _ (Or.inl (by omega))
  have hS1nx : readW (freeS1 s p).mem (freeNxt s p) = readW s.mem (freeNxt s p) :=
    freeS1_readW_out s p _ (Or.inr (by omega))
  have h3szp : block_size_m (freeTT3 s p) (freePrv s p) =
      block_size_m s (freePrv s p) := by
    unfold block_size_m
    rw [h3prv, h2prv, hS1prv]
  have h3szn : block_size_m (freeTT3 s p) (p - 4) = block_size_m s (p - 4) := by
    unfold block_size_m
    rw [h3n, h2n]
    have h := freeS1_size s p
    unfold block_size_m at h
    rw [h]
  have h3sznx : block_size_m (freeTT3 s p) (freeNxt s p) =
      block_size_m s (freeNxt s p) := by
    unfold block_size_m
    rw [h3nx, h2nx, hS1nx]
  have hszeq : freeTTsz s p = block_size_m s (freePrv s p) +
      block_size_m s (p - 4) + block_size_m s (freeNxt s p) + 16 := by
    unfold freeTTsz get_combined_size3
    rw [h3szp, h3szn, h3sznx]
  have hszlt : freeTTsz s p + 8 < 4294967296 := by
    rw [hszeq]
    omega
  have hpfree2 : readW s.mem (freePrv s p) % 2 = 0 := by
    unfold block_free_m at hpfree
    rw [and1] at hpfree
    simpa using hpfree
  have hbits : readW (freeTT3 s p).mem (freePrv s p) &&& 7 =
      readW s.mem (freePrv s p) &&& 7 := by
    rw [h3prv, h2prv, hS1prv]
  have hb7 : readW s.mem (freePrv s p) &&& 7 ≤ 6 := by
    rw [and7]
    omega
  have hor := or_low8 (freeTTsz s p) (readW s.mem (freePrv s p) &&& 7)
    (by omega) (by omega)
  have hdr4 : readW (freeTT4 s p).mem (freePrv s p) =
      freeTTsz s p ||| (readW s.mem (freePrv s p) &&& 7) := by
    show readW (writeW (freeTT3 s p).mem (freePrv s p)
      (freeTTsz s p ||| (readW (freeTT3 s p).mem (freePrv s p) &&& 7)))
      (freePrv s p) = _
    rw [readW_writeW_same, hbits]
    omega
  have hsz4 : block_size_m (freeTT4 s p) (freePrv s p) = freeTTsz s p := by
    unfold block_size_m
    rw [hdr4]
    rw [and_size32 _ (by omega)]
    omega
  have hmark : readW (block_mark (freeTT4 s p) (freePrv s p)).mem (freePrv s p) =
      readW (freeTT4 s p).mem (freePrv s p) :=
    block_mark_readW _ _ _ (Or.inl (by omega))
  have hdr5 : readW (block_mark (freeTT4 s p) (freePrv s p)).mem (freePrv s p) =
      freeTTsz s p ||| (readW s.mem (freePrv s p) &&& 7) := by
    rw [hmark, hdr4]
  have hsz5 : block_size_m (block_mark (freeTT4 s p) (freePrv s p)) (freePrv s p) =
      freeTTsz s p := by
    unfold block_size_m
    rw [hdr5]
    rw [and_size32 _ (by omega)]
    omega
  refine ⟨hszeq, hdr5, hsz5, ?_, ?_⟩
  · unfold block_free_m
    rw [hdr5, and1]
    simp only [beq_iff_eq]
    rw [and7] at hor ⊢
    omega
  · have hcls5 : block_class_m (block_mark (freeTT4 s p) (freePrv s p))
        (freePrv s p) = get_class (freeTTsz s p) := by
      unfold block_class_m
      rw [hsz5]
    have hfl : (freeTT s p).flists =
        setList (block_mark (freeTT4 s p) (freePrv s p)).flists
          (block_class_m (block_mark (freeTT4 s p) (freePrv s p)) (freePrv s p))
          (freePrv s p ::
            (block_mark (freeTT4 s p) (freePrv s p)).flists
              (block_class_m (block_mark (freeTT4 s p) (freePrv s p))
                (freePrv s p))) := by
      unfold freeTT add
      rw [flist_insert_flists]
    rw [hfl, ← hcls5]
    unfold setList
    rw [if_pos rfl]
    exact List.mem_cons_self _ _

end FreeSpecTT2



/-- C2 (amended): on a well-formed heap, freeing an allocated block B at
p - 4 whose extent is disjoint from every listed free block follows
exactly the source's four cases.  (free,free): both neighbours are
unlinked and replaced by one free block at L of payload
size(L)+size(B)+size(R)+16 whose header preserves L's full low-3-bit
mask, re-marked, and added (at the head) to the list of the combined
size's class.  (alloc,free): the merged free block is at B with size
size(B)+size(R)+8, preserving only B's PFIXED and SZCLASS bits,
re-marked and added by class.  (free,alloc): the merged block is at L
with size size(L)+size(B)+8 preserving L's low-3-bit mask, re-marked
and added by class.  (alloc,alloc): B itself is marked free (only its
ALLOC bit is cleared) and added to the list of its class - but, contrary
to the claim's final sentence, this last case is NOT re-marked: free
returns add(s1, B) without calling block_mark, so B's footer and the
next header keep their stale allocated-time bits. -/
theorem C2_free_coalesce_cases (s : St) (p : Nat) (hwf : WF s)
    (hlo : s.lbound + 12 ≤ p - 4)
    (hnsz8 : block_size_m s (p - 4) % 8 = 0)
    (hnsz : 8 ≤ block_size_m s (p - 4))
    (hext : p - 4 + block_size_m s (p - 4) + 8 ≤ s.epilog)
    (hdisjn : ∀ j, j < 13 → ∀ a ∈ s.flists j,
      a + block_size_m s a + 8 ≤ p - 4 ∨
        p - 4 + block_size_m s (p - 4) + 8 ≤ a) :
    (block_free_m (freeS1 s p) (freeNxt s p) = true →
     block_free_m (freeTT2 s p) (freePrv s p) = true →
     ∀ jp, jp < 13 → freePrv s p ∈ s.flists jp →
     freePrv s p + block_size_m s (freePrv s p) + 8 = p - 4 →
     ∀ jn, jn < 13 → freeNxt s p ∈ s.flists jn →
     free_ s (some p) = freeTT s p ∧
     freeTTsz s p = block_size_m s (freePrv s p) + block_size_m s (p - 4) +
       block_size_m s (freeNxt s p) + 16 ∧
     readW (block_mark (freeTT4 s p) (freePrv s p)).mem (freePrv s p) =
       freeTTsz s p ||| (readW s.mem (freePrv s p) &&& 7) ∧
     block_size_m (block_mark (freeTT4 s p) (freePrv s p)) (freePrv s p) =
       freeTTsz s p ∧
     block_free_m (block_mark (freeTT4 s p) (freePrv s p)) (freePrv s p) = true ∧
     freePrv s p ∈ (free_ s (some p)).flists (get_class (freeTTsz s p))) ∧
    (block_free_m (freeS1 s p) (freeNxt s p) = true →
     block_free_m (freeTT2 s p) (freePrv s p) = false →
     ∀ jn, jn < 13 → freeNxt s p ∈ s.flists jn →
     free_ s (some p) = freeFT s p ∧
     freeNxt s p = p - 4 + block_size_m s (p - 4) + 8 ∧
     freeFTsz s p = block_size_m s (p - 4) + block_size_m s (freeNxt s p) + 8 ∧
     readW (block_mark (freeFT3 s p) (p - 4)).mem (p - 4) =
       freeFTsz s p ||| (readW s.mem (p - 4) &&& 6) ∧
     block_size_m (block_mark (freeFT3 s p) (p - 4)) (p - 4) = freeFTsz s p ∧
     block_free_m (block_mark (freeFT3 s p) (p - 4)) (p - 4) = true ∧
     p - 4 ∈ (free_ s (some p)).flists (get_class (freeFTsz s p))) ∧
    (block_free_m (freeS1 s p) (freeNxt s p) = false →
     block_free_m (freeS1 s p) (freePrv s p) = true →
     ∀ jp, jp < 13 → freePrv s p ∈ s.flists jp →
     freePrv s p + block_size_m s (freePrv s p) + 8 = p - 4 →
     free_ s (some p) = freeTF s p ∧
     freeTFsz s p = block_size_m s (freePrv s p) + block_size_m s (p - 4) + 8 ∧
     readW (block_mark (freeTF3 s p) (freePrv s p)).mem (freePrv s p) =
       freeTFsz s p ||| (readW s.mem (freePrv s p) &&& 7) ∧
     block_size_m (block_mark (freeTF3 s p) (freePrv s p)) (freePrv s p) =
       freeTFsz s p ∧
     block_free_m (block_mark (freeTF3 s p) (freePrv s p)) (freePrv s p) = true ∧
     freePrv s p ∈ (free_ s (some p)).flists (get_class (freeTFsz s p))) ∧
    (block_free_m (freeS1 s p) (freeNxt s p) = false →
     block_free_m (freeS1 s p) (freePrv s p) = false →
     free_ s (some p) = add (freeS1 s p) (p - 4) ∧
     readW (free_ s (some p)).mem (p - 4) =
       readW s.mem (p - 4) - readW s.mem (p - 4) % 2 ∧
     block_size_m (free_ s (some p)) (p - 4) = block_size_m s (p - 4) ∧
     block_free_m (free_ s (some p)) (p - 4) = true ∧
     p - 4 ∈ (free_ s (some p)).flists
       (get_class (block_size_m s (p - 4)))) := by
  refine ⟨?_, ?_, ?_, ?_⟩
  · intro hc1 hc2 jp hjp hpm hadjp jn hjn hnm
    have heq : free_ s (some p) = freeTT s p := by
      rw [free_cases, if_pos hc1, if_pos hc2]
    obtain ⟨e1, e2, e3, e4, e5⟩ :=
      freeTT_spec s p hwf hlo hnsz8 hnsz hext hdisjn jp hjp hpm hadjp jn hjn hnm
    refine ⟨heq, e1, e2, e3, e4, ?_⟩
    rw [heq]
    exact e5
  · intro hc1 hc2 jn hjn hnm
    have heq : free_ s (some p) = freeFT s p := by
      rw [free_cases, if_pos hc1, if_neg (by rw [hc2]; simp)]
    obtain ⟨e1, e2, e3, e4, e5, e6⟩ :=
      freeFT_spec s p hwf hlo hnsz8 hnsz hext hdisjn jn hjn hnm
    refine ⟨heq, e1, e2, e3, e4, e5, ?_⟩
    rw [heq]
    exact e6
  · intro hc1 hc2 jp hjp hpm hadjp
    have heq : free_ s (some p) = freeTF s p := by
      rw [free_cases, if_neg (by rw [hc1]; simp), if_pos hc2]
    obtain ⟨e1, e2, e3, e4, e5⟩ :=
      freeTF_spec s p hwf hdisjn hnsz8 hext jp hjp hpm hadjp
    refine ⟨heq, e1, e2, e3, e4, ?_⟩
    rw [heq]
    exact e5
  · intro hc1 hc2
    have heq : free_ s (some p) = add (freeS1 s p) (p - 4) := by
      rw [free_cases, if_neg (by rw [hc1]; simp), if_neg (by rw [hc2]; simp)]
    obtain ⟨e1, e2, e3, e4⟩ := freeFF_spec s p hwf hlo hnsz hext hdisjn
    rw [heq]
    exact ⟨rfl, e1, e2, e3, e4⟩

/-- C2 counterexample to the final sentence of the claim: release the
24-byte block at payload 16 of a heap whose neighbours are both
allocated.  free takes the no-merge path and only clears ALLOC in the
header (25 becomes 24) and links the block into class list 2; it never
re-marks, so the block's footer at 40 still holds the stale
allocated-time header copy 25.  Re-marking the freed block (what
block_mark would do, shown last) would rewrite that footer to 24. -/
theorem C2_counterexample :
    block_free_m (free_ (malloc (malloc mm_init 24).2 1).2 (some 16)) 12 = true ∧
    12 ∈ (free_ (malloc (malloc mm_init 24).2 1).2 (some 16)).flists 2 ∧
    readW (free_ (malloc (malloc mm_init 24).2 1).2 (some 16)).mem 12 = 24 ∧
    readW (free_ (malloc (malloc mm_init 24).2 1).2 (some 16)).mem 40 = 25 ∧
    readW (block_mark (free_ (malloc (malloc mm_init 24).2 1).2 (some 16)) 12).mem
      40 = 24 :=
  ⟨by decide, by decide, by decide, by decide, by decide⟩

/-- C2 witness: the amended case law applied to the well-formed heap
stC3, freeing the allocated 24-byte block at payload 32 whose left
neighbour (the free 8-block at 12, class 0) and right neighbour (the
free 24-block at 60, class 2) are both free: the three-way merge forms
a 72-byte block at 12. -/
theorem C2_free_coalesce_cases_witness :
    WF stC3 ∧
    block_free_m (freeS1 stC3 32) (freeNxt stC3 32) = true ∧
    block_free_m (freeTT2 stC3 32) (freePrv stC3 32) = true ∧
    (free_ stC3 (some 32) = freeTT stC3 32 ∧
     freeTTsz stC3 32 = block_size_m stC3 (freePrv stC3 32) +
       block_size_m stC3 (32 - 4) + block_size_m stC3 (freeNxt stC3 32) + 16 ∧
     readW (block_mark (freeTT4 stC3 32) (freePrv stC3 32)).mem (freePrv stC3 32) =
       freeTTsz stC3 32 ||| (readW stC3.mem (freePrv stC3 32) &&& 7) ∧
     block_size_m (block_mark (freeTT4 stC3 32) (freePrv stC3 32))
       (freePrv stC3 32) = freeTTsz stC3 32 ∧
     block_free_m (block_mark (freeTT4 stC3 32) (freePrv stC3 32))
       (freePrv stC3 32) = true ∧
     freePrv stC3 32 ∈ (free_ stC3 (some 32)).flists
       (get_class (freeTTsz stC3 32))) :=
  ⟨by decide, by decide, by decide,
    (C2_free_coalesce_cases stC3 32 (by decide) (by decide) (by decide) (by decide)
      (by decide) (by decide)).1 (by decide) (by decide) 0 (by decide) (by decide)
      (by decide) 2 (by decide) (by decide)⟩



section ReallocBase

lemma realloc_cases (s : St) (op n0 : Nat) (hn0 : ¬ n0 = 0) :
    realloc s (some op) n0 =
      if block_size_m s (op - 4) = sizeAlign8 n0 then (some op, s)
      else if block_free_m s (reNxt s op) then
        if block_free_m s (rePrv s op) then
          if sizeAlign8 n0 ≤ reTTsz s op then
            reallocTail (reTT3 s op) (rePrv s op) op (block_size_m s (op - 4))
              (sizeAlign8 n0)
          else relocate s op (block_size_m s (op - 4)) (sizeAlign8 n0)
        else
          if sizeAlign8 n0 ≤ reFTsz s op then (some op, reFT4 s op)
          else relocate s op (block_size_m s (op - 4)) (sizeAlign8 n0)
      else
        if block_free_m s (rePrv s op) then
          if sizeAlign8 n0 ≤ reTFsz s op then
            reallocTail (reTF2 s op) (rePrv s op) op (block_size_m s (op - 4))
              (sizeAlign8 n0)
          else relocate s op (block_size_m s (op - 4)) (sizeAlign8 n0)
        else relocate s op (block_size_m s (op - 4)) (sizeAlign8 n0) := by
  unfold realloc
  rw [if_neg hn0]
  rfl

lemma delete_readW_wf (s : St) (b j t : Nat) (hwf : WF s) (hj : j < 13)
    (hbm : b ∈ s.flists j)
    (ht : ∀ a ∈ s.flists j, t + 4 ≤ a + 4 ∨ a + 12 ≤ t) :
    readW (delete s b).mem t = readW s.mem t := by
  have hnodes := hwf.2.2.2.2.2.2.1
  have hcls : block_class_m s b = j := (hnodes j hj b hbm).2.2.2.2.2.2
  unfold delete
  rw [hcls]
  apply flist_delete_readW s j b t hbm (hwf.2.2.2.2.2.2.2.2.2 j hj)
    (fun a ha => (hnodes j hj a ha).1) ?_ ht
  intro a ha c hc
  exact hsepG_of_wf s hwf j hj a ha j hj c hc

lemma readB_of_readW_eq (m m' : Mem) (a : Nat) (h : readW m a = readW m' a) :
    ∀ k, k < 4 → readB m (a + k) = readB m' (a + k) := by
  have b0 := readB_lt m a
  have b1 := readB_lt m (a + 1)
  have b2 := readB_lt m (a + 2)
  have b3 := readB_lt m (a + 3)
  have c0 := readB_lt m' a
  have c1 := readB_lt m' (a + 1)
  have c2 := readB_lt m' (a + 2)
  have c3 := readB_lt m' (a + 3)
  unfold readW at h
  intro k hk
  interval_cases k
  · simp only [Nat.add_zero]
    omega
  · omega
  · omega
  · omega

end ReallocBase



section Delete2

lemma delete2_readW_wf (s : St) (b1 j1 b2 j2 t : Nat) (hwf : WF s)
    (hj1 : j1 < 13) (hm1 : b1 ∈ s.flists j1)
    (hj2 : j2 < 13) (hm2 : b2 ∈ s.flists j2)
    (hne : ¬ b2 = b1)
    (ht : ∀ j, j < 13 → ∀ a ∈ s.flists j, t + 4 ≤ a + 4 ∨ a + 12 ≤ t) :
    readW (delete (delete s b1) b2).mem t = readW (delete s b1).mem t := by
  have hnodes := hwf.2.2.2.2.2.2.1
  have hnd := hwf.2.2.2.2.2.2.2.1
  have hlinks := hwf.2.2.2.2.2.2.2.2.2
  have hsepG := hsepG_of_wf s hwf
  have hlb : s.lbound % 4294967296 = 0 := hwf.1
  have hhiE : s.heapHi = s.epilog + 3 := hwf.2.2.2.1
  have hspan : s.heapHi < s.lbound + 4294967296 := hwf.2.2.2.2.2.1
  obtain ⟨hplo, hpmod, hpext, hp8, hpmod8, hpfree, hpcls⟩ := hnodes j2 hj2 _ hm2
  obtain ⟨hnxlo, hnxmod, hnxext, hnx8, hnxmod8, hnxfree, hnxcls⟩ :=
    hnodes j1 hj1 _ hm1
  have hlo1 : ∀ a ∈ s.flists j1, s.lbound + 12 ≤ a :=
    fun a ha => (hnodes j1 hj1 a ha).1
  have hlop : ∀ a ∈ s.flists j2, s.lbound + 12 ≤ a :=
    fun a ha => (hnodes j2 hj2 a ha).1
  have hcls1 : block_class_m s b1 = j1 := hnxcls
  have hlb2 : (delete s b1).lbound = s.lbound := by
    unfold delete
    exact (flist_delete_fields _ _ _).1
  have htb2J : ∀ j, j < 13 → ∀ a ∈ s.flists j,
      b2 + 4 ≤ a + 4 ∨ a + 12 ≤ b2 := by
    intro j hj a ha
    rcases hsepG j2 hj2 b2 hm2 j hj a ha with h | h | h <;> omega
  have h2prv : readW (delete s b1).mem b2 = readW s.mem b2 :=
    delete_readW_wf s b1 j1 b2 hwf hj1 hm1 (fun a ha => htb2J j1 hj1 a ha)
  have hcls2 : block_class_m (delete s b1) b2 = j2 := by
    unfold block_class_m
    have hs : block_size_m (delete s b1) b2 = block_size_m s b2 := by
      unfold block_size_m
      rw [h2prv]
    rw [hs]
    exact hpcls
  show readW (flist_delete (delete s b1) b2
    (block_class_m (delete s b1) b2)).mem t = _
  rw [hcls2]
  by_cases hjj : j2 = j1
  · subst hjj
    obtain ⟨⟨k1, hk1⟩, hget1⟩ := List.mem_iff_get.mp hm1
    have hcyc1 : cyc (s.flists j2) k1 = b1 := by
      rw [cyc_lt _ k1 hk1]
      exact hget1
    have hnx1d : next_ s b1 = some (cyc (s.flists j2) (k1 + 1)) := by
      rw [← hcyc1]
      exact next_decode s _ k1 hk1 (hlinks j2 hj2) hlo1
    have hpv1d : prev_ s b1 =
        some (cyc (s.flists j2) (k1 + (s.flists j2).length - 1)) := by
      rw [← hcyc1]
      exact prev_decode s _ k1 hk1 (hlinks j2 hj2) hlo1
    obtain ⟨nx1, hnx1⟩ : ∃ v, cyc (s.flists j2) (k1 + 1) = v := ⟨_, rfl⟩
    obtain ⟨pv1, hpv1⟩ :
        ∃ v, cyc (s.flists j2) (k1 + (s.flists j2).length - 1) = v := ⟨_, rfl⟩
    rw [hnx1] at hnx1d
    rw [hpv1] at hpv1d
    have hlne : s.flists j2 ≠ [] := List.ne_nil_of_mem hm1
    have hnx1m : nx1 ∈ s.flists j2 := by
      rw [← hnx1]
      exact cyc_mem _ _ hlne
    have hpv1m : pv1 ∈ s.flists j2 := by
      rw [← hpv1]
      exact cyc_mem _ _ hlne
    obtain ⟨hnx1lo, _, hnx1ext, hnx1sz, _, _, _⟩ := hnodes j2 hj2 nx1 hnx1m
    obtain ⟨hpv1lo, _, hpv1ext, hpv1sz, _, _, _⟩ := hnodes j2 hj2 pv1 hpv1m
    have hnx1ne : ¬ nx1 = b1 := by
      intro h
      have h2 : 2 ≤ (s.flists j2).length := by
        by_contra hle
        push_neg at hle
        have hlen1 : (s.flists j2).length = 1 := by
          have := List.length_pos.mpr hlne
          omega
        obtain ⟨⟨kp, hkp⟩, hgetp⟩ := List.mem_iff_get.mp hm2
        obtain ⟨⟨kn, hkn⟩, hgetn⟩ := List.mem_iff_get.mp hm1
        apply hne
        rw [← hgetp, ← hgetn]
        congr 1
        omega
      obtain ⟨hne1, _⟩ := cyc_index_ne (s.flists j2) k1 hk1 h2 (hnd j2 hj2)
      rw [hnx1, hcyc1] at hne1
      exact hne1 h
    have hsep1 : nx1 + 16 ≤ b1 ∨ b1 + 16 ≤ nx1 := by
      rcases hsepG j2 hj2 nx1 hnx1m j2 hj2 b1 hm1 with h | h | h
      · exact absurd h hnx1ne
      · exact Or.inl h
      · exact Or.inr h
    have hmm2 : (delete s b1).mem =
        writeW (writeW s.mem (nx1 + 4) pv1) (pv1 + 8) nx1 := by
      unfold delete
      rw [hcls1]
      exact flist_delete_mem_eq s j2 b1 nx1 pv1 hnx1d hpv1d hnx1ne (by omega)
    obtain ⟨⟨kp, hkp⟩, hgetp⟩ := List.mem_iff_get.mp hm2
    have hcycp : cyc (s.flists j2) kp = b2 := by
      rw [cyc_lt _ kp hkp]
      exact hgetp
    have hnxpd : next_ s b2 = some (cyc (s.flists j2) (kp + 1)) := by
      rw [← hcycp]
      exact next_decode s _ kp hkp (hlinks j2 hj2) hlop
    have hpvpd : prev_ s b2 =
        some (cyc (s.flists j2) (kp + (s.flists j2).length - 1)) := by
      rw [← hcycp]
      exact prev_decode s _ kp hkp (hlinks j2 hj2) hlop
    obtain ⟨sucp, hsucp⟩ : ∃ v, cyc (s.flists j2) (kp + 1) = v := ⟨_, rfl⟩
    obtain ⟨prep, hprep⟩ :
        ∃ v, cyc (s.flists j2) (kp + (s.flists j2).length - 1) = v := ⟨_, rfl⟩
    rw [hsucp] at hnxpd
    rw [hprep] at hpvpd
    have hsucpm : sucp ∈ s.flists j2 := by
      rw [← hsucp]
      exact cyc_mem _ _ hlne
    have hprepm : prep ∈ s.flists j2 := by
      rw [← hprep]
      exact cyc_mem _ _ hlne
    obtain ⟨hsucplo, _, hsucpext, _, _, _, _⟩ := hnodes j2 hj2 sucp hsucpm
    obtain ⟨hpreplo, _, hprepext, _, _, _, _⟩ := hnodes j2 hj2 prep hprepm
    have hn2 : next_ (delete s b1) b2 =
        some (if b2 = pv1 then nx1 else sucp) := by
      by_cases hpp : b2 = pv1
      · rw [if_pos hpp]
        unfold next_
        rw [hmm2, hlb2, hpp, readW_writeW_same]
        rw [if_neg (by omega)]
        congr 1
        omega
      · rw [if_neg hpp]
        have hsepp : pv1 + 16 ≤ b2 ∨ b2 + 16 ≤ pv1 := by
          rcases hsepG j2 hj2 pv1 hpv1m j2 hj2 b2 hm2 with h | h | h
          · exact absurd h.symm hpp
          · exact Or.inl h
          · exact Or.inr h
        have hsepx : nx1 = b2 ∨ nx1 + 16 ≤ b2 ∨ b2 + 16 ≤ nx1 :=
          hsepG j2 hj2 nx1 hnx1m j2 hj2 b2 hm2
        have hrw : readW (delete s b1).mem (b2 + 8) = readW s.mem (b2 + 8) := by
          rw [hmm2]
          rw [readW_writeW_out _ _ _ _ (by omega)]
          rcases hsepx with h | h | h
          · rw [readW_writeW_out _ _ _ _ (by omega)]
          · rw [readW_writeW_out _ _ _ _ (by omega)]
          · rw [readW_writeW_out _ _ _ _ (by omega)]
        unfold next_ at hnxpd ⊢
        rw [hrw, hlb2]
        exact hnxpd
    have hp2 : prev_ (delete s b1) b2 =
        some (if b2 = nx1 then pv1 else prep) := by
      by_cases hpx : b2 = nx1
      · rw [if_pos hpx]
        unfold prev_
        rw [hmm2, hlb2, hpx]
        have hsepp : pv1 = nx1 ∨ pv1 + 16 ≤ nx1 ∨ nx1 + 16 ≤ pv1 :=
          hsepG j2 hj2 pv1 hpv1m j2 hj2 nx1 hnx1m
        rw [readW_writeW_out _ _ _ _ (by rcases hsepp with h | h | h <;> omega)]
        rw [readW_writeW_same]
        rw [if_neg (by omega)]
        congr 1
        omega
      · rw [if_neg hpx]
        have hsepx : nx1 + 16 ≤ b2 ∨ b2 + 16 ≤ nx1 := by
          rcases hsepG j2 hj2 nx1 hnx1m j2 hj2 b2 hm2 with h | h | h
          · exact absurd h.symm hpx
          · exact Or.inl h
          · exact Or.inr h
        have hsepp : pv1 = b2 ∨ pv1 + 16 ≤ b2 ∨ b2 + 16 ≤ pv1 :=
          hsepG j2 hj2 pv1 hpv1m j2 hj2 b2 hm2
        have hrw : readW (delete s b1).mem (b2 + 4) = readW s.mem (b2 + 4) := by
          rw [hmm2]
          have h1 : readW (writeW (writeW s.mem (nx1 + 4) pv1)
              (pv1 + 8) nx1) (b2 + 4) =
              readW (writeW s.mem (nx1 + 4) pv1) (b2 + 4) := by
            apply readW_writeW_out
            rcases hsepp with h | h | h <;> omega
          rw [h1, readW_writeW_out _ _ _ _ (by omega)]
        unfold prev_ at hpvpd ⊢
        rw [hrw, hlb2]
        exact hpvpd
    apply flist_delete_readW_gen
    by_cases hsing2 : (if b2 = pv1 then nx1 else sucp) = b2
    · left
      rw [hn2, hsing2]
    · right
      refine ⟨if b2 = pv1 then nx1 else sucp,
        if b2 = nx1 then pv1 else prep, hn2, hp2, hsing2, ?_, ?_, ?_⟩
      · by_cases hpp : b2 = pv1
        · rw [if_pos hpp] at hsing2 ⊢
          rcases hsepG j2 hj2 nx1 hnx1m j2 hj2 b2 hm2 with h | h | h
          · exact absurd h hsing2
          · left
            omega
          · right
            omega
        · rw [if_neg hpp] at hsing2 ⊢
          rcases hsepG j2 hj2 sucp hsucpm j2 hj2 b2 hm2 with h | h | h
          · exact absurd h hsing2
          · left
            omega
          · right
            omega
      · by_cases hpp : b2 = pv1
        · rw [if_pos hpp]
          rcases ht j2 hj2 nx1 hnx1m with h | h <;> omega
        · rw [if_neg hpp]
          rcases ht j2 hj2 sucp hsucpm with h | h <;> omega
      · by_cases hpx : b2 = nx1
        · rw [if_pos hpx]
          rcases ht j2 hj2 pv1 hpv1m with h | h <;> omega
        · rw [if_neg hpx]
          rcases ht j2 hj2 prep hprepm with h | h <;> omega
  · have hfl2 : (delete s b1).flists j2 = s.flists j2 := by
      unfold delete
      rw [hcls1, flist_delete_flists]
      split_ifs
      · simp [setList, hjj]
      · simp [setList, hjj]
    have hfld2 : ∀ a ∈ s.flists j2,
        readW (delete s b1).mem (a + 4) = readW s.mem (a + 4) ∧
        readW (delete s b1).mem (a + 8) = readW s.mem (a + 8) := by
      intro a ha
      have hta : ∀ x ∈ s.flists j1, a + 4 + 4 ≤ x + 4 ∨ x + 12 ≤ a + 4 := by
        intro x hx
        rcases hsepG j2 hj2 a ha j1 hj1 x hx with h | h | h
        · exfalso
          obtain ⟨_, _, _, hx8, _, _, _⟩ := hnodes j1 hj1 x hx
          rcases hwf.2.2.2.2.2.2.2.2.1 j2 hj2 a ha j1 hj1 x hx with
            ⟨hij, _⟩ | h2 | h2
          · exact hjj hij
          · omega
          · omega
        · omega
        · omega
      have hta8 : ∀ x ∈ s.flists j1, a + 8 + 4 ≤ x + 4 ∨ x + 12 ≤ a + 8 := by
        intro x hx
        rcases hsepG j2 hj2 a ha j1 hj1 x hx with h | h | h
        · exfalso
          obtain ⟨_, _, _, hx8, _, _, _⟩ := hnodes j1 hj1 x hx
          rcases hwf.2.2.2.2.2.2.2.2.1 j2 hj2 a ha j1 hj1 x hx with
            ⟨hij, _⟩ | h2 | h2
          · exact hjj hij
          · omega
          · omega
        · omega
        · omega
      exact ⟨delete_readW_wf s b1 j1 _ hwf hj1 hm1 hta,
        delete_readW_wf s b1 j1 _ hwf hj1 hm1 hta8⟩
    have hlinks2 : linksOK (delete s b1) (s.flists j2) := by
      apply linksOK_pres s (delete s b1) _ hlb2 hfld2 (hlinks j2 hj2)
    apply flist_delete_readW (delete s b1) j2 b2 t
      (by rw [hfl2]; exact hm2) (by rw [hfl2]; exact hlinks2) ?_ ?_ ?_
    · intro a ha
      rw [hfl2] at ha
      rw [hlb2]
      exact (hnodes j2 hj2 a ha).1
    · intro a ha c hc
      rw [hfl2] at ha hc
      exact hsepG j2 hj2 a ha j2 hj2 c hc
    · intro a ha
      rw [hfl2] at ha
      exact ht j2 hj2 a ha

end Delete2


end MM
